import Mathlib

/-!
# GSE emulation core adapters: a shallow embedding

This development embeds the glue code of the GSE adapters
(`externals/mgba/gse_glue.c` and `externals/mesen/gse_glue.cpp`) and proves
properties of the Virtual RTC, the savestate cache and the save-data codec.

Conventions of the embedding.

* `uint32_t` values are naturals below `2 ^ 32`; every arithmetic result that
  is stored in a `uint32_t` is reduced modulo `2 ^ 32`.
* `int64_t` values are integers in `[-2 ^ 63, 2 ^ 63)`; `x++` on an `int64_t`
  is the two's complement increment `wrapI64 (x + 1)`, which is `x + 1` for
  every `x` below `INT64_MAX` (the increment of `INT64_MAX` is undefined in C).
* A byte buffer is a `List Nat`; a byte is read as `b % 256`.  A C pointer to a
  buffer is the list itself, a pointer that may be null is an `Option`.
* The emulation backends (mGBA, Mesen) are external: what a backend does during
  one call is passed to the embedded function as an explicit argument.
-/

set_option linter.unusedVariables false

namespace GSE

/-! ## Machine integers and byte buffers -/

/-- Reduction of a natural number to a `uint32_t`. -/
def u32 (n : Nat) : Nat := n % 2 ^ 32

/-- Conversion of an integer to a `uint32_t` (C conversion to unsigned). -/
def intToU32 (i : Int) : Nat := (i % 2 ^ 32).toNat

/-- Two's complement reduction of an integer to an `int64_t`. -/
def wrapI64 (i : Int) : Int := (i + 2 ^ 63) % 2 ^ 64 - 2 ^ 63

/-- Conversion of an `int64_t` to the `uint64_t` with the same bits. -/
def toU64 (i : Int) : Nat := (i % 2 ^ 64).toNat

/-- Conversion of a `uint64_t` to the `int64_t` with the same bits. -/
def toI64 (n : Nat) : Int :=
  if n % 2 ^ 64 < 2 ^ 63 then ((n % 2 ^ 64 : Nat) : Int) else ((n % 2 ^ 64 : Nat) : Int) - 2 ^ 64

/-- The value is representable as an `int64_t`. -/
def IsI64 (i : Int) : Prop := -(2 ^ 63) ≤ i ∧ i < 2 ^ 63

instance (i : Int) : Decidable (IsI64 i) := by unfold IsI64; infer_instance

/-- Embedding of `memcpy(dest + off, src, n)` on buffers, counted in elements: elements
`[off, off + n)` of `dest` are replaced by the first `n` elements of `src`.  The
C call is defined when `off + n ≤ dest.length` and `n ≤ src.length`. -/
def memcpy {α : Type} (dest : List α) (off : Nat) (src : List α) (n : Nat) : List α :=
  dest.take off ++ src.take n ++ dest.drop (off + n)

/-- Little-endian value of the `n` bytes of `mem` starting at offset `off`. -/
def loadLE : Nat → List Nat → Nat → Nat
  | 0, _, _ => 0
  | n + 1, mem, off => mem.getD off 0 % 256 + 256 * loadLE n mem (off + 1)

/-- The `n` little-endian bytes of `v`. -/
def storeLE : Nat → Nat → List Nat
  | 0, _ => []
  | n + 1, v => v % 256 :: storeLE n (v / 256)

/-- Embedding of `LOAD_64LE(dest, off, mem)` of mGBA: read a little-endian 64-bit value. -/
def LOAD_64LE (mem : List Nat) (off : Nat) : Nat := loadLE 8 mem off

/-- Embedding of `LOAD_32LE(dest, off, mem)` of mGBA: read a little-endian 32-bit value. -/
def LOAD_32LE (mem : List Nat) (off : Nat) : Nat := loadLE 4 mem off

/-- Embedding of `STORE_64LE(src, off, mem)` of mGBA: write a little-endian 64-bit value. -/
def STORE_64LE (v : Nat) (off : Nat) (mem : List Nat) : List Nat :=
  memcpy mem off (storeLE 8 v) 8

/-- Embedding of `STORE_32LE(src, off, mem)` of mGBA: write a little-endian 32-bit value. -/
def STORE_32LE (v : Nat) (off : Nat) (mem : List Nat) : List Nat :=
  memcpy mem off (storeLE 4 v) 4

end GSE

namespace Mgba

open GSE

/-! ## mGBA adapter: Virtual RTC (`externals/mgba/gse_glue.c`) -/

/-- Embedding of `GSE_Rtc`: the adapter's RTC source (the `mRTCSource base` holds only the
callback pointers). -/
structure GSE_Rtc where
  unix_time : Int
  cycles : Nat
  frequency : Nat
  deserialization_success : Bool
deriving DecidableEq, Repr

/-- The fields hold values of their C types (`int64_t`, `uint32_t`, `uint32_t`). -/
def GSE_Rtc.WF (rtc : GSE_Rtc) : Prop :=
  IsI64 rtc.unix_time ∧ rtc.cycles < 2 ^ 32 ∧ rtc.frequency < 2 ^ 32

instance (rtc : GSE_Rtc) : Decidable rtc.WF := by unfold GSE_Rtc.WF; infer_instance

/-- Embedding of `rtc_unix_time_callback`. -/
def rtc_unix_time_callback (rtc : GSE_Rtc) : Int := rtc.unix_time

/-- Embedding of `GSE_RTC_MAGIC`: the characters `GSERTCST`, first character in the lowest byte. -/
def GSE_RTC_MAGIC : Nat :=
  ('G'.toNat <<< 0) ||| ('S'.toNat <<< 8) ||| ('E'.toNat <<< 16) ||| ('R'.toNat <<< 24) |||
    ('T'.toNat <<< 32) ||| ('C'.toNat <<< 40) ||| ('S'.toNat <<< 48) ||| ('T'.toNat <<< 56)

/-- Embedding of `sizeof(GSE_RtcState)`: `uint64_t magic` at offset 0, `int64_t unix_time` at
offset 8, `uint32_t cycles` at offset 16 and four bytes of tail padding (8-byte
alignment of the 64-bit members). -/
def sizeof_GSE_RtcState : Nat := 24

/-- Embedding of `struct mStateExtdataItem` of mGBA: `int32_t size`, `void* data` and the
`clean` function pointer (`true` when a function is installed). -/
structure mStateExtdataItem where
  size : Int
  data : Option (List Nat)
  clean : Bool
deriving DecidableEq, Repr

/-- Embedding of `rtc_serialize_callback`.  The argument `block` is the result of
`malloc(sizeof(GSE_RtcState))`: `none` when the allocation fails, otherwise the
fresh block with its indeterminate initial contents.  On failure the item is
cleared by `memset`. -/
def rtc_serialize_callback (rtc : GSE_Rtc) (block : Option (List Nat)) : mStateExtdataItem :=
  match block with
  | none => { size := 0, data := none, clean := false }
  | some rtcState =>
    let rtcState := STORE_64LE GSE_RTC_MAGIC 0 rtcState
    let rtcState := STORE_64LE (toU64 rtc.unix_time) 8 rtcState
    let rtcState := STORE_32LE rtc.cycles 16 rtcState
    { size := sizeof_GSE_RtcState, data := some rtcState, clean := true }

/-- Embedding of `rtc_deserialize_callback`: the returned flag and the RTC source after the
call. -/
def rtc_deserialize_callback (rtc : GSE_Rtc) (item : mStateExtdataItem) : Bool × GSE_Rtc :=
  match item.data with
  | none => (false, rtc)
  | some rtcState =>
    if item.size ≠ sizeof_GSE_RtcState then (false, rtc)
    else
      let magic := LOAD_64LE rtcState 0
      if magic ≠ GSE_RTC_MAGIC then (false, rtc)
      else
        let rtc := { rtc with unix_time := toI64 (LOAD_64LE rtcState 8) }
        let rtc := { rtc with cycles := LOAD_32LE rtcState 16 }
        let rtc := { rtc with cycles := rtc.cycles % rtc.frequency }
        let rtc := { rtc with deserialization_success := true }
        (true, rtc)

/-- The acceptance test of `rtc_deserialize_callback` on its own: non-null data,
size equal to `sizeof(GSE_RtcState)` and a matching magic. -/
def rtc_item_accepted (item : mStateExtdataItem) : Bool :=
  match item.data with
  | none => false
  | some rtcState =>
    decide (item.size = sizeof_GSE_RtcState) && decide (LOAD_64LE rtcState 0 = GSE_RTC_MAGIC)

/-- The Virtual RTC invariant: the accumulator is below the frequency. -/
def GSE_Rtc.Inv (rtc : GSE_Rtc) : Prop := rtc.cycles < rtc.frequency

instance (rtc : GSE_Rtc) : Decidable rtc.Inv := by unfold GSE_Rtc.Inv; infer_instance

/-! ## mGBA adapter: audio stream -/

/-- Embedding of `struct mStereoSample` of mGBA: one `int16_t` per channel. -/
structure mStereoSample where
  left : Int
  right : Int
deriving DecidableEq, Repr

/-- Embedding of `GSE_Audio`: the adapter's audio stream; `samples` has `0x2000` entries. -/
structure GSE_Audio where
  sample_rate : Nat
  sample_rate_quotient : Nat
  sample_index : Nat
  samples : List mStereoSample
deriving DecidableEq, Repr

/-- Embedding of `audio_rate_changed_callback`. -/
def audio_rate_changed_callback (audio : GSE_Audio) (rate : Nat) : GSE_Audio :=
  { audio with sample_rate_quotient := audio.sample_rate / rate }

/-- The `for` loop of `post_audio_frame_callback` with `n` iterations left. -/
def post_audio_frame_loop : Nat → GSE_Audio → Int → Int → GSE_Audio
  | 0, audio, _, _ => audio
  | n + 1, audio, left, right =>
    if audio.sample_index = 0x2000 then audio
    else
      post_audio_frame_loop n
        { audio with
          samples := audio.samples.set audio.sample_index ⟨left, right⟩
          sample_index := u32 (audio.sample_index + 1) } left right

/-- Embedding of `post_audio_frame_callback`. -/
def post_audio_frame_callback (audio : GSE_Audio) (left right : Int) : GSE_Audio :=
  post_audio_frame_loop audio.sample_rate_quotient audio left right

/-- One callback of the `mAVStream` installed by the adapter. -/
inductive AVEvent where
  | audioRateChanged (rate : Nat)
  | postAudioFrame (left right : Int)
deriving DecidableEq, Repr

/-- Dispatch of one `mAVStream` callback. -/
def AVEvent.apply (audio : GSE_Audio) : AVEvent → GSE_Audio
  | .audioRateChanged rate => audio_rate_changed_callback audio rate
  | .postAudioFrame left right => post_audio_frame_callback audio left right

/-! ## mGBA adapter: context and operations -/

/-- Embedding of `GBA_VIDEO_HORIZONTAL_PIXELS * GBA_VIDEO_VERTICAL_PIXELS` (240 × 160). -/
def GBA_VIDEO_PIXELS : Nat := 240 * 160

/-- Embedding of `GSE_ctx`, restricted to the memory the adapter itself reads and writes:
the frame buffer `vbuf`, `color_lut` (`0x8000` entries), the savestate cache
`state_vf` (`none` for `NULL`, otherwise the contents of the memory file), the
RTC source and the audio stream.  The core object, the ROM, BIOS and save
images and their files are only handed to the backend. -/
structure GSE_ctx where
  vbuf : List Nat
  color_lut : List Nat
  state_vf : Option (List Nat)
  rtc_source : GSE_Rtc
  audio_stream : GSE_Audio
deriving DecidableEq, Repr

/-- What the core does to the adapter's memory during `reset` or `runFrame`:
the contents it leaves in the frame buffer and the `mAVStream` callbacks it
makes, in order. -/
structure CoreEffect where
  vbuf : List Nat
  events : List AVEvent
deriving DecidableEq, Repr

/-- The adapter's memory after a core call with the given effect. -/
def CoreEffect.apply (ctx : GSE_ctx) (e : CoreEffect) : GSE_ctx :=
  { ctx with
    vbuf := e.vbuf
    audio_stream := e.events.foldl AVEvent.apply ctx.audio_stream }

/-- Outcomes of the library and backend calls made by `mgba_create`, in the
order of the calls (`true` for a non-null or successful result), the values
reported by the core, and the effect of the final resets. -/
structure CreateEnv where
  calloc_ok : Bool
  GBACoreCreate_ok : Bool
  init_ok : Bool
  malloc_rom_ok : Bool
  rom_vf_ok : Bool
  loadROM_ok : Bool
  bios_vf_ok : Bool
  loadBIOS_ok : Bool
  sram_vf_ok : Bool
  frequency : Nat
  audioSampleRate : Nat
  reset : CoreEffect
deriving DecidableEq, Repr

/-- Embedding of `mgba_create`: `none` for a `NULL` return.  `calloc` zero-fills the
context. -/
def mgba_create (romData : List Nat) (romLength : Nat) (biosData : List Nat) (biosLength : Nat)
    (forceDisableRtc : Bool) (rtcStartTime : Int) (env : CreateEnv) : Option GSE_ctx :=
  if !env.calloc_ok then none
  else if biosLength ≠ 0x4000 then none
  else if !env.GBACoreCreate_ok then none
  else if !env.init_ok then none
  else if !env.malloc_rom_ok then none
  else if !env.rom_vf_ok then none
  else if !env.loadROM_ok then none
  else if !env.bios_vf_ok then none
  else if !env.loadBIOS_ok then none
  else if !env.sram_vf_ok then none
  else
    let ctx : GSE_ctx :=
      { vbuf := List.replicate GBA_VIDEO_PIXELS 0
        color_lut := List.replicate 0x8000 0
        state_vf := none
        rtc_source :=
          { unix_time := rtcStartTime
            cycles := 0
            frequency := env.frequency
            deserialization_success := false }
        audio_stream :=
          { sample_rate := env.frequency / (0x200 >>> 3)
            sample_rate_quotient := env.frequency / (0x200 >>> 3) / env.audioSampleRate
            sample_index := 0
            samples := List.replicate 0x2000 ⟨0, 0⟩ } }
    some (env.reset.apply ctx)

/-- Embedding of `mgba_setcolorlut`. -/
def mgba_setcolorlut (ctx : GSE_ctx) (colorLut : List Nat) : GSE_ctx :=
  { ctx with color_lut := memcpy ctx.color_lut 0 colorLut 0x8000 }

/-- The RTC update closing `mgba_advance`: `cycles += *cpuCycles` in `uint32_t`
arithmetic, then a single conditional carry into `unix_time`. -/
def rtc_add_cycles (rtc : GSE_Rtc) (cpuCycles : Nat) : GSE_Rtc :=
  let rtc := { rtc with cycles := u32 (rtc.cycles + cpuCycles) }
  if rtc.cycles ≥ rtc.frequency then
    let rtc := { rtc with unix_time := wrapI64 (rtc.unix_time + 1) }
    { rtc with cycles := u32 (rtc.cycles - rtc.frequency) }
  else rtc

/-- The arguments of one `mgba_advance` call together with what the core does
during it: the caller's buffers, the effect of `runFrame`, and the values of
`mTimingCurrentTime` (an `int32_t`) before and after the frame. -/
structure AdvanceCall where
  buttons : Nat
  videoBuf : List Nat
  soundBuf : List Int
  frame : CoreEffect
  startCycle : Int
  endCycle : Int
deriving DecidableEq, Repr

/-- The value stored in `*cpuCycles`: the `int32_t` difference converted to
`uint32_t`. -/
def AdvanceCall.cpuCycles (c : AdvanceCall) : Nat := intToU32 (c.endCycle - c.startCycle)

/-- The context and the output arguments after `mgba_advance`. -/
structure AdvanceResult where
  ctx : GSE_ctx
  videoBuf : List Nat
  soundBuf : List Int
  samples : Nat
  cpuCycles : Nat
deriving DecidableEq, Repr

/-- The interleaved `int16_t` view of a sample array. -/
def interleave (samples : List mStereoSample) : List Int :=
  samples.flatMap fun s => [s.left, s.right]

/-- Embedding of `mgba_advance`. -/
def mgba_advance (ctx : GSE_ctx) (c : AdvanceCall) : AdvanceResult :=
  let ctx := c.frame.apply ctx
  let video := (List.range GBA_VIDEO_PIXELS).map fun i =>
    ctx.color_lut.getD (ctx.vbuf.getD i 0 &&& 0x7FFF) 0
  let videoBuf := memcpy c.videoBuf 0 video GBA_VIDEO_PIXELS
  let samples := ctx.audio_stream.sample_index
  let soundBuf := memcpy c.soundBuf 0 (interleave ctx.audio_stream.samples) (2 * samples)
  let ctx := { ctx with audio_stream := { ctx.audio_stream with sample_index := 0 } }
  let cpuCycles := c.cpuCycles
  let ctx := { ctx with rtc_source := rtc_add_cycles ctx.rtc_source cpuCycles }
  { ctx := ctx, videoBuf := videoBuf, soundBuf := soundBuf, samples := samples,
    cpuCycles := cpuCycles }

/-- A run of `mgba_advance` calls, one per element, keeping only the context. -/
def advance_all (ctx : GSE_ctx) (calls : List AdvanceCall) : GSE_ctx :=
  calls.foldl (fun ctx c => (mgba_advance ctx c).ctx) ctx

/-- Embedding of `mgba_reset`. -/
def mgba_reset (ctx : GSE_ctx) (reset : CoreEffect) : GSE_ctx := reset.apply ctx

/-- Embedding of `mgba_loadsavedata`: the save file write goes to the backend; the RTC is
restarted at `rtcStartTime`. -/
def mgba_loadsavedata (ctx : GSE_ctx) (data : List Nat) (size : Nat) (rtcStartTime : Int) :
    GSE_ctx :=
  let ctx := { ctx with rtc_source := { ctx.rtc_source with unix_time := rtcStartTime } }
  { ctx with rtc_source := { ctx.rtc_source with cycles := 0 } }

/-- Embedding of `mgba_getrtctime`. -/
def mgba_getrtctime (ctx : GSE_ctx) : Int := ctx.rtc_source.unix_time

/-- Embedding of `mgba_getsavestatelength`.  The argument `saved` is the outcome of
`mCoreSaveStateNamed` on the fresh memory file: `none` when it fails, otherwise
the serialized state left in the file.  Returns the `uint32_t` result and the
context. -/
def mgba_getsavestatelength (ctx : GSE_ctx) (saved : Option (List Nat)) : Nat × GSE_ctx :=
  let ctx := if ctx.state_vf.isSome then { ctx with state_vf := none } else ctx
  match saved with
  | none => (0, { ctx with state_vf := none })
  | some blob =>
    let ctx := { ctx with state_vf := some blob }
    (u32 blob.length, ctx)

/-- Embedding of `mgba_savestate`: the returned flag, the caller's buffer and the context. -/
def mgba_savestate (ctx : GSE_ctx) (stateBuf : List Nat) : Bool × List Nat × GSE_ctx :=
  match ctx.state_vf with
  | none => (false, stateBuf, ctx)
  | some blob =>
    let stateBuf := memcpy stateBuf 0 blob blob.length
    (true, stateBuf, { ctx with state_vf := none })

/-- What the core does during `mCoreLoadStateNamed`: its result, the extdata
items it hands to the RTC source's `deserialize` callback (in order, possibly
none), and its effect on the frame buffer and audio stream. -/
structure LoadEffect where
  ret : Bool
  items : List mStateExtdataItem
  core : CoreEffect
deriving DecidableEq, Repr

/-- The RTC source after the core has presented `items` to
`rtc_deserialize_callback`, one call per item. -/
def deserialize_all (rtc : GSE_Rtc) (items : List mStateExtdataItem) : GSE_Rtc :=
  items.foldl (fun rtc item => (rtc_deserialize_callback rtc item).2) rtc

/-- Embedding of `mgba_loadstate`: the returned flag and the context. -/
def mgba_loadstate (ctx : GSE_ctx) (stateBuf : List Nat) (size : Nat) (rtcTime : Int)
    (load : LoadEffect) : Bool × GSE_ctx :=
  let ctx := { ctx with rtc_source := { ctx.rtc_source with deserialization_success := false } }
  let ctx := load.core.apply ctx
  let ctx := { ctx with rtc_source := deserialize_all ctx.rtc_source load.items }
  let ret := load.ret
  let ctx :=
    if !ctx.rtc_source.deserialization_success then
      let ctx := { ctx with rtc_source := { ctx.rtc_source with unix_time := rtcTime } }
      { ctx with rtc_source := { ctx.rtc_source with cycles := 0 } }
    else ctx
  (ret, ctx)

end Mgba

namespace Mesen

open GSE

/-! ## Mesen adapter (`externals/mesen/gse_glue.cpp`) -/

/-- Embedding of `GSEAudioProvider::StereoSample`. -/
structure StereoSample where
  left : Int
  right : Int
deriving DecidableEq, Repr

/-- Embedding of `GSEAudioProvider`: `samples` has 8192 entries. -/
structure GSEAudioProvider where
  samples : List StereoSample
  sample_index : Nat
deriving DecidableEq, Repr

/-- Embedding of `GSEAudioProvider::MixAudio`; the buffer `out` is viewed as stereo pairs.
The sum `sample_index + sampleCount` is computed in `uint32_t`. -/
def GSEAudioProvider.MixAudio (p : GSEAudioProvider) (out : List StereoSample)
    (sampleCount sampleRate : Nat) : GSEAudioProvider :=
  let sampleCount :=
    if u32 (p.sample_index + sampleCount) ≥ 8192 then intToU32 (8192 - (p.sample_index : Int))
    else sampleCount
  let p := { p with samples := memcpy p.samples p.sample_index out sampleCount }
  { p with sample_index := u32 (p.sample_index + sampleCount) }

/-- Embedding of `GSEBatteryProvider`: the two battery files kept by the adapter. -/
structure GSEBatteryProvider where
  sav : List Nat
  rtc : List Nat
deriving DecidableEq, Repr

/-- Embedding of `std::vector<uint8_t>::resize(n)`: truncate, or extend with zero bytes. -/
def resize (v : List Nat) (n : Nat) : List Nat :=
  v.take n ++ List.replicate (n - v.length) 0

/-- Embedding of `GSEBatteryProvider::SaveBattery`. -/
def GSEBatteryProvider.SaveBattery (p : GSEBatteryProvider) (extension : String)
    (data : List Nat) (length : Nat) : GSEBatteryProvider :=
  let p :=
    if extension == ".sav" then { p with sav := memcpy (resize p.sav length) 0 data length }
    else p
  if extension == ".rtc" then { p with rtc := memcpy (resize p.rtc length) 0 data length }
  else p

/-- Embedding of `GSEBatteryProvider::LoadBattery`. -/
def GSEBatteryProvider.LoadBattery (p : GSEBatteryProvider) (extension : String) : List Nat :=
  if extension == ".sav" then p.sav
  else if extension == ".rtc" then p.rtc
  else []

/-- Embedding of `GSEInputProvider`. -/
structure GSEInputProvider where
  keys : Nat
deriving DecidableEq, Repr

/-- Embedding of `GSE_ctx` of the Mesen adapter, restricted to the memory the adapter itself
reads and writes; `GbaCustomDate` is the field of the emulator settings that
the adapter uses as RTC time.  The emulator and console objects are external. -/
structure GSE_ctx where
  color_lut : List Nat
  audio_provider : GSEAudioProvider
  battery_provider : GSEBatteryProvider
  input_provider : GSEInputProvider
  state_buf : List Nat
  GbaCustomDate : Int
deriving DecidableEq, Repr

/-- One `SaveBattery` call made by the console on the battery provider. -/
structure BatteryWrite where
  extension : String
  data : List Nat
  length : Nat
deriving DecidableEq, Repr

/-- The battery provider after `console->SaveBattery()`, which issues the given
`SaveBattery` calls in order. -/
def console_SaveBattery (p : GSEBatteryProvider) (writes : List BatteryWrite) :
    GSEBatteryProvider :=
  writes.foldl (fun p w => p.SaveBattery w.extension w.data w.length) p

/-- Embedding of `mesen_savesavedata`: the returned `uint32_t`, the caller's buffer and the
context.  `writes` are the `SaveBattery` calls of the console. -/
def mesen_savesavedata (ctx : GSE_ctx) (dest : List Nat) (writes : List BatteryWrite) :
    Nat × List Nat × GSE_ctx :=
  let ctx := { ctx with battery_provider := console_SaveBattery ctx.battery_provider writes }
  let savSize := u32 ctx.battery_provider.sav.length
  let rtcSize := u32 ctx.battery_provider.rtc.length
  let dest := if savSize > 0 then memcpy dest 0 ctx.battery_provider.sav savSize else dest
  let dest := if rtcSize > 0 then memcpy dest savSize ctx.battery_provider.rtc rtcSize else dest
  (u32 (savSize + rtcSize), dest, ctx)

/-- Embedding of `mesen_loadsavedata` up to the call of `console->LoadBattery()`, which reads
the battery provider into the console.  `data` holds at least `size` bytes;
`~0xFF` is `0xFFFFFF00` in `uint32_t`. -/
def mesen_loadsavedata (ctx : GSE_ctx) (data : List Nat) (size : Nat) (rtcStartTime : Int) :
    GSE_ctx :=
  let savSize := u32 ctx.battery_provider.sav.length
  let rtcSize := u32 ctx.battery_provider.rtc.length
  let ctx :=
    if savSize > 0 then
      let savSizeInData := size &&& 0xFFFFFF00
      { ctx with battery_provider := { ctx.battery_provider with
          sav := memcpy ctx.battery_provider.sav 0 data (min savSize savSizeInData) } }
    else ctx
  let ctx :=
    if rtcSize > 0 then
      let rtcSizeInData := size &&& 0xFF
      if rtcSize = rtcSizeInData then
        { ctx with battery_provider := { ctx.battery_provider with
            rtc := memcpy ctx.battery_provider.rtc 0 (data.drop (size - rtcSizeInData)) rtcSize } }
      else ctx
    else ctx
  { ctx with GbaCustomDate := rtcStartTime }

/-- Embedding of `mesen_getrtctime`. -/
def mesen_getrtctime (ctx : GSE_ctx) : Int := ctx.GbaCustomDate

/-- Embedding of `mesen_getsavestatelength`: `serialized` is the contents of `state_buf`
after `s.SaveTo(ctx->state_buf)`. -/
def mesen_getsavestatelength (ctx : GSE_ctx) (serialized : List Nat) : Nat × GSE_ctx :=
  let ctx := { ctx with state_buf := serialized }
  (u32 ctx.state_buf.length, ctx)

/-- Embedding of `mesen_savestate`: the returned flag, the caller's buffer and the context. -/
def mesen_savestate (ctx : GSE_ctx) (stateBuf : List Nat) : Bool × List Nat × GSE_ctx :=
  if ctx.state_buf.isEmpty then (false, stateBuf, ctx)
  else (true, memcpy stateBuf 0 ctx.state_buf ctx.state_buf.length, ctx)

end Mesen

namespace GSE

/-- The C function `memset(dest + off, v, n)` on buffers, counted in elements. -/
def memset {α : Type} (dest : List α) (off : Nat) (v : α) (n : Nat) : List α :=
  memcpy dest off (List.replicate n v) n

end GSE

namespace Mgba

open GSE

/-! ## mGBA adapter: calls made by `mgba_create` -/

/-- The library and backend calls of `mgba_create` that allocate, create, load
or release an object. -/
inductive CreateCall where
  | calloc_ctx
  | free_ctx
  | GBACoreCreate
  | core_init
  | core_deinit
  | malloc_rom
  | VFileFromMemory_rom
  | loadROM
  | rom_vf_close
  | VFileFromMemory_bios
  | loadBIOS
  | bios_vf_close
  | VFileFromMemory_sram
  | mgba_destroy
deriving DecidableEq, Repr

/-- The calls made by `mgba_create`, in order, up to its return; the outcomes
of the calls are those of `env`, as in `mgba_create`. -/
def mgba_create_calls (biosLength : Nat) (env : CreateEnv) : List CreateCall :=
  if !env.calloc_ok then [.calloc_ctx]
  else if biosLength ≠ 0x4000 then [.calloc_ctx, .free_ctx]
  else if !env.GBACoreCreate_ok then [.calloc_ctx, .GBACoreCreate, .free_ctx]
  else if !env.init_ok then
    [.calloc_ctx, .GBACoreCreate, .core_init, .core_deinit, .free_ctx]
  else if !env.malloc_rom_ok then
    [.calloc_ctx, .GBACoreCreate, .core_init, .malloc_rom, .mgba_destroy]
  else if !env.rom_vf_ok then
    [.calloc_ctx, .GBACoreCreate, .core_init, .malloc_rom, .VFileFromMemory_rom, .mgba_destroy]
  else if !env.loadROM_ok then
    [.calloc_ctx, .GBACoreCreate, .core_init, .malloc_rom, .VFileFromMemory_rom, .loadROM,
      .rom_vf_close, .mgba_destroy]
  else if !env.bios_vf_ok then
    [.calloc_ctx, .GBACoreCreate, .core_init, .malloc_rom, .VFileFromMemory_rom, .loadROM,
      .VFileFromMemory_bios, .mgba_destroy]
  else if !env.loadBIOS_ok then
    [.calloc_ctx, .GBACoreCreate, .core_init, .malloc_rom, .VFileFromMemory_rom, .loadROM,
      .VFileFromMemory_bios, .loadBIOS, .bios_vf_close, .mgba_destroy]
  else if !env.sram_vf_ok then
    [.calloc_ctx, .GBACoreCreate, .core_init, .malloc_rom, .VFileFromMemory_rom, .loadROM,
      .VFileFromMemory_bios, .loadBIOS, .VFileFromMemory_sram, .mgba_destroy]
  else
    [.calloc_ctx, .GBACoreCreate, .core_init, .malloc_rom, .VFileFromMemory_rom, .loadROM,
      .VFileFromMemory_bios, .loadBIOS, .VFileFromMemory_sram]

/-! ## Virtual RTC: the carry loop of the specification -/

/-- The loop `while accumulator >= frequency: accumulator -= frequency;
unixTime += 1` of the specification, with `fuel` iterations allowed; `unixTime`
is incremented as the 64-bit field of the adapter is.  `none` when the loop has
not finished within `fuel` iterations. -/
def spec_carry_loop : Nat → Nat → Int → Nat → Option (Nat × Int)
  | 0, _, _, _ => none
  | fuel + 1, accumulator, unixTime, frequency =>
    if accumulator ≥ frequency then
      spec_carry_loop fuel (accumulator - frequency) (wrapI64 (unixTime + 1)) frequency
    else some (accumulator, unixTime)

/-- The elapsed-cycle notification of the specification: `accumulator += Δ`
followed by the carry loop; the accumulator is an unbounded integer here. -/
def spec_rtc_notify (fuel : Nat) (rtc : GSE_Rtc) (delta : Nat) : Option GSE_Rtc :=
  match spec_carry_loop fuel (rtc.cycles + delta) rtc.unix_time rtc.frequency with
  | none => none
  | some (accumulator, unixTime) => some { rtc with cycles := accumulator, unix_time := unixTime }

end Mgba

namespace Mesen

open GSE

/-! ## Mesen adapter: creation and frame stepping -/

/-- The ROM padding loop of `mesen_create`: `while (paddedRomLength < romLength)
paddedRomLength <<= 1` on a `uint32_t`, with `fuel` iterations allowed.  `none`
when the loop has not finished within `fuel` iterations. -/
def pad_loop : Nat → Nat → Nat → Option Nat
  | 0, _, _ => none
  | fuel + 1, paddedRomLength, romLength =>
    if paddedRomLength < romLength then pad_loop fuel (u32 (paddedRomLength <<< 1)) romLength
    else some paddedRomLength

/-- The ROM padding of `mesen_create`: the padded length and the padded image
handed to the console, `none` when the padding loop does not finish.  The loop
is run with fuel 33; more fuel never changes its outcome for a 32-bit
`romLength`.  The array from `std::make_unique<uint8_t[]>` is zero-filled. -/
def padded_rom (romData : List Nat) (romLength : Nat) : Option (Nat × List Nat) :=
  match pad_loop 33 1 romLength with
  | none => none
  | some paddedRomLength =>
    let paddedRom := List.replicate paddedRomLength 0
    let paddedRom := memcpy paddedRom 0 romData romLength
    let paddedRom :=
      if romLength ≠ paddedRomLength then
        memset paddedRom romLength 0xFF (paddedRomLength - romLength)
      else paddedRom
    some (paddedRomLength, paddedRom)

/-- The parts of the Mesen core that `mesen_create` depends on: the constant
`GbaConsole::BootRomSize` and the outcome of `LoadRom` on the padded image
(`true` for `LoadRomResult::Success`). -/
structure CreateEnv where
  BootRomSize : Nat
  LoadRom : List Nat → Bool

/-- The outcome of `mesen_create`: the function does not return, returns
`nullptr`, or returns a context. -/
inductive CreateResult where
  | diverges
  | null
  | handle (ctx : GSE_ctx)
deriving DecidableEq, Repr

/-- Embedding of `mesen_create`.  The context starts with a zeroed colour table and
audio ring, empty battery files and an empty savestate cache; the start time
goes to the emulator settings. -/
def mesen_create (romData : List Nat) (romLength : Nat) (biosData : List Nat) (biosLength : Nat)
    (forceDisableRtc : Bool) (rtcStartTime : Int) (env : CreateEnv) : CreateResult :=
  if biosLength ≠ env.BootRomSize then .null
  else
    match padded_rom romData romLength with
    | none => .diverges
    | some (paddedRomLength, paddedRom) =>
      if !env.LoadRom paddedRom then .null
      else
        .handle
          { color_lut := List.replicate 0x8000 0
            audio_provider := { samples := List.replicate 8192 ⟨0, 0⟩, sample_index := 0 }
            battery_provider := { sav := [], rtc := [] }
            input_provider := { keys := 0 }
            state_buf := []
            GbaCustomDate := rtcStartTime }

/-- Embedding of `mesen_setcolorlut`. -/
def mesen_setcolorlut (ctx : GSE_ctx) (colorLut : List Nat) : GSE_ctx :=
  { ctx with color_lut := memcpy ctx.color_lut 0 colorLut 0x8000 }

/-- Embedding of `GbaConstants::PixelCount` of the Mesen core (240 × 160). -/
def PixelCount : Nat := 240 * 160

/-- One `MixAudio` call made by the sound mixer on the audio provider. -/
structure MixCall where
  out : List StereoSample
  sampleCount : Nat
  sampleRate : Nat
deriving DecidableEq, Repr

/-- What the console does to the adapter's memory during `ProcessEndOfFrame`
and `RunFrame`: the `MixAudio` calls it makes, in order, and the contents of the
PPU screen buffer (16-bit pixels) after the frame. -/
structure FrameEffect where
  mixes : List MixCall
  screenBuffer : List Nat
deriving DecidableEq, Repr

/-- The audio provider after the sound mixer has made the given `MixAudio`
calls, in order. -/
def run_mixes (p : GSEAudioProvider) (mixes : List MixCall) : GSEAudioProvider :=
  mixes.foldl (fun p m => p.MixAudio m.out m.sampleCount m.sampleRate) p

/-- The arguments of one `mesen_advance` call together with what the console
does during it: the caller's buffers, the effect of the frame, and the values of
`GetMasterClock` (a `uint64_t`) before and after the frame. -/
structure AdvanceCall where
  buttons : Nat
  videoBuf : List Nat
  soundBuf : List Int
  frame : FrameEffect
  startCycle : Nat
  endCycle : Nat
deriving DecidableEq, Repr

/-- The context and the output arguments after `mesen_advance`. -/
structure AdvanceResult where
  ctx : GSE_ctx
  videoBuf : List Nat
  soundBuf : List Int
  samples : Nat
  cpuCycles : Nat
deriving DecidableEq, Repr

/-- The interleaved `int16_t` view of a sample array. -/
def interleave (samples : List StereoSample) : List Int :=
  samples.flatMap fun s => [s.left, s.right]

/-- Embedding of `mesen_advance`. -/
def mesen_advance (ctx : GSE_ctx) (c : AdvanceCall) : AdvanceResult :=
  let ctx := { ctx with input_provider := { ctx.input_provider with keys := c.buttons } }
  let ctx := { ctx with audio_provider := run_mixes ctx.audio_provider c.frame.mixes }
  let screenBuffer := c.frame.screenBuffer
  let video := (List.range PixelCount).map fun i =>
    ctx.color_lut.getD (screenBuffer.getD i 0 &&& 0x7FFF) 0
  let videoBuf := memcpy c.videoBuf 0 video PixelCount
  let samples := ctx.audio_provider.sample_index
  let soundBuf := memcpy c.soundBuf 0 (interleave ctx.audio_provider.samples) (2 * samples)
  let ctx := { ctx with audio_provider := { ctx.audio_provider with sample_index := 0 } }
  let cpuCycles := intToU32 ((c.endCycle : Int) - (c.startCycle : Int))
  { ctx := ctx, videoBuf := videoBuf, soundBuf := soundBuf, samples := samples,
    cpuCycles := cpuCycles }

end Mesen

namespace ExportHelper

/-! ## Memory export table (`externals/native_helper/export_helper.c` and
`externals/export_helper/export_helper.c`, which differ only in the `GSE_` and
`GSR_` name prefixes) -/

/-- One exported pair `*_PTR`, `*_LEN`: a `void*` (0 for `NULL`) and a `size_t`. -/
structure MemExport where
  ptr : Nat
  len : Nat
deriving DecidableEq, Repr

/-- The six exported pairs, named after `enum MemExportType`. -/
structure Exports where
  GB_WRAM : MemExport
  GB_SRAM : MemExport
  GB_HRAM : MemExport
  GBA_IWRAM : MemExport
  GBA_EWRAM : MemExport
  GBA_SRAM : MemExport
deriving DecidableEq, Repr

/-- The static initializers: every pointer `NULL`, every length 0. -/
def Exports.initial : Exports :=
  { GB_WRAM := ⟨0, 0⟩, GB_SRAM := ⟨0, 0⟩, GB_HRAM := ⟨0, 0⟩,
    GBA_IWRAM := ⟨0, 0⟩, GBA_EWRAM := ⟨0, 0⟩, GBA_SRAM := ⟨0, 0⟩ }

/-- Embedding of `enum MemExportType`: the integer values of the six enumerators. -/
def MemExportType.GB_WRAM : Int := 0

/-- Embedding of the enumerator `GB_SRAM`. -/
def MemExportType.GB_SRAM : Int := 1

/-- Embedding of the enumerator `GB_HRAM`. -/
def MemExportType.GB_HRAM : Int := 2

/-- Embedding of the enumerator `GBA_IWRAM`. -/
def MemExportType.GBA_IWRAM : Int := 3

/-- Embedding of the enumerator `GBA_EWRAM`. -/
def MemExportType.GBA_EWRAM : Int := 4

/-- Embedding of the enumerator `GBA_SRAM`. -/
def MemExportType.GBA_SRAM : Int := 5

/-- Embedding of `export_helper_set_mem_export`; `which` is the integer value of the
`enum MemExportType` argument, and the `switch` has no `default` case. -/
def export_helper_set_mem_export (s : Exports) (which : Int) (ptr len : Nat) : Exports :=
  if which = MemExportType.GB_WRAM then { s with GB_WRAM := ⟨ptr, len⟩ }
  else if which = MemExportType.GB_SRAM then { s with GB_SRAM := ⟨ptr, len⟩ }
  else if which = MemExportType.GB_HRAM then { s with GB_HRAM := ⟨ptr, len⟩ }
  else if which = MemExportType.GBA_IWRAM then { s with GBA_IWRAM := ⟨ptr, len⟩ }
  else if which = MemExportType.GBA_EWRAM then { s with GBA_EWRAM := ⟨ptr, len⟩ }
  else if which = MemExportType.GBA_SRAM then { s with GBA_SRAM := ⟨ptr, len⟩ }
  else s

end ExportHelper

namespace Libmgba

open GSE

/-! ## libmgba adapter: generated colour table (`externals/libmgba/gsr_glue.c`) -/

/-- Embedding of `sameboy_agb_color_curve`. -/
def sameboy_agb_color_curve : List Nat :=
  [0, 3, 8, 14, 20, 26, 33, 40, 47, 54, 62, 70, 78, 86, 94, 103, 112, 120, 129, 138, 147, 157,
    166, 176, 185, 195, 205, 215, 225, 235, 245, 255]

/-- The value stored in `color_lut[i]` by the table loop of `mgba_create`.  The
argument `gamma_mix g b` stands for the floating-point expression
`round(pow((pow(g / 255.0, gamma) * 5 + pow(b / 255.0, gamma)) / 6, 1 / gamma) * 255)`,
whose result is stored in a `uint8_t`. -/
def color_entry (gamma_mix : Nat → Nat → Nat) (i : Nat) : Nat :=
  let r := (i &&& 0x1F) % 256
  let g := ((i >>> 5) &&& 0x1F) % 256
  let b := ((i >>> 10) &&& 0x1F) % 256
  let r := sameboy_agb_color_curve.getD r 0
  let g := sameboy_agb_color_curve.getD g 0
  let b := sameboy_agb_color_curve.getD b 0
  let g := if g ≠ b then gamma_mix g b % 256 else g
  u32 ((0xFF <<< 24) ||| (b <<< 16) ||| (g <<< 8) ||| r)

/-- The table loop of `mgba_create`, `for (uint32_t i = 0; i < 0x8000; i++)`,
from index `i` with `n` iterations left: each iteration writes `color_lut[i]`
and copies it to `color_lut[0x8000 + i]`. -/
def color_lut_loop (gamma_mix : Nat → Nat → Nat) : Nat → Nat → List Nat → List Nat
  | 0, _, color_lut => color_lut
  | n + 1, i, color_lut =>
    let color_lut := color_lut.set i (color_entry gamma_mix i)
    let color_lut := color_lut.set (0x8000 + i) (color_lut.getD i 0)
    color_lut_loop gamma_mix n (i + 1) color_lut

/-- Embedding of `GSR_ctx`, restricted to the memory the adapter itself reads and writes:
the frame buffer, `color_lut` (`0x10000` entries) and the savestate cache. -/
structure GSR_ctx where
  vbuf : List Nat
  color_lut : List Nat
  stateVf : Option (List Nat)
deriving DecidableEq, Repr

/-- Outcomes of the library and backend calls made by `mgba_create`, in the
order of the calls (`true` for a non-null or successful result), the mGBA
constant `SIZE_BIOS`, the floating-point expression of the table loop, and the
contents the final reset leaves in the frame buffer. -/
structure CreateEnv where
  SIZE_BIOS : Nat
  calloc_ok : Bool
  GBACoreCreate_ok : Bool
  init_ok : Bool
  malloc_rom_ok : Bool
  romVf_ok : Bool
  loadROM_ok : Bool
  biosVf_ok : Bool
  loadBIOS_ok : Bool
  sramVf_ok : Bool
  gamma_mix : Nat → Nat → Nat
  reset_vbuf : List Nat

/-- Embedding of `mgba_create` of the libmgba adapter: `none` for a `NULL` return.  `calloc`
zero-fills the context. -/
def mgba_create (romData : List Nat) (romLength : Nat) (biosData : List Nat) (biosLength : Nat)
    (env : CreateEnv) : Option GSR_ctx :=
  if !env.calloc_ok then none
  else if biosLength ≠ env.SIZE_BIOS then none
  else if !env.GBACoreCreate_ok then none
  else if !env.init_ok then none
  else if !env.malloc_rom_ok then none
  else if !env.romVf_ok then none
  else if !env.loadROM_ok then none
  else if !env.biosVf_ok then none
  else if !env.loadBIOS_ok then none
  else if !env.sramVf_ok then none
  else
    some
      { vbuf := env.reset_vbuf
        color_lut := color_lut_loop env.gamma_mix 0x8000 0 (List.replicate 0x10000 0)
        stateVf := none }

end Libmgba

/-! # Example inputs -/

namespace Mgba

/-- A creation environment in which every call succeeds, with the clock and
native audio rates of the GBA core and a core that leaves a black frame. -/
def exampleEnv : CreateEnv :=
  { calloc_ok := true, GBACoreCreate_ok := true, init_ok := true, malloc_rom_ok := true,
    rom_vf_ok := true, loadROM_ok := true, bios_vf_ok := true, loadBIOS_ok := true,
    sram_vf_ok := true, frequency := 16777216, audioSampleRate := 32768,
    reset := { vbuf := List.replicate GBA_VIDEO_PIXELS 0, events := [] } }

/-- The context returned by `mgba_create` in `exampleEnv` with start time 1000. -/
def exampleCtx : GSE_ctx :=
  { vbuf := List.replicate GBA_VIDEO_PIXELS 0
    color_lut := List.replicate 0x8000 0
    state_vf := none
    rtc_source :=
      { unix_time := 1000, cycles := 0, frequency := 16777216,
        deserialization_success := false }
    audio_stream :=
      { sample_rate := 262144, sample_rate_quotient := 8, sample_index := 0,
        samples := List.replicate 0x2000 ⟨0, 0⟩ } }

/-- An `mgba_advance` call whose frame posts no audio and during which the core
clock goes from `startCycle` to `endCycle`. -/
def exampleCall (startCycle endCycle : Int) : AdvanceCall :=
  { buttons := 0, videoBuf := [], soundBuf := [],
    frame := { vbuf := List.replicate GBA_VIDEO_PIXELS 0, events := [] },
    startCycle := startCycle, endCycle := endCycle }

/-- An `mgba_advance` call whose frame posts the audio frame `(3, -4)` once,
with a caller's sound buffer of 20 values 99. -/
def exampleAudioCall : AdvanceCall :=
  { buttons := 0, videoBuf := List.replicate GBA_VIDEO_PIXELS 0,
    soundBuf := List.replicate 20 99,
    frame := { vbuf := List.replicate GBA_VIDEO_PIXELS 0, events := [.postAudioFrame 3 (-4)] },
    startCycle := 0, endCycle := 280896 }

end Mgba

namespace Mesen

/-- A context of the Mesen adapter holding the given battery files, with zeroed
colour table and audio ring and an empty savestate cache. -/
def exampleCtx (sav rtc : List Nat) : GSE_ctx :=
  { color_lut := List.replicate 0x8000 0
    audio_provider := { samples := List.replicate 8192 ⟨0, 0⟩, sample_index := 0 }
    battery_provider := { sav := sav, rtc := rtc }
    input_provider := { keys := 0 }
    state_buf := []
    GbaCustomDate := 0 }

end Mesen

namespace Mesen

/-- An `mesen_advance` call whose frame makes the given `MixAudio` calls and
leaves a black screen, with empty caller buffers. -/
def exampleCall (mixes : List MixCall) : AdvanceCall :=
  { buttons := 0, videoBuf := [], soundBuf := [],
    frame := { mixes := mixes, screenBuffer := List.replicate PixelCount 0 },
    startCycle := 0, endCycle := 280896 }

/-- An `mesen_advance` call during which the sound mixer hands the two stereo
pairs `(1, 2)`, `(3, 4)` to `MixAudio` once, with a caller's sound buffer of six
values 99. -/
def exampleAudioCall : AdvanceCall :=
  { buttons := 0, videoBuf := List.replicate PixelCount 0, soundBuf := List.replicate 6 99,
    frame :=
      { mixes := [⟨[⟨1, 2⟩, ⟨3, 4⟩], 2, 48000⟩], screenBuffer := List.replicate PixelCount 0 },
    startCycle := 0, endCycle := 280896 }

/-- A Mesen core with a `0x4000`-byte boot ROM that accepts every image. -/
def exampleEnv : CreateEnv :=
  { BootRomSize := 0x4000, LoadRom := fun _ => true }

end Mesen

namespace Libmgba

/-- A creation environment of the libmgba adapter in which every call succeeds;
the floating-point mix is replaced by the green value. -/
def exampleEnv : CreateEnv :=
  { SIZE_BIOS := 0x4000, calloc_ok := true, GBACoreCreate_ok := true, init_ok := true,
    malloc_rom_ok := true, romVf_ok := true, loadROM_ok := true, biosVf_ok := true,
    loadBIOS_ok := true, sramVf_ok := true, gamma_mix := fun g _ => g, reset_vbuf := [] }

end Libmgba

/-! # Theorems -/

namespace GSE

/-! ## Machine integers and byte buffers: lemmas -/

theorem intToU32_lt (i : Int) : intToU32 i < 2 ^ 32 := by
  unfold intToU32; omega

theorem wrapI64_of_isI64 {i : Int} (h : IsI64 i) : wrapI64 i = i := by
  unfold IsI64 at h; unfold wrapI64; omega

theorem toI64_toU64 {i : Int} (h : IsI64 i) : toI64 (toU64 i) = i := by
  unfold IsI64 at h
  unfold toI64 toU64
  split <;> omega

theorem toU64_lt (i : Int) : toU64 i < 2 ^ 64 := by
  unfold toU64; omega

theorem length_storeLE (n v : Nat) : (storeLE n v).length = n := by
  induction n generalizing v with
  | zero => rfl
  | succ n ih => simp [storeLE, ih]

theorem loadLE_append_right (n : Nat) (xs ys : List Nat) (off : Nat) :
    loadLE n (xs ++ ys) (xs.length + off) = loadLE n ys off := by
  induction n generalizing off with
  | zero => rfl
  | succ n ih =>
    have h := ih (off + 1)
    rw [← Nat.add_assoc] at h
    simp [loadLE, h, List.getD_eq_getElem?_getD, List.getElem?_append_right]

theorem loadLE_storeLE (n v : Nat) (rest : List Nat) :
    loadLE n (storeLE n v ++ rest) 0 = v % 256 ^ n := by
  induction n generalizing v with
  | zero => simp [loadLE, Nat.mod_one]
  | succ n ih =>
    have h := loadLE_append_right n [v % 256] (storeLE n (v / 256) ++ rest) 0
    simp only [List.length_singleton, Nat.add_zero, List.singleton_append] at h
    simp only [loadLE, storeLE, List.cons_append, Nat.zero_add, h, ih, List.getD_cons_zero,
      Nat.mod_mod]
    rw [Nat.pow_succ, Nat.mul_comm (256 ^ n) 256, Nat.mod_mul]

theorem and_low_mask (n : Nat) : n &&& 0xFF = n % 256 :=
  Nat.and_pow_two_sub_one_eq_mod n 8

theorem and_high_mask (n : Nat) (h : n < 2 ^ 32) : n &&& 0xFFFFFF00 = n - n % 256 := by
  have e1 : n - n % 256 = 2 ^ 8 * (n >>> 8) := by rw [Nat.shiftRight_eq_div_pow]; omega
  have e2 : (0xFFFFFF00 : Nat) = 2 ^ 8 * (2 ^ 24 - 1) := by norm_num
  rw [e1, e2]
  apply Nat.eq_of_testBit_eq
  intro i
  rw [Nat.testBit_and, Nat.testBit_mul_pow_two, Nat.testBit_mul_pow_two,
    Nat.testBit_two_pow_sub_one, Nat.testBit_shiftRight]
  by_cases h8 : 8 ≤ i
  · by_cases h32 : i < 32
    · have : i - 8 < 24 := by omega
      simp [h8, this, Nat.add_sub_cancel' h8]
    · have hn : n.testBit i = false :=
        Nat.testBit_lt_two_pow (lt_of_lt_of_le h (Nat.pow_le_pow_right (by norm_num) (by omega)))
      simp [h8, hn, Nat.add_sub_cancel' h8]
  · simp [h8]

theorem u32_of_lt {n : Nat} (h : n < 2 ^ 32) : u32 n = n := Nat.mod_eq_of_lt h

theorem take_memcpy_zero {α : Type} (dest src : List α) :
    (memcpy dest 0 src src.length).take src.length = src := by
  unfold memcpy
  simp

theorem drop_memcpy_zero {α : Type} (dest src : List α) :
    (memcpy dest 0 src src.length).drop src.length = dest.drop src.length := by
  unfold memcpy
  simp

theorem ite_none_eq_some {α : Type} {c : Prop} [Decidable c] {x : Option α} {y : α}
    (h : (if c then none else x) = some y) : ¬c ∧ x = some y := by
  by_cases hc : c
  · rw [if_pos hc] at h; cases h
  · rw [if_neg hc] at h; exact ⟨hc, h⟩

theorem memcpy_zero_len {α : Type} (dest src : List α) (off : Nat) :
    memcpy dest off src 0 = dest := by
  unfold memcpy
  simp

theorem memcpy_zero {α : Type} (dest src : List α) :
    memcpy dest 0 src src.length = src ++ dest.drop src.length := by
  unfold memcpy
  simp

theorem memcpy_after {α : Type} (pre rest src : List α) :
    memcpy (pre ++ rest) pre.length src src.length = pre ++ (src ++ rest.drop src.length) := by
  unfold memcpy
  simp

theorem ite_memcpy {α : Type} (dest src : List α) (off : Nat) :
    (if src.length > 0 then memcpy dest off src src.length else dest)
      = memcpy dest off src src.length := by
  by_cases h : src.length > 0
  · rw [if_pos h]
  · rw [if_neg h]
    have h0 : src.length = 0 := by omega
    rw [h0, memcpy_zero_len]

theorem memcpy_replace {α : Type} (dest a b : List α) (h : dest.length = a.length) :
    memcpy dest 0 (a ++ b) a.length = a := by
  unfold memcpy
  rw [List.take_left, Nat.zero_add, List.drop_eq_nil_of_le (by omega)]
  simp

end GSE

namespace Mgba

open GSE

/-! ## Virtual RTC of the mGBA adapter -/

theorem mgba_advance_rtc (ctx : GSE_ctx) (c : AdvanceCall) :
    (mgba_advance ctx c).ctx.rtc_source = rtc_add_cycles ctx.rtc_source c.cpuCycles := rfl

theorem advance_all_cons (ctx : GSE_ctx) (c : AdvanceCall) (cs : List AdvanceCall) :
    advance_all ctx (c :: cs) = advance_all (mgba_advance ctx c).ctx cs := rfl

theorem rtc_add_cycles_frequency (rtc : GSE_Rtc) (d : Nat) :
    (rtc_add_cycles rtc d).frequency = rtc.frequency := by
  unfold rtc_add_cycles
  dsimp only
  split <;> rfl

theorem rtc_add_cycles_lt {rtc : GSE_Rtc} {d : Nat} (hf : rtc.frequency < 2 ^ 32)
    (h : rtc.cycles + d < rtc.frequency) :
    rtc_add_cycles rtc d = { rtc with cycles := rtc.cycles + d } := by
  have hu : u32 (rtc.cycles + d) = rtc.cycles + d := by unfold u32; omega
  unfold rtc_add_cycles
  simp only [hu, ge_iff_le]
  rw [if_neg (by omega)]

theorem rtc_add_cycles_eq {rtc : GSE_Rtc} {d : Nat} (hf : rtc.frequency < 2 ^ 32)
    (h : rtc.cycles + d = rtc.frequency) :
    rtc_add_cycles rtc d =
      { rtc with unix_time := wrapI64 (rtc.unix_time + 1), cycles := 0 } := by
  have hu : u32 (rtc.cycles + d) = rtc.frequency := by unfold u32; omega
  unfold rtc_add_cycles
  simp only [hu, ge_iff_le, le_refl, if_true, Nat.sub_self]
  rfl

theorem advance_all_lt (calls : List AdvanceCall) (ctx : GSE_ctx)
    (hf : ctx.rtc_source.frequency < 2 ^ 32)
    (h : ctx.rtc_source.cycles + (calls.map AdvanceCall.cpuCycles).sum
      < ctx.rtc_source.frequency) :
    (advance_all ctx calls).rtc_source =
      { ctx.rtc_source with
        cycles := ctx.rtc_source.cycles + (calls.map AdvanceCall.cpuCycles).sum } := by
  induction calls generalizing ctx with
  | nil => rfl
  | cons c cs ih =>
    simp only [List.map_cons, List.sum_cons] at h ⊢
    have h1 : (mgba_advance ctx c).ctx.rtc_source =
        { ctx.rtc_source with cycles := ctx.rtc_source.cycles + c.cpuCycles } := by
      rw [mgba_advance_rtc]; exact rtc_add_cycles_lt hf (by omega)
    rw [advance_all_cons, ih _ (by rw [h1]; exact hf) (by rw [h1]; dsimp only; omega), h1]
    simp [Nat.add_assoc]

theorem advance_all_eq (calls : List AdvanceCall) (ctx : GSE_ctx)
    (hf : ctx.rtc_source.frequency < 2 ^ 32)
    (ha : ctx.rtc_source.cycles < ctx.rtc_source.frequency)
    (h : ctx.rtc_source.cycles + (calls.map AdvanceCall.cpuCycles).sum
      = ctx.rtc_source.frequency) :
    (advance_all ctx calls).rtc_source =
      { ctx.rtc_source with
        unix_time := wrapI64 (ctx.rtc_source.unix_time + 1), cycles := 0 } := by
  induction calls generalizing ctx with
  | nil => simp at h; omega
  | cons c cs ih =>
    simp only [List.map_cons, List.sum_cons] at h
    by_cases hc : ctx.rtc_source.cycles + c.cpuCycles < ctx.rtc_source.frequency
    · have h1 : (mgba_advance ctx c).ctx.rtc_source =
          { ctx.rtc_source with cycles := ctx.rtc_source.cycles + c.cpuCycles } := by
        rw [mgba_advance_rtc]; exact rtc_add_cycles_lt hf hc
      rw [advance_all_cons, ih _ (by rw [h1]; exact hf) (by rw [h1]; exact hc)
        (by rw [h1]; dsimp only; omega), h1]
    · have h1 : (mgba_advance ctx c).ctx.rtc_source =
          { ctx.rtc_source with
            unix_time := wrapI64 (ctx.rtc_source.unix_time + 1), cycles := 0 } := by
        rw [mgba_advance_rtc]; exact rtc_add_cycles_eq hf (by omega)
      have h0 : (cs.map AdvanceCall.cpuCycles).sum = 0 := by omega
      rw [advance_all_cons, advance_all_lt cs _ (by rw [h1]; exact hf)
        (by rw [h1, h0]; dsimp only; omega), h1, h0]

theorem exampleCtx_created :
    mgba_create [] 0 [] 0x4000 false 1000 exampleEnv = some exampleCtx := rfl

/-- C1: starting from accumulator 0 with frequency `f > 0`, any run of
`mgba_advance` calls whose elapsed-cycle counts sum to exactly `f` increments
`unix_time` exactly once (the 64-bit increment, which is `unix_time + 1` below
`INT64_MAX`) and leaves the accumulator at 0; a run whose counts sum to `f - 1`
leaves `unix_time` unchanged. -/
theorem C1_rtc_one_period (ctx : GSE_ctx) (calls : List AdvanceCall)
    (hwf : ctx.rtc_source.WF) (hf : 0 < ctx.rtc_source.frequency)
    (h0 : ctx.rtc_source.cycles = 0) :
    ((calls.map AdvanceCall.cpuCycles).sum = ctx.rtc_source.frequency →
      (advance_all ctx calls).rtc_source.unix_time = wrapI64 (ctx.rtc_source.unix_time + 1) ∧
      (ctx.rtc_source.unix_time + 1 < 2 ^ 63 →
        (advance_all ctx calls).rtc_source.unix_time = ctx.rtc_source.unix_time + 1) ∧
      (advance_all ctx calls).rtc_source.cycles = 0) ∧
    ((calls.map AdvanceCall.cpuCycles).sum = ctx.rtc_source.frequency - 1 →
      (advance_all ctx calls).rtc_source.unix_time = ctx.rtc_source.unix_time) := by
  obtain ⟨hu, -, hfb⟩ := hwf
  constructor
  · intro hs
    rw [advance_all_eq calls ctx hfb (by omega) (by omega)]
    refine ⟨rfl, ?_, rfl⟩
    intro hlt
    exact wrapI64_of_isI64 ⟨by unfold IsI64 at hu; omega, hlt⟩
  · intro hs
    rw [advance_all_lt calls ctx hfb (by omega)]

/-- Witness for C1: two frames of 16000000 and 777216 cycles make up one period
of the 16777216 Hz clock; frames of 16000000 and 777215 cycles do not. -/
theorem C1_rtc_one_period_witness :
    exampleCtx.rtc_source.WF ∧ 0 < exampleCtx.rtc_source.frequency ∧
    exampleCtx.rtc_source.cycles = 0 ∧
    (advance_all exampleCtx [exampleCall 0 16000000, exampleCall 16000000 16777216]
      ).rtc_source.unix_time = 1001 ∧
    (advance_all exampleCtx [exampleCall 0 16000000, exampleCall 16000000 16777216]
      ).rtc_source.cycles = 0 ∧
    (advance_all exampleCtx [exampleCall 0 16000000, exampleCall 16000000 16777215]
      ).rtc_source.unix_time = 1000 :=
  ⟨by decide, by decide, rfl,
    ((C1_rtc_one_period exampleCtx [exampleCall 0 16000000, exampleCall 16000000 16777216]
      (by decide) (by decide) rfl).1 (by decide)).2.1 (by decide),
    ((C1_rtc_one_period exampleCtx [exampleCall 0 16000000, exampleCall 16000000 16777216]
      (by decide) (by decide) rfl).1 (by decide)).2.2,
    (C1_rtc_one_period exampleCtx [exampleCall 0 16000000, exampleCall 16000000 16777215]
      (by decide) (by decide) rfl).2 (by decide)⟩

theorem mgba_create_rtc {romData : List Nat} {romLength : Nat} {biosData : List Nat}
    {biosLength : Nat} {forceDisableRtc : Bool} {rtcStartTime : Int} {env : CreateEnv}
    {ctx : GSE_ctx}
    (h : mgba_create romData romLength biosData biosLength forceDisableRtc rtcStartTime env
      = some ctx) :
    ctx.rtc_source = ⟨rtcStartTime, 0, env.frequency, false⟩ := by
  unfold mgba_create at h
  obtain ⟨-, h⟩ := ite_none_eq_some h
  obtain ⟨-, h⟩ := ite_none_eq_some h
  obtain ⟨-, h⟩ := ite_none_eq_some h
  obtain ⟨-, h⟩ := ite_none_eq_some h
  obtain ⟨-, h⟩ := ite_none_eq_some h
  obtain ⟨-, h⟩ := ite_none_eq_some h
  obtain ⟨-, h⟩ := ite_none_eq_some h
  obtain ⟨-, h⟩ := ite_none_eq_some h
  obtain ⟨-, h⟩ := ite_none_eq_some h
  obtain ⟨-, h⟩ := ite_none_eq_some h
  rw [← Option.some.inj h]
  rfl

theorem rtc_deserialize_reject {item : mStateExtdataItem} (rtc : GSE_Rtc)
    (h : rtc_item_accepted item = false) : rtc_deserialize_callback rtc item = (false, rtc) := by
  unfold rtc_item_accepted at h
  unfold rtc_deserialize_callback
  cases hd : item.data with
  | none => rfl
  | some bytes =>
    rw [hd] at h
    simp only [Bool.and_eq_false_iff, decide_eq_false_iff_not] at h
    dsimp only
    rcases h with h | h
    · rw [if_pos h]
    · by_cases hs : item.size ≠ sizeof_GSE_RtcState
      · rw [if_pos hs]
      · rw [if_neg hs, if_pos h]

theorem rtc_deserialize_accept {item : mStateExtdataItem} {bytes : List Nat} (rtc : GSE_Rtc)
    (hd : item.data = some bytes) (hs : item.size = sizeof_GSE_RtcState)
    (hm : LOAD_64LE bytes 0 = GSE_RTC_MAGIC) :
    rtc_deserialize_callback rtc item =
      (true, ⟨toI64 (LOAD_64LE bytes 8), LOAD_32LE bytes 16 % rtc.frequency, rtc.frequency,
        true⟩) := by
  unfold rtc_deserialize_callback
  rw [hd]
  dsimp only
  rw [if_neg (by simp [hs]), if_neg (by simp [hm])]

theorem rtc_item_accepted_iff (item : mStateExtdataItem) :
    rtc_item_accepted item = true ↔
      ∃ bytes, item.data = some bytes ∧ item.size = sizeof_GSE_RtcState ∧
        LOAD_64LE bytes 0 = GSE_RTC_MAGIC := by
  unfold rtc_item_accepted
  cases hd : item.data with
  | none => simp
  | some bytes => simp

theorem rtc_deserialize_fst (rtc : GSE_Rtc) (item : mStateExtdataItem) :
    (rtc_deserialize_callback rtc item).1 = rtc_item_accepted item := by
  cases h : rtc_item_accepted item with
  | false => rw [rtc_deserialize_reject rtc h]
  | true =>
    obtain ⟨bytes, hd, hs, hm⟩ := (rtc_item_accepted_iff item).1 h
    rw [rtc_deserialize_accept rtc hd hs hm]

theorem rtc_deserialize_frequency (rtc : GSE_Rtc) (item : mStateExtdataItem) :
    (rtc_deserialize_callback rtc item).2.frequency = rtc.frequency := by
  cases h : rtc_item_accepted item with
  | false => rw [rtc_deserialize_reject rtc h]
  | true =>
    obtain ⟨bytes, hd, hs, hm⟩ := (rtc_item_accepted_iff item).1 h
    rw [rtc_deserialize_accept rtc hd hs hm]

theorem rtc_deserialize_inv (rtc : GSE_Rtc) (item : mStateExtdataItem) (h : rtc.Inv) :
    (rtc_deserialize_callback rtc item).2.Inv := by
  cases ha : rtc_item_accepted item with
  | false => rw [rtc_deserialize_reject rtc ha]; exact h
  | true =>
    obtain ⟨bytes, hd, hs, hm⟩ := (rtc_item_accepted_iff item).1 ha
    rw [rtc_deserialize_accept rtc hd hs hm]
    unfold GSE_Rtc.Inv at h ⊢
    exact Nat.mod_lt _ (by omega)

theorem deserialize_all_cons (rtc : GSE_Rtc) (item : mStateExtdataItem)
    (items : List mStateExtdataItem) :
    deserialize_all rtc (item :: items) =
      deserialize_all (rtc_deserialize_callback rtc item).2 items := rfl

theorem deserialize_all_frequency (items : List mStateExtdataItem) (rtc : GSE_Rtc) :
    (deserialize_all rtc items).frequency = rtc.frequency := by
  induction items generalizing rtc with
  | nil => rfl
  | cons item items ih => rw [deserialize_all_cons, ih, rtc_deserialize_frequency]

theorem deserialize_all_inv (items : List mStateExtdataItem) (rtc : GSE_Rtc) (h : rtc.Inv) :
    (deserialize_all rtc items).Inv := by
  induction items generalizing rtc with
  | nil => exact h
  | cons item items ih => rw [deserialize_all_cons]; exact ih _ (rtc_deserialize_inv rtc item h)

theorem mgba_loadstate_frequency (ctx : GSE_ctx) (stateBuf : List Nat) (size : Nat)
    (rtcTime : Int) (load : LoadEffect) :
    (mgba_loadstate ctx stateBuf size rtcTime load).2.rtc_source.frequency =
      ctx.rtc_source.frequency := by
  unfold mgba_loadstate
  dsimp only
  split
  · exact deserialize_all_frequency _ _
  · exact deserialize_all_frequency _ _

theorem mgba_loadstate_inv (ctx : GSE_ctx) (stateBuf : List Nat) (size : Nat)
    (rtcTime : Int) (load : LoadEffect) (h : ctx.rtc_source.Inv) :
    (mgba_loadstate ctx stateBuf size rtcTime load).2.rtc_source.Inv := by
  have hf : 0 < ctx.rtc_source.frequency := by unfold GSE_Rtc.Inv at h; omega
  have hfr := mgba_loadstate_frequency ctx stateBuf size rtcTime load
  unfold mgba_loadstate at hfr ⊢
  dsimp only at hfr ⊢
  split
  · rename_i hs
    rw [if_pos hs] at hfr
    unfold GSE_Rtc.Inv
    dsimp only at hfr ⊢
    omega
  · apply deserialize_all_inv
    unfold GSE_Rtc.Inv at h ⊢
    exact h

theorem rtc_add_cycles_inv_iff {rtc : GSE_Rtc} (d : Nat) (hwf : rtc.WF) (h : rtc.Inv) :
    (rtc_add_cycles rtc d).Inv ↔ u32 (rtc.cycles + d) < 2 * rtc.frequency := by
  obtain ⟨-, -, hf⟩ := hwf
  have hlt : u32 (rtc.cycles + d) < 2 ^ 32 := by unfold u32; omega
  unfold GSE_Rtc.Inv at h ⊢
  unfold rtc_add_cycles
  dsimp only
  by_cases hc : u32 (rtc.cycles + d) ≥ rtc.frequency
  · rw [if_pos hc]
    dsimp only
    have : u32 (u32 (rtc.cycles + d) - rtc.frequency) = u32 (rtc.cycles + d) - rtc.frequency := by
      generalize u32 (rtc.cycles + d) = x at hlt hc ⊢
      unfold u32; omega
    rw [this]
    omega
  · rw [if_neg hc]
    dsimp only
    omega

/-- C2 counterexample: in the context returned by `mgba_create` for the
16777216 Hz clock the accumulator is 0, but one `mgba_advance` whose frame
reports 50331648 elapsed cycles (three periods) carries only once and leaves the
accumulator at 33554432, which is not below the frequency. -/
theorem C2_rtc_invariant_counterexample :
    mgba_create [] 0 [] 0x4000 false 1000 exampleEnv = some exampleCtx ∧
    exampleCtx.rtc_source.cycles < exampleCtx.rtc_source.frequency ∧
    (exampleCall 0 50331648).cpuCycles = 50331648 ∧
    (mgba_advance exampleCtx (exampleCall 0 50331648)).ctx.rtc_source.cycles = 33554432 ∧
    (mgba_advance exampleCtx (exampleCall 0 50331648)).ctx.rtc_source.frequency = 16777216 ∧
    ¬ ((mgba_advance exampleCtx (exampleCall 0 50331648)).ctx.rtc_source.cycles <
      (mgba_advance exampleCtx (exampleCall 0 50331648)).ctx.rtc_source.frequency) :=
  ⟨rfl, by decide, by decide, by decide, by decide, by decide⟩

/-- C2 (amended): the accumulator is below the frequency after `mgba_create`
with a positive frequency, and in every state where it is below the frequency:
`mgba_advance` keeps it below the frequency exactly when the 32-bit sum of the
accumulator and the elapsed cycles is below twice the frequency, in particular
whenever the elapsed cycles do not exceed the frequency; `mgba_loadsavedata`,
`rtc_deserialize_callback` for every item and `mgba_loadstate` always keep it
below the frequency. -/
theorem C2_rtc_invariant (ctx : GSE_ctx) (hwf : ctx.rtc_source.WF) (hinv : ctx.rtc_source.Inv) :
    (∀ romData romLength biosData biosLength forceDisableRtc rtcStartTime env created,
      mgba_create romData romLength biosData biosLength forceDisableRtc rtcStartTime env
        = some created → 0 < env.frequency → created.rtc_source.Inv) ∧
    (∀ c : AdvanceCall, (mgba_advance ctx c).ctx.rtc_source.Inv ↔
      u32 (ctx.rtc_source.cycles + c.cpuCycles) < 2 * ctx.rtc_source.frequency) ∧
    (∀ c : AdvanceCall, c.cpuCycles ≤ ctx.rtc_source.frequency →
      (mgba_advance ctx c).ctx.rtc_source.Inv) ∧
    (∀ data size rtcStartTime, (mgba_loadsavedata ctx data size rtcStartTime).rtc_source.Inv) ∧
    (∀ item, (rtc_deserialize_callback ctx.rtc_source item).2.Inv) ∧
    (∀ stateBuf size rtcTime load,
      (mgba_loadstate ctx stateBuf size rtcTime load).2.rtc_source.Inv) := by
  refine ⟨?_, ?_, ?_, ?_, ?_, ?_⟩
  · intro romData romLength biosData biosLength forceDisableRtc rtcStartTime env created h hf
    rw [mgba_create_rtc h]
    exact hf
  · intro c
    rw [mgba_advance_rtc]
    exact rtc_add_cycles_inv_iff _ hwf hinv
  · intro c hc
    rw [mgba_advance_rtc]
    apply (rtc_add_cycles_inv_iff _ hwf hinv).2
    unfold GSE_Rtc.Inv at hinv
    unfold u32
    omega
  · intro data size rtcStartTime
    unfold GSE_Rtc.Inv at hinv ⊢
    unfold mgba_loadsavedata
    dsimp only
    omega
  · intro item
    exact rtc_deserialize_inv _ _ hinv
  · intro stateBuf size rtcTime load
    exact mgba_loadstate_inv ctx stateBuf size rtcTime load hinv

/-- Witness for C2: in `exampleCtx` a frame of 280896 cycles keeps the
accumulator below the frequency. -/
theorem C2_rtc_invariant_witness :
    exampleCtx.rtc_source.WF ∧ exampleCtx.rtc_source.Inv ∧
    (mgba_advance exampleCtx (exampleCall 0 280896)).ctx.rtc_source.Inv :=
  ⟨by decide, by decide,
    (C2_rtc_invariant exampleCtx (by decide) (by decide)).2.2.1 (exampleCall 0 280896)
      (by decide)⟩

/-! ## RTC state blob -/

/-- C3: `rtc_deserialize_callback` returns false and leaves `unix_time`,
`cycles`, `frequency` and `deserialization_success` as they were when the
item's data is null, when its size differs from `sizeof(GSE_RtcState)`, and when
the size matches but the stored little-endian magic differs from
`GSE_RTC_MAGIC`. -/
theorem C3_deserialize_reject_unchanged (rtc : GSE_Rtc) (item : mStateExtdataItem)
    (h : item.data = none ∨ item.size ≠ sizeof_GSE_RtcState ∨
      ∃ bytes, item.data = some bytes ∧ item.size = sizeof_GSE_RtcState ∧
        LOAD_64LE bytes 0 ≠ GSE_RTC_MAGIC) :
    (rtc_deserialize_callback rtc item).1 = false ∧
    (rtc_deserialize_callback rtc item).2.unix_time = rtc.unix_time ∧
    (rtc_deserialize_callback rtc item).2.cycles = rtc.cycles ∧
    (rtc_deserialize_callback rtc item).2.frequency = rtc.frequency ∧
    (rtc_deserialize_callback rtc item).2.deserialization_success
      = rtc.deserialization_success ∧
    (rtc_deserialize_callback rtc item).2 = rtc := by
  have hrej : rtc_item_accepted item = false := by
    cases ha : rtc_item_accepted item with
    | false => rfl
    | true =>
      obtain ⟨bytes, hd, hs, hm⟩ := (rtc_item_accepted_iff item).1 ha
      rcases h with h | h | ⟨bytes', hd', -, hm'⟩
      · rw [hd] at h; cases h
      · exact absurd hs h
      · rw [hd] at hd'; cases hd'; exact absurd hm hm'
  rw [rtc_deserialize_reject rtc hrej]
  exact ⟨rfl, rfl, rfl, rfl, rfl, rfl⟩

/-- Witness for C3: a 24-byte item whose magic has its first byte corrupted
(`X` for `G`) is rejected and the RTC source is unchanged. -/
theorem C3_deserialize_reject_unchanged_witness :
    (rtc_deserialize_callback ⟨1000, 5, 16777216, false⟩
      ⟨24, some [88, 83, 69, 82, 84, 67, 83, 84, 1, 0, 0, 0, 0, 0, 0, 0, 7, 0, 0, 0, 0, 0, 0, 0],
        true⟩).1 = false ∧
    (rtc_deserialize_callback ⟨1000, 5, 16777216, false⟩
      ⟨24, some [88, 83, 69, 82, 84, 67, 83, 84, 1, 0, 0, 0, 0, 0, 0, 0, 7, 0, 0, 0, 0, 0, 0, 0],
        true⟩).2 = ⟨1000, 5, 16777216, false⟩ :=
  have h := C3_deserialize_reject_unchanged ⟨1000, 5, 16777216, false⟩
    ⟨24, some [88, 83, 69, 82, 84, 67, 83, 84, 1, 0, 0, 0, 0, 0, 0, 0, 7, 0, 0, 0, 0, 0, 0, 0],
      true⟩
    (Or.inr (Or.inr ⟨_, rfl, by decide, by decide⟩))
  ⟨h.1, h.2.2.2.2.2⟩

/-- C4: `rtc_deserialize_callback` returns true exactly when the item's data is
non-null, its size is `sizeof(GSE_RtcState)` and its first 8 bytes read
little-endian are `GSE_RTC_MAGIC`; then, for a positive frequency, `unix_time`
is the stored 64-bit value, `cycles` is the stored 32-bit value modulo the
frequency, `deserialization_success` is true and `frequency` is unchanged. -/
theorem C4_deserialize_accept (rtc : GSE_Rtc) (item : mStateExtdataItem) :
    ((rtc_deserialize_callback rtc item).1 = true ↔
      ∃ bytes, item.data = some bytes ∧ item.size = sizeof_GSE_RtcState ∧
        LOAD_64LE bytes 0 = GSE_RTC_MAGIC) ∧
    (∀ bytes, item.data = some bytes → (rtc_deserialize_callback rtc item).1 = true →
      0 < rtc.frequency →
      (rtc_deserialize_callback rtc item).2.unix_time = toI64 (LOAD_64LE bytes 8) ∧
      (rtc_deserialize_callback rtc item).2.cycles = LOAD_32LE bytes 16 % rtc.frequency ∧
      (rtc_deserialize_callback rtc item).2.deserialization_success = true ∧
      (rtc_deserialize_callback rtc item).2.frequency = rtc.frequency) := by
  constructor
  · rw [rtc_deserialize_fst]
    exact rtc_item_accepted_iff item
  · intro bytes hd ht _
    rw [rtc_deserialize_fst] at ht
    obtain ⟨bytes', hd', hs, hm⟩ := (rtc_item_accepted_iff item).1 ht
    rw [hd] at hd'
    cases hd'
    rw [rtc_deserialize_accept rtc hd hs hm]
    dsimp only
    exact ⟨rfl, rfl, rfl, rfl⟩

/-- Witness for C4: a well-formed item storing time 1 and 20000000 cycles is
accepted by a source of frequency 16777216, which then holds time 1 and
20000000 mod 16777216 = 3222784 cycles. -/
theorem C4_deserialize_accept_witness :
    (rtc_deserialize_callback ⟨1000, 5, 16777216, false⟩
      ⟨24, some [71, 83, 69, 82, 84, 67, 83, 84, 1, 0, 0, 0, 0, 0, 0, 0, 0, 45, 49, 1,
        0, 0, 0, 0], true⟩).2.unix_time = 1 ∧
    (rtc_deserialize_callback ⟨1000, 5, 16777216, false⟩
      ⟨24, some [71, 83, 69, 82, 84, 67, 83, 84, 1, 0, 0, 0, 0, 0, 0, 0, 0, 45, 49, 1,
        0, 0, 0, 0], true⟩).2.cycles = 3222784 ∧
    (rtc_deserialize_callback ⟨1000, 5, 16777216, false⟩
      ⟨24, some [71, 83, 69, 82, 84, 67, 83, 84, 1, 0, 0, 0, 0, 0, 0, 0, 0, 45, 49, 1,
        0, 0, 0, 0], true⟩).2.deserialization_success = true ∧
    (rtc_deserialize_callback ⟨1000, 5, 16777216, false⟩
      ⟨24, some [71, 83, 69, 82, 84, 67, 83, 84, 1, 0, 0, 0, 0, 0, 0, 0, 0, 45, 49, 1,
        0, 0, 0, 0], true⟩).2.frequency = 16777216 :=
  have h := (C4_deserialize_accept ⟨1000, 5, 16777216, false⟩
    ⟨24, some [71, 83, 69, 82, 84, 67, 83, 84, 1, 0, 0, 0, 0, 0, 0, 0, 0, 45, 49, 1,
      0, 0, 0, 0], true⟩).2 _ rfl (by decide) (by decide)
  ⟨h.1.trans (by decide), h.2.1.trans (by decide), h.2.2.1, h.2.2.2⟩

theorem drop_storeLE (n k v : Nat) (h : n ≤ k) : (storeLE n v).drop k = [] :=
  List.drop_eq_nil_of_le (by rw [length_storeLE]; exact h)

theorem serialize_bytes (rtc : GSE_Rtc) (block : List Nat) (h : block.length = 24) :
    rtc_serialize_callback rtc (some block) =
      ⟨24, some (storeLE 8 GSE_RTC_MAGIC ++ (storeLE 8 (toU64 rtc.unix_time) ++
        (storeLE 4 rtc.cycles ++ block.drop 20))), true⟩ := by
  unfold rtc_serialize_callback STORE_64LE STORE_32LE memcpy
  simp [sizeof_GSE_RtcState, length_storeLE, List.take_append_eq_append_take,
    List.drop_append_eq_append_drop, h, List.take_of_length_le, drop_storeLE]

theorem serialize_loads (u c : Nat) (tail : List Nat) (hu : u < 2 ^ 64) (hc : c < 2 ^ 32) :
    LOAD_64LE (storeLE 8 GSE_RTC_MAGIC ++ (storeLE 8 u ++ (storeLE 4 c ++ tail))) 0
      = GSE_RTC_MAGIC ∧
    LOAD_64LE (storeLE 8 GSE_RTC_MAGIC ++ (storeLE 8 u ++ (storeLE 4 c ++ tail))) 8 = u ∧
    LOAD_32LE (storeLE 8 GSE_RTC_MAGIC ++ (storeLE 8 u ++ (storeLE 4 c ++ tail))) 16 = c := by
  unfold LOAD_64LE LOAD_32LE
  refine ⟨?_, ?_, ?_⟩
  · rw [loadLE_storeLE]
    decide
  · have h := loadLE_append_right 8 (storeLE 8 GSE_RTC_MAGIC)
      (storeLE 8 u ++ (storeLE 4 c ++ tail)) 0
    rw [length_storeLE] at h
    rw [h, loadLE_storeLE]
    exact Nat.mod_eq_of_lt hu
  · have h := loadLE_append_right 4 (storeLE 8 GSE_RTC_MAGIC ++ storeLE 8 u)
      (storeLE 4 c ++ tail) 0
    rw [List.length_append, length_storeLE, length_storeLE, List.append_assoc] at h
    rw [h, loadLE_storeLE]
    exact Nat.mod_eq_of_lt hc

/-- C5: for an RTC source with `cycles < frequency`, when the allocation
succeeds `rtc_serialize_callback` emits an item of size `sizeof(GSE_RtcState)`
whose first 8 bytes are `GSERTCST`; `rtc_deserialize_callback` accepts it on any
source of the same frequency, which then has the serialized `unix_time` and
`cycles`.  When the allocation fails the item is all-zero and is rejected. -/
theorem C5_rtc_roundtrip (src dst : GSE_Rtc) (block : List Nat) (hwf : src.WF)
    (hinv : src.cycles < src.frequency) (hfreq : dst.frequency = src.frequency)
    (hb : block.length = sizeof_GSE_RtcState) :
    (rtc_serialize_callback src (some block)).size = sizeof_GSE_RtcState ∧
    (∃ data, (rtc_serialize_callback src (some block)).data = some data ∧
      data.length = sizeof_GSE_RtcState ∧
      data.take 8 = ['G'.toNat, 'S'.toNat, 'E'.toNat, 'R'.toNat, 'T'.toNat, 'C'.toNat,
        'S'.toNat, 'T'.toNat]) ∧
    (rtc_deserialize_callback dst (rtc_serialize_callback src (some block))).1 = true ∧
    (rtc_deserialize_callback dst (rtc_serialize_callback src (some block))).2.unix_time
      = src.unix_time ∧
    (rtc_deserialize_callback dst (rtc_serialize_callback src (some block))).2.cycles
      = src.cycles ∧
    rtc_serialize_callback src none = ⟨0, none, false⟩ ∧
    rtc_deserialize_callback dst (rtc_serialize_callback src none) = (false, dst) := by
  obtain ⟨hut, hcy, -⟩ := hwf
  have hb24 : block.length = 24 := hb
  obtain ⟨hm, hu, hc⟩ := serialize_loads (toU64 src.unix_time) src.cycles (block.drop 20)
    (toU64_lt _) hcy
  rw [serialize_bytes src block hb24]
  rw [rtc_deserialize_accept dst rfl rfl hm, hu, hc, toI64_toU64 hut, hfreq,
    Nat.mod_eq_of_lt hinv]
  refine ⟨rfl, ⟨_, rfl, ?_, ?_⟩, rfl, rfl, rfl, rfl, rfl⟩
  · simp [length_storeLE, hb24, sizeof_GSE_RtcState]
  · rw [List.take_append_of_le_length (by rw [length_storeLE])]
    decide

/-- Witness for C5: the state (time -7, 9 cycles) serialized into a fresh block
of `0xFF` bytes is restored on another source of the same frequency. -/
theorem C5_rtc_roundtrip_witness :
    (rtc_deserialize_callback ⟨1000, 5, 16777216, false⟩
      (rtc_serialize_callback ⟨-7, 9, 16777216, false⟩ (some (List.replicate 24 255)))).1
      = true ∧
    (rtc_deserialize_callback ⟨1000, 5, 16777216, false⟩
      (rtc_serialize_callback ⟨-7, 9, 16777216, false⟩ (some (List.replicate 24 255)))
      ).2.unix_time = -7 ∧
    (rtc_deserialize_callback ⟨1000, 5, 16777216, false⟩
      (rtc_serialize_callback ⟨-7, 9, 16777216, false⟩ (some (List.replicate 24 255)))
      ).2.cycles = 9 :=
  have h := C5_rtc_roundtrip ⟨-7, 9, 16777216, false⟩ ⟨1000, 5, 16777216, false⟩
    (List.replicate 24 255) (by decide) (by decide) rfl (by decide)
  ⟨h.2.2.1, h.2.2.2.1, h.2.2.2.2.1⟩

/-! ## Loading a savestate -/

theorem deserialize_all_reject (items : List mStateExtdataItem) (rtc : GSE_Rtc)
    (h : ∀ item ∈ items, rtc_item_accepted item = false) : deserialize_all rtc items = rtc := by
  induction items generalizing rtc with
  | nil => rfl
  | cons item items ih =>
    rw [deserialize_all_cons, rtc_deserialize_reject rtc (h item (List.mem_cons_self _ _))]
    exact ih rtc fun x hx => h x (List.mem_cons_of_mem _ hx)

theorem deserialize_all_append (pre post : List mStateExtdataItem) (rtc : GSE_Rtc) :
    deserialize_all rtc (pre ++ post) = deserialize_all (deserialize_all rtc pre) post := by
  unfold deserialize_all
  rw [List.foldl_append]

theorem deserialize_all_accept (pre post : List mStateExtdataItem) (item : mStateExtdataItem)
    (bytes : List Nat) (rtc : GSE_Rtc) (hd : item.data = some bytes)
    (ha : rtc_item_accepted item = true)
    (hpost : ∀ x ∈ post, rtc_item_accepted x = false) :
    deserialize_all rtc (pre ++ item :: post) =
      ⟨toI64 (LOAD_64LE bytes 8), LOAD_32LE bytes 16 % rtc.frequency, rtc.frequency, true⟩ := by
  obtain ⟨bytes', hd', hs, hm⟩ := (rtc_item_accepted_iff item).1 ha
  rw [hd] at hd'
  cases hd'
  rw [deserialize_all_append, deserialize_all_cons, rtc_deserialize_accept _ hd hs hm,
    deserialize_all_reject post _ hpost, deserialize_all_frequency]

/-- C6: `mgba_loadstate` returns exactly the result of the backend load.  When
no item presented to `rtc_deserialize_callback` during the load is accepted,
afterwards `unix_time = rtcTime` and `cycles = 0`.  When an item is accepted
(the last accepted one counts), `unix_time` and `cycles` are the values
deserialized from it and the outcome does not depend on `rtcTime`. -/
theorem C6_loadstate_rtc_fallback (ctx : GSE_ctx) (stateBuf : List Nat) (size : Nat)
    (rtcTime : Int) (load : LoadEffect) :
    (∀ rtc item, (rtc_deserialize_callback rtc item).1 = rtc_item_accepted item) ∧
    (mgba_loadstate ctx stateBuf size rtcTime load).1 = load.ret ∧
    ((∀ item ∈ load.items, rtc_item_accepted item = false) →
      (mgba_loadstate ctx stateBuf size rtcTime load).2.rtc_source.unix_time = rtcTime ∧
      (mgba_loadstate ctx stateBuf size rtcTime load).2.rtc_source.cycles = 0) ∧
    (∀ pre item post bytes, load.items = pre ++ item :: post → item.data = some bytes →
      rtc_item_accepted item = true → (∀ x ∈ post, rtc_item_accepted x = false) →
      0 < ctx.rtc_source.frequency →
      (mgba_loadstate ctx stateBuf size rtcTime load).2.rtc_source.unix_time
        = toI64 (LOAD_64LE bytes 8) ∧
      (mgba_loadstate ctx stateBuf size rtcTime load).2.rtc_source.cycles
        = LOAD_32LE bytes 16 % ctx.rtc_source.frequency ∧
      ∀ rtcTime2, mgba_loadstate ctx stateBuf size rtcTime2 load
        = mgba_loadstate ctx stateBuf size rtcTime load) := by
  refine ⟨rtc_deserialize_fst, rfl, ?_, ?_⟩
  · intro h
    unfold mgba_loadstate
    dsimp only
    rw [deserialize_all_reject _ _ h]
    exact ⟨rfl, rfl⟩
  · intro pre item post bytes hitems hd ha hpost _
    have key : ∀ t, mgba_loadstate ctx stateBuf size t load =
        (load.ret, { load.core.apply ctx with
          rtc_source := ⟨toI64 (LOAD_64LE bytes 8),
            LOAD_32LE bytes 16 % ctx.rtc_source.frequency, ctx.rtc_source.frequency, true⟩ }) := by
      intro t
      unfold mgba_loadstate
      dsimp only
      rw [hitems, deserialize_all_accept pre post item bytes _ hd ha hpost]
      rfl
    refine ⟨by rw [key], by rw [key], ?_⟩
    intro t
    rw [key, key]

/-- Witness for C6: a successful load that presents one well-formed RTC item
(time 1, 7 cycles) restores it and ignores the fallback time 555; a successful
load that presents no item falls back to time 555 and 0 cycles. -/
theorem C6_loadstate_rtc_fallback_witness :
    (mgba_loadstate exampleCtx [] 0 555
      ⟨true, [⟨24, some [71, 83, 69, 82, 84, 67, 83, 84, 1, 0, 0, 0, 0, 0, 0, 0, 7, 0, 0, 0,
        0, 0, 0, 0], true⟩], ⟨[], []⟩⟩).2.rtc_source.unix_time = 1 ∧
    (mgba_loadstate exampleCtx [] 0 555
      ⟨true, [⟨24, some [71, 83, 69, 82, 84, 67, 83, 84, 1, 0, 0, 0, 0, 0, 0, 0, 7, 0, 0, 0,
        0, 0, 0, 0], true⟩], ⟨[], []⟩⟩).2.rtc_source.cycles = 7 ∧
    (mgba_loadstate exampleCtx [] 0 555 ⟨true, [], ⟨[], []⟩⟩).1 = true ∧
    (mgba_loadstate exampleCtx [] 0 555 ⟨true, [], ⟨[], []⟩⟩).2.rtc_source.unix_time = 555 ∧
    (mgba_loadstate exampleCtx [] 0 555 ⟨true, [], ⟨[], []⟩⟩).2.rtc_source.cycles = 0 :=
  have h := (C6_loadstate_rtc_fallback exampleCtx [] 0 555
    ⟨true, [⟨24, some [71, 83, 69, 82, 84, 67, 83, 84, 1, 0, 0, 0, 0, 0, 0, 0, 7, 0, 0, 0,
      0, 0, 0, 0], true⟩], ⟨[], []⟩⟩).2.2.2 [] _ [] _ rfl rfl (by decide) (by decide)
      (by decide)
  have g := C6_loadstate_rtc_fallback exampleCtx [] 0 555 ⟨true, [], ⟨[], []⟩⟩
  ⟨h.1.trans (by decide), h.2.1.trans (by decide), g.2.1, (g.2.2.1 (by decide)).1,
    (g.2.2.1 (by decide)).2⟩

/-! ## Savestate cache -/

/-- C7: the savestate cache is one-shot.  With an empty cache `mgba_savestate`
returns false and changes neither the buffer nor the context.  With a cached
blob it copies the whole blob to the start of the buffer, returns true and
empties the cache, so that a directly following `mgba_savestate` returns false.
`mgba_getsavestatelength` leaves the new blob cached and returns its size (as a
`uint32_t`) when serialization succeeds, and leaves the cache empty and returns
0 when it fails. -/
theorem C7_savestate_one_shot (ctx : GSE_ctx) (stateBuf stateBuf2 : List Nat) :
    (ctx.state_vf = none → mgba_savestate ctx stateBuf = (false, stateBuf, ctx)) ∧
    (∀ blob, ctx.state_vf = some blob →
      (mgba_savestate ctx stateBuf).1 = true ∧
      (mgba_savestate ctx stateBuf).2.1.take blob.length = blob ∧
      (mgba_savestate ctx stateBuf).2.1.drop blob.length = stateBuf.drop blob.length ∧
      (mgba_savestate ctx stateBuf).2.2 = { ctx with state_vf := none } ∧
      (mgba_savestate (mgba_savestate ctx stateBuf).2.2 stateBuf2).1 = false) ∧
    (∀ blob, (mgba_getsavestatelength ctx (some blob)).2 = { ctx with state_vf := some blob } ∧
      (mgba_getsavestatelength ctx (some blob)).1 = blob.length % 2 ^ 32 ∧
      (blob.length < 2 ^ 32 → (mgba_getsavestatelength ctx (some blob)).1 = blob.length)) ∧
    (mgba_getsavestatelength ctx none).2 = { ctx with state_vf := none } ∧
    (mgba_getsavestatelength ctx none).1 = 0 := by
  refine ⟨?_, ?_, ?_, ?_, ?_⟩
  · intro h
    unfold mgba_savestate
    rw [h]
  · intro blob h
    have e : mgba_savestate ctx stateBuf =
        (true, memcpy stateBuf 0 blob blob.length, { ctx with state_vf := none }) := by
      unfold mgba_savestate
      rw [h]
    rw [e]
    exact ⟨rfl, take_memcpy_zero _ _, drop_memcpy_zero _ _, rfl, rfl⟩
  · intro blob
    have e : mgba_getsavestatelength ctx (some blob) =
        (u32 blob.length, { ctx with state_vf := some blob }) := by
      unfold mgba_getsavestatelength
      dsimp only
      split <;> rfl
    rw [e]
    refine ⟨rfl, rfl, ?_⟩
    intro hlt
    exact Nat.mod_eq_of_lt hlt
  · unfold mgba_getsavestatelength
    dsimp only
    split <;> rfl
  · rfl

/-- Witness for C7: after a length query that caches the blob `[1, 2, 3]`, the
first fetch fills the buffer and succeeds and the second fetch fails. -/
theorem C7_savestate_one_shot_witness :
    (mgba_getsavestatelength exampleCtx (some [1, 2, 3])).1 = 3 ∧
    (mgba_savestate (mgba_getsavestatelength exampleCtx (some [1, 2, 3])).2 [0, 0, 0]).1
      = true ∧
    (mgba_savestate (mgba_getsavestatelength exampleCtx (some [1, 2, 3])).2 [0, 0, 0]).2.1
      = [1, 2, 3] ∧
    (mgba_savestate (mgba_savestate (mgba_getsavestatelength exampleCtx (some [1, 2, 3])).2
      [0, 0, 0]).2.2 [0, 0, 0]).1 = false :=
  have g := (C7_savestate_one_shot exampleCtx [] []).2.2.1 [1, 2, 3]
  have h := (C7_savestate_one_shot (mgba_getsavestatelength exampleCtx (some [1, 2, 3])).2
    [0, 0, 0] [0, 0, 0]).2.1 [1, 2, 3] (by rw [g.1])
  ⟨g.2.2 (by decide), h.1, by
    have t := h.2.1
    rw [List.take_of_length_le (by decide)] at t
    exact t, h.2.2.2.2⟩

end Mgba

namespace Mesen

open GSE

/-! ## Mesen adapter: savestate cache -/

/-- What `mesen_savestate` does after a length query that returned a
non-zero length: it returns true, copies the cached blob to the start of the
caller's buffer and does not touch the context.  It returns false exactly when
`state_buf` is empty. -/
theorem mesen_savestate_fetch (ctx : GSE_ctx) (serialized stateBuf : List Nat)
    (h : (mesen_getsavestatelength ctx serialized).1 ≠ 0) :
    (mesen_getsavestatelength ctx serialized).2.state_buf = serialized ∧
    (mesen_savestate (mesen_getsavestatelength ctx serialized).2 stateBuf).1 = true ∧
    (mesen_savestate (mesen_getsavestatelength ctx serialized).2 stateBuf).2.1.take
      serialized.length = serialized ∧
    (mesen_savestate (mesen_getsavestatelength ctx serialized).2 stateBuf).2.2
      = (mesen_getsavestatelength ctx serialized).2 ∧
    (∀ (c : GSE_ctx) (buf : List Nat), (mesen_savestate c buf).1 = false ↔ c.state_buf = []) := by
  have hne : serialized ≠ [] := by
    intro e
    apply h
    rw [e]
    rfl
  have hemp : serialized.isEmpty = false := by
    cases serialized with
    | nil => exact absurd rfl hne
    | cons a l => rfl
  have e : ∀ buf, mesen_savestate (mesen_getsavestatelength ctx serialized).2 buf =
      (true, memcpy buf 0 serialized serialized.length,
        (mesen_getsavestatelength ctx serialized).2) := by
    intro buf
    unfold mesen_savestate mesen_getsavestatelength
    dsimp only
    rw [hemp]
    rfl
  rw [e stateBuf]
  refine ⟨rfl, rfl, take_memcpy_zero _ _, rfl, ?_⟩
  intro c buf
  unfold mesen_savestate
  cases hc : c.state_buf with
  | nil => simp
  | cons a l => simp

/-- C8 at the failing input: after a length query that caches the three-byte
blob `[1, 2, 3]` and returns 3, the first `mesen_savestate` returns true and
copies the blob, but `state_buf` still holds the blob afterwards, so a second
`mesen_savestate` made directly after it returns true again and copies the same
blob, where the one-shot contract has it return false.  On the same sequence
the mGBA adapter's `mgba_savestate` returns true, clears `state_vf`, and returns
false the second time, leaving the caller's buffer alone. -/
theorem C8_mesen_savestate_double_fetch :
    (mesen_getsavestatelength (exampleCtx [] []) [1, 2, 3]).1 = 3 ∧
    (mesen_savestate (mesen_getsavestatelength (exampleCtx [] []) [1, 2, 3]).2 [0, 0, 0]).1
      = true ∧
    (mesen_savestate (mesen_getsavestatelength (exampleCtx [] []) [1, 2, 3]).2 [0, 0, 0]).2.1
      = [1, 2, 3] ∧
    (mesen_savestate (mesen_getsavestatelength (exampleCtx [] []) [1, 2, 3]).2
      [0, 0, 0]).2.2.state_buf = [1, 2, 3] ∧
    (mesen_savestate (mesen_savestate (mesen_getsavestatelength (exampleCtx [] []) [1, 2, 3]).2
      [0, 0, 0]).2.2 [9, 9, 9]).1 = true ∧
    (mesen_savestate (mesen_savestate (mesen_getsavestatelength (exampleCtx [] []) [1, 2, 3]).2
      [0, 0, 0]).2.2 [9, 9, 9]).2.1 = [1, 2, 3] ∧
    (Mgba.mgba_getsavestatelength Mgba.exampleCtx (some [1, 2, 3])).1 = 3 ∧
    (Mgba.mgba_savestate (Mgba.mgba_getsavestatelength Mgba.exampleCtx (some [1, 2, 3])).2
      [0, 0, 0]).1 = true ∧
    (Mgba.mgba_savestate (Mgba.mgba_getsavestatelength Mgba.exampleCtx (some [1, 2, 3])).2
      [0, 0, 0]).2.2.state_vf = none ∧
    (Mgba.mgba_savestate (Mgba.mgba_savestate (Mgba.mgba_getsavestatelength Mgba.exampleCtx
      (some [1, 2, 3])).2 [0, 0, 0]).2.2 [9, 9, 9]).1 = false ∧
    (Mgba.mgba_savestate (Mgba.mgba_savestate (Mgba.mgba_getsavestatelength Mgba.exampleCtx
      (some [1, 2, 3])).2 [0, 0, 0]).2.2 [9, 9, 9]).2.1 = [9, 9, 9] :=
  ⟨by decide, by decide, by decide, by decide, by decide, by decide, by decide, by decide,
    by decide, by decide, by decide⟩

/-! ## Mesen adapter: save data -/

theorem savesavedata_eq (ctx : GSE_ctx) (dest : List Nat) (writes : List BatteryWrite)
    (h32 : (console_SaveBattery ctx.battery_provider writes).sav.length +
      (console_SaveBattery ctx.battery_provider writes).rtc.length < 2 ^ 32) :
    mesen_savesavedata ctx dest writes =
      ((console_SaveBattery ctx.battery_provider writes).sav.length +
        (console_SaveBattery ctx.battery_provider writes).rtc.length,
       (console_SaveBattery ctx.battery_provider writes).sav ++
        ((console_SaveBattery ctx.battery_provider writes).rtc ++
          dest.drop ((console_SaveBattery ctx.battery_provider writes).sav.length +
            (console_SaveBattery ctx.battery_provider writes).rtc.length)),
       { ctx with battery_provider := console_SaveBattery ctx.battery_provider writes }) := by
  unfold mesen_savesavedata
  dsimp only
  generalize console_SaveBattery ctx.battery_provider writes = P at h32 ⊢
  rw [u32_of_lt (show P.sav.length < 2 ^ 32 by omega),
    u32_of_lt (show P.rtc.length < 2 ^ 32 by omega), u32_of_lt h32, ite_memcpy, ite_memcpy,
    memcpy_zero, memcpy_after, List.drop_drop]

theorem loadsavedata_battery (ctx : GSE_ctx) (data : List Nat) (size : Nat) (rtcStartTime : Int)
    (hs : ctx.battery_provider.sav.length < 2 ^ 32)
    (hr : ctx.battery_provider.rtc.length < 2 ^ 32) (hsize : size < 2 ^ 32) :
    (mesen_loadsavedata ctx data size rtcStartTime).battery_provider =
      { sav :=
          if ctx.battery_provider.sav.length > 0 then
            memcpy ctx.battery_provider.sav 0 data
              (min ctx.battery_provider.sav.length (size - size % 256))
          else ctx.battery_provider.sav
        rtc :=
          if ctx.battery_provider.rtc.length > 0 then
            if ctx.battery_provider.rtc.length = size % 256 then
              memcpy ctx.battery_provider.rtc 0 (data.drop (size - size % 256))
                ctx.battery_provider.rtc.length
            else ctx.battery_provider.rtc
          else ctx.battery_provider.rtc } := by
  unfold mesen_loadsavedata
  dsimp only
  rw [u32_of_lt hs, u32_of_lt hr, and_high_mask size hsize, and_low_mask]
  split_ifs <;> rfl

set_option maxRecDepth 100000 in
/-- C9 counterexample: with a one-byte save file and no RTC file, the blob
`[1]` of length 1 fetched from a provider holding `[1]` is not taken over by a
provider holding `[2]`: the bulk length read from the size is `1 & ~0xFF = 0`.
With a 256-byte RTC file after a 256-byte save file the RTC bytes are not taken
over either, because `512 & 0xFF = 0` differs from 256. -/
theorem C9_savedata_roundtrip_counterexample :
    (mesen_savesavedata (exampleCtx [1] []) [0] []).1 = 1 ∧
    (mesen_savesavedata (exampleCtx [1] []) [0] []).2.1 = [1] ∧
    (mesen_savesavedata (exampleCtx [1] []) [0] []).2.2.battery_provider.sav = [1] ∧
    (mesen_loadsavedata (exampleCtx [2] []) (mesen_savesavedata (exampleCtx [1] []) [0] []).2.1
      (mesen_savesavedata (exampleCtx [1] []) [0] []).1 0).battery_provider.sav = [2] ∧
    (mesen_loadsavedata (exampleCtx [2] []) (mesen_savesavedata (exampleCtx [1] []) [0] []).2.1
      (mesen_savesavedata (exampleCtx [1] []) [0] []).1 0).battery_provider.sav
      ≠ (mesen_savesavedata (exampleCtx [1] []) [0] []).2.2.battery_provider.sav ∧
    (mesen_savesavedata (exampleCtx (List.replicate 256 1) (List.replicate 256 3))
      (List.replicate 512 0) []).1 = 512 ∧
    (mesen_loadsavedata (exampleCtx (List.replicate 256 2) (List.replicate 256 4))
      (mesen_savesavedata (exampleCtx (List.replicate 256 1) (List.replicate 256 3))
        (List.replicate 512 0) []).2.1
      (mesen_savesavedata (exampleCtx (List.replicate 256 1) (List.replicate 256 3))
        (List.replicate 512 0) []).1 0).battery_provider.rtc = List.replicate 256 4 ∧
    (mesen_loadsavedata (exampleCtx (List.replicate 256 2) (List.replicate 256 4))
      (mesen_savesavedata (exampleCtx (List.replicate 256 1) (List.replicate 256 3))
        (List.replicate 512 0) []).2.1
      (mesen_savesavedata (exampleCtx (List.replicate 256 1) (List.replicate 256 3))
        (List.replicate 512 0) []).1 0).battery_provider.rtc ≠ List.replicate 256 3 :=
  ⟨by decide, by decide, by decide, by decide, by decide, by decide, by decide, by decide⟩

/-- C9 (amended): let `A` be a battery provider as left by the console's
`SaveBattery` and `B` one whose `sav` and `rtc` buffers have the same lengths.
If the `sav` length is a multiple of 256, the `rtc` length is below 256 and the
destination buffer holds the `savSize + rtcSize` bytes, then passing the blob
and length returned by `mesen_savesavedata` on `A` to `mesen_loadsavedata` on
`B` leaves `B` with the `sav` bytes and `rtc` bytes of `A`. -/
theorem C9_savedata_roundtrip (A B : GSE_ctx) (dest : List Nat) (writes : List BatteryWrite)
    (rtcStartTime : Int)
    (hsav : (console_SaveBattery A.battery_provider writes).sav.length
      = B.battery_provider.sav.length)
    (hrtc : (console_SaveBattery A.battery_provider writes).rtc.length
      = B.battery_provider.rtc.length)
    (halign : (console_SaveBattery A.battery_provider writes).sav.length % 256 = 0)
    (hsmall : (console_SaveBattery A.battery_provider writes).rtc.length < 256)
    (h32 : (console_SaveBattery A.battery_provider writes).sav.length +
      (console_SaveBattery A.battery_provider writes).rtc.length < 2 ^ 32)
    (hdest : (console_SaveBattery A.battery_provider writes).sav.length +
      (console_SaveBattery A.battery_provider writes).rtc.length ≤ dest.length) :
    (mesen_savesavedata A dest writes).2.2.battery_provider
      = console_SaveBattery A.battery_provider writes ∧
    (mesen_savesavedata A dest writes).1 =
      (console_SaveBattery A.battery_provider writes).sav.length +
        (console_SaveBattery A.battery_provider writes).rtc.length ∧
    (mesen_loadsavedata B (mesen_savesavedata A dest writes).2.1
      (mesen_savesavedata A dest writes).1 rtcStartTime).battery_provider.sav
      = (console_SaveBattery A.battery_provider writes).sav ∧
    (mesen_loadsavedata B (mesen_savesavedata A dest writes).2.1
      (mesen_savesavedata A dest writes).1 rtcStartTime).battery_provider.rtc
      = (console_SaveBattery A.battery_provider writes).rtc := by
  rw [savesavedata_eq A dest writes h32]
  dsimp only
  generalize console_SaveBattery A.battery_provider writes = P at *
  rw [loadsavedata_battery B _ _ rtcStartTime (by omega) (by omega) h32]
  dsimp only
  have hmod : (P.sav.length + P.rtc.length) % 256 = P.rtc.length := by omega
  have hsub : P.sav.length + P.rtc.length - P.rtc.length = P.sav.length := by omega
  rw [hmod, hsub, ← hsav, ← hrtc, Nat.min_self, List.drop_left]
  refine ⟨rfl, rfl, ?_, ?_⟩
  · by_cases h0 : P.sav.length > 0
    · rw [if_pos h0]
      exact memcpy_replace _ _ _ hsav.symm
    · rw [if_neg h0]
      have e1 : B.battery_provider.sav = [] := List.length_eq_zero.1 (by omega)
      have e2 : P.sav = [] := List.length_eq_zero.1 (by omega)
      rw [e1, e2]
  · by_cases h0 : P.rtc.length > 0
    · rw [if_pos h0, if_pos rfl]
      exact memcpy_replace _ _ _ hrtc.symm
    · rw [if_neg h0]
      have e1 : B.battery_provider.rtc = [] := List.length_eq_zero.1 (by omega)
      have e2 : P.rtc = [] := List.length_eq_zero.1 (by omega)
      rw [e1, e2]

set_option maxRecDepth 100000 in
/-- Witness for C9: the console saves a 512-byte save file and a 4-byte RTC
file; the fetched blob restores both into a provider holding zeroed buffers of
the same lengths. -/
theorem C9_savedata_roundtrip_witness :
    (mesen_loadsavedata (exampleCtx (List.replicate 512 0) [0, 0, 0, 0])
      (mesen_savesavedata (exampleCtx [] []) (List.replicate 516 0)
        [⟨".sav", List.replicate 512 7, 512⟩, ⟨".rtc", [1, 2, 3, 4], 4⟩]).2.1
      (mesen_savesavedata (exampleCtx [] []) (List.replicate 516 0)
        [⟨".sav", List.replicate 512 7, 512⟩, ⟨".rtc", [1, 2, 3, 4], 4⟩]).1
      0).battery_provider.sav = List.replicate 512 7 ∧
    (mesen_loadsavedata (exampleCtx (List.replicate 512 0) [0, 0, 0, 0])
      (mesen_savesavedata (exampleCtx [] []) (List.replicate 516 0)
        [⟨".sav", List.replicate 512 7, 512⟩, ⟨".rtc", [1, 2, 3, 4], 4⟩]).2.1
      (mesen_savesavedata (exampleCtx [] []) (List.replicate 516 0)
        [⟨".sav", List.replicate 512 7, 512⟩, ⟨".rtc", [1, 2, 3, 4], 4⟩]).1
      0).battery_provider.rtc = [1, 2, 3, 4] :=
  have h := C9_savedata_roundtrip (exampleCtx [] [])
    (exampleCtx (List.replicate 512 0) [0, 0, 0, 0]) (List.replicate 516 0)
    [⟨".sav", List.replicate 512 7, 512⟩, ⟨".rtc", [1, 2, 3, 4], 4⟩] 0
    (by decide) (by decide) (by decide) (by decide) (by decide) (by decide)
  ⟨h.2.2.1.trans (by decide), h.2.2.2.trans (by decide)⟩

set_option maxRecDepth 100000 in
/-- C10 counterexample: with a 512-byte save buffer and the RTC buffer
`[7, 7, 7, 7]`, a load of 772 bytes has a trailing segment of 260 bytes, not 4,
yet the RTC buffer is overwritten with the last four bytes `[1, 2, 3, 4]`,
because `772 & 0xFF = 4`.  With a one-byte save buffer and the RTC buffer
`[9, 9]`, a load of 3 bytes has a trailing segment of exactly 2 bytes, yet the
RTC buffer is left unchanged, because `3 & 0xFF = 3`. -/
theorem C10_loadsavedata_rtc_counterexample :
    (772 ≥ (exampleCtx (List.replicate 512 0) [7, 7, 7, 7]).battery_provider.sav.length) ∧
    (772 - (exampleCtx (List.replicate 512 0) [7, 7, 7, 7]).battery_provider.sav.length
      ≠ (exampleCtx (List.replicate 512 0) [7, 7, 7, 7]).battery_provider.rtc.length) ∧
    (mesen_loadsavedata (exampleCtx (List.replicate 512 0) [7, 7, 7, 7])
      (List.replicate 768 0 ++ [1, 2, 3, 4]) 772 0).battery_provider.rtc = [1, 2, 3, 4] ∧
    (mesen_loadsavedata (exampleCtx (List.replicate 512 0) [7, 7, 7, 7])
      (List.replicate 768 0 ++ [1, 2, 3, 4]) 772 0).battery_provider.rtc
      ≠ (exampleCtx (List.replicate 512 0) [7, 7, 7, 7]).battery_provider.rtc ∧
    (3 - (exampleCtx [0] [9, 9]).battery_provider.sav.length
      = (exampleCtx [0] [9, 9]).battery_provider.rtc.length) ∧
    (mesen_loadsavedata (exampleCtx [0] [9, 9]) [5, 6, 7] 3 0).battery_provider.rtc = [9, 9] ∧
    (mesen_loadsavedata (exampleCtx [0] [9, 9]) [5, 6, 7] 3 0).battery_provider.rtc ≠ [6, 7] :=
  ⟨by decide, by decide, by decide, by decide, by decide, by decide, by decide⟩

/-- C10 (amended): for a provider with an RTC buffer of `rtcSize > 0` bytes and
a load of `size` bytes, the RTC buffer is byte-for-byte unchanged when the low
eight bits of `size` (`size & 0xFF`) differ from `rtcSize`, and becomes the last
`rtcSize` bytes of the `size` bytes of `data` when they equal `rtcSize`.  When
`savSize` is a multiple of 256 and the trailing length `size - savSize` is below
256, the low eight bits of `size` equal `rtcSize` exactly when
`size - savSize` does. -/
theorem C10_loadsavedata_rtc (ctx : GSE_ctx) (data : List Nat) (size : Nat) (rtcStartTime : Int)
    (hrtc : 0 < ctx.battery_provider.rtc.length)
    (hr32 : ctx.battery_provider.rtc.length < 2 ^ 32)
    (hs32 : ctx.battery_provider.sav.length < 2 ^ 32)
    (hsize : size < 2 ^ 32) (hdata : size ≤ data.length) :
    (size % 256 ≠ ctx.battery_provider.rtc.length →
      (mesen_loadsavedata ctx data size rtcStartTime).battery_provider.rtc
        = ctx.battery_provider.rtc) ∧
    (size % 256 = ctx.battery_provider.rtc.length →
      (mesen_loadsavedata ctx data size rtcStartTime).battery_provider.rtc
        = (data.take size).drop (size - ctx.battery_provider.rtc.length)) ∧
    (ctx.battery_provider.sav.length % 256 = 0 → ctx.battery_provider.sav.length ≤ size →
      size - ctx.battery_provider.sav.length < 256 →
      (size - ctx.battery_provider.sav.length = ctx.battery_provider.rtc.length ↔
        size % 256 = ctx.battery_provider.rtc.length)) := by
  rw [loadsavedata_battery ctx data size rtcStartTime hs32 hr32 hsize]
  dsimp only
  rw [if_pos hrtc]
  refine ⟨?_, ?_, ?_⟩
  · intro hne
    rw [if_neg (Ne.symm hne)]
  · intro heq
    rw [if_pos heq.symm]
    have hle : ctx.battery_provider.rtc.length ≤ size := by
      rw [← heq]; exact Nat.mod_le _ _
    have e3 : (data.take size).drop (size - ctx.battery_provider.rtc.length)
        = (data.drop (size - ctx.battery_provider.rtc.length)).take
          ctx.battery_provider.rtc.length := by
      rw [List.drop_take]
      congr 1
      omega
    rw [e3, heq]
    unfold memcpy
    simp
  · intro h1 h2 h3
    omega

set_option maxRecDepth 100000 in
/-- Witness for C10: with a 512-byte save buffer and a 4-byte RTC buffer, a
load of 516 bytes replaces the RTC buffer by the last four bytes and a load of
515 bytes leaves it unchanged. -/
theorem C10_loadsavedata_rtc_witness :
    (mesen_loadsavedata (exampleCtx (List.replicate 512 0) [7, 7, 7, 7])
      (List.replicate 512 0 ++ [1, 2, 3, 4]) 516 0).battery_provider.rtc = [1, 2, 3, 4] ∧
    (mesen_loadsavedata (exampleCtx (List.replicate 512 0) [7, 7, 7, 7])
      (List.replicate 512 0 ++ [1, 2, 3, 4]) 515 0).battery_provider.rtc = [7, 7, 7, 7] :=
  ⟨((C10_loadsavedata_rtc (exampleCtx (List.replicate 512 0) [7, 7, 7, 7])
      (List.replicate 512 0 ++ [1, 2, 3, 4]) 516 0 (by decide) (by decide) (by decide)
      (by decide) (by decide)).2.1 (by decide)).trans (by decide),
    (C10_loadsavedata_rtc (exampleCtx (List.replicate 512 0) [7, 7, 7, 7])
      (List.replicate 512 0 ++ [1, 2, 3, 4]) 515 0 (by decide) (by decide) (by decide)
      (by decide) (by decide)).1 (by decide)⟩

end Mesen

namespace Mesen

open GSE

/-! ## Mesen adapter: layout of the fetched save data -/

/-- C11: for a battery provider (as left by the console's `SaveBattery`) with
`sav` of length `savSize` and `rtc` of length `rtcSize`, `mesen_savesavedata`
returns `savSize + rtcSize`, writes the `sav` bytes at offsets `[0, savSize)` of
`dest` and the `rtc` bytes at `[savSize, savSize + rtcSize)`, leaves the rest of
`dest` as it was, and writes nothing when both are empty. -/
theorem C11_savesavedata_layout (ctx : GSE_ctx) (dest : List Nat) (writes : List BatteryWrite)
    (h32 : (console_SaveBattery ctx.battery_provider writes).sav.length +
      (console_SaveBattery ctx.battery_provider writes).rtc.length < 2 ^ 32)
    (hdest : (console_SaveBattery ctx.battery_provider writes).sav.length +
      (console_SaveBattery ctx.battery_provider writes).rtc.length ≤ dest.length) :
    (mesen_savesavedata ctx dest writes).1 =
      (console_SaveBattery ctx.battery_provider writes).sav.length +
        (console_SaveBattery ctx.battery_provider writes).rtc.length ∧
    (mesen_savesavedata ctx dest writes).2.1.length = dest.length ∧
    (mesen_savesavedata ctx dest writes).2.1.take
      (console_SaveBattery ctx.battery_provider writes).sav.length
      = (console_SaveBattery ctx.battery_provider writes).sav ∧
    ((mesen_savesavedata ctx dest writes).2.1.drop
      (console_SaveBattery ctx.battery_provider writes).sav.length).take
      (console_SaveBattery ctx.battery_provider writes).rtc.length
      = (console_SaveBattery ctx.battery_provider writes).rtc ∧
    (mesen_savesavedata ctx dest writes).2.1.drop
      ((console_SaveBattery ctx.battery_provider writes).sav.length +
        (console_SaveBattery ctx.battery_provider writes).rtc.length)
      = dest.drop ((console_SaveBattery ctx.battery_provider writes).sav.length +
        (console_SaveBattery ctx.battery_provider writes).rtc.length) ∧
    ((console_SaveBattery ctx.battery_provider writes).sav = [] →
      (console_SaveBattery ctx.battery_provider writes).rtc = [] →
      (mesen_savesavedata ctx dest writes).2.1 = dest) := by
  rw [savesavedata_eq ctx dest writes h32]
  dsimp only
  generalize console_SaveBattery ctx.battery_provider writes = P at *
  refine ⟨rfl, ?_, ?_, ?_, ?_, ?_⟩
  · simp only [List.length_append, List.length_drop]
    omega
  · rw [List.take_left]
  · rw [List.drop_left, List.take_left]
  · rw [← List.append_assoc, ← List.length_append, List.drop_left]
  · intro h1 h2
    rw [h1, h2]
    rfl

set_option maxRecDepth 100000 in
/-- Witness for C11: with the save file `[1, 2, 3]` and the RTC file `[8, 9]`
written by the console, the fetch into a six-byte buffer returns 5 and leaves
the buffer as `[1, 2, 3, 8, 9, 0]`. -/
theorem C11_savesavedata_layout_witness :
    (mesen_savesavedata (exampleCtx [] []) [0, 0, 0, 0, 0, 0]
      [⟨".sav", [1, 2, 3], 3⟩, ⟨".rtc", [8, 9], 2⟩]).1 = 5 ∧
    (mesen_savesavedata (exampleCtx [] []) [0, 0, 0, 0, 0, 0]
      [⟨".sav", [1, 2, 3], 3⟩, ⟨".rtc", [8, 9], 2⟩]).2.1.take 3 = [1, 2, 3] ∧
    (mesen_savesavedata (exampleCtx [] []) [0, 0, 0, 0, 0, 0]
      [⟨".sav", [1, 2, 3], 3⟩, ⟨".rtc", [8, 9], 2⟩]).2.1 = [1, 2, 3, 8, 9, 0] :=
  have h := C11_savesavedata_layout (exampleCtx [] []) [0, 0, 0, 0, 0, 0]
    [⟨".sav", [1, 2, 3], 3⟩, ⟨".rtc", [8, 9], 2⟩] (by decide) (by decide)
  ⟨h.1.trans (by decide), h.2.2.1.trans (by decide), by decide⟩

end Mesen

namespace Mgba

open GSE

/-! ## Creation failures -/

theorem mgba_create_some {romData : List Nat} {romLength : Nat} {biosData : List Nat}
    {biosLength : Nat} {forceDisableRtc : Bool} {rtcStartTime : Int} {env : CreateEnv}
    {ctx : GSE_ctx}
    (h : mgba_create romData romLength biosData biosLength forceDisableRtc rtcStartTime env
      = some ctx) :
    biosLength = 0x4000 ∧ env.malloc_rom_ok = true ∧ env.loadROM_ok = true ∧
      env.loadBIOS_ok = true := by
  unfold mgba_create at h
  obtain ⟨-, h⟩ := ite_none_eq_some h
  obtain ⟨h1, h⟩ := ite_none_eq_some h
  obtain ⟨-, h⟩ := ite_none_eq_some h
  obtain ⟨-, h⟩ := ite_none_eq_some h
  obtain ⟨h2, h⟩ := ite_none_eq_some h
  obtain ⟨-, h⟩ := ite_none_eq_some h
  obtain ⟨h3, h⟩ := ite_none_eq_some h
  obtain ⟨-, h⟩ := ite_none_eq_some h
  obtain ⟨h4, h⟩ := ite_none_eq_some h
  refine ⟨not_not.1 h1, ?_, ?_, ?_⟩
  · simpa using h2
  · simpa using h3
  · simpa using h4

theorem mgba_create_none_of_not_some {romData : List Nat} {romLength : Nat}
    {biosData : List Nat} {biosLength : Nat} {forceDisableRtc : Bool} {rtcStartTime : Int}
    {env : CreateEnv}
    (h : ¬(biosLength = 0x4000 ∧ env.malloc_rom_ok = true ∧ env.loadROM_ok = true ∧
      env.loadBIOS_ok = true)) :
    mgba_create romData romLength biosData biosLength forceDisableRtc rtcStartTime env
      = none := by
  cases hc : mgba_create romData romLength biosData biosLength forceDisableRtc rtcStartTime env
    with
  | none => rfl
  | some ctx => exact absurd (mgba_create_some hc) h

end Mgba

namespace Mesen

open GSE

theorem mesen_create_handle {romData : List Nat} {romLength : Nat} {biosData : List Nat}
    {biosLength : Nat} {forceDisableRtc : Bool} {rtcStartTime : Int} {env : CreateEnv}
    {ctx : GSE_ctx}
    (h : mesen_create romData romLength biosData biosLength forceDisableRtc rtcStartTime env
      = .handle ctx) :
    biosLength = env.BootRomSize ∧
      ∃ paddedRomLength paddedRom, padded_rom romData romLength
        = some (paddedRomLength, paddedRom) ∧ env.LoadRom paddedRom = true := by
  unfold mesen_create at h
  by_cases hb : biosLength ≠ env.BootRomSize
  · rw [if_pos hb] at h
    cases h
  · rw [if_neg hb] at h
    refine ⟨not_not.1 hb, ?_⟩
    cases hp : padded_rom romData romLength with
    | none => rw [hp] at h; cases h
    | some pr =>
      obtain ⟨paddedRomLength, paddedRom⟩ := pr
      rw [hp] at h
      dsimp only at h
      refine ⟨paddedRomLength, paddedRom, rfl, ?_⟩
      cases hl : env.LoadRom paddedRom with
      | true => rfl
      | false =>
        rw [hl] at h
        cases h

/-- C12: `mgba_create` returns `NULL` when `biosLength` is not `0x4000` (and
then calls nothing but `calloc` and, when that succeeded, `free`, so no backend
object is created), when the ROM copy cannot be allocated, when `loadROM`
fails and when `loadBIOS` fails; `mesen_create` returns `nullptr` when
`biosLength` is not `GbaConsole::BootRomSize` and when `LoadRom` does not
succeed.  Either function returns a handle only if none of its conditions
occurred. -/
theorem C12_create_failures (romData : List Nat) (romLength : Nat) (biosData : List Nat)
    (biosLength : Nat) (forceDisableRtc : Bool) (rtcStartTime : Int) :
    (∀ env : Mgba.CreateEnv,
      (biosLength ≠ 0x4000 →
        Mgba.mgba_create romData romLength biosData biosLength forceDisableRtc rtcStartTime env
          = none ∧
        (Mgba.mgba_create_calls biosLength env = [.calloc_ctx] ∨
          Mgba.mgba_create_calls biosLength env = [.calloc_ctx, .free_ctx])) ∧
      (env.malloc_rom_ok = false →
        Mgba.mgba_create romData romLength biosData biosLength forceDisableRtc rtcStartTime env
          = none) ∧
      (env.loadROM_ok = false →
        Mgba.mgba_create romData romLength biosData biosLength forceDisableRtc rtcStartTime env
          = none) ∧
      (env.loadBIOS_ok = false →
        Mgba.mgba_create romData romLength biosData biosLength forceDisableRtc rtcStartTime env
          = none) ∧
      (∀ ctx,
        Mgba.mgba_create romData romLength biosData biosLength forceDisableRtc rtcStartTime env
          = some ctx →
        biosLength = 0x4000 ∧ env.malloc_rom_ok = true ∧ env.loadROM_ok = true ∧
          env.loadBIOS_ok = true)) ∧
    (∀ env : CreateEnv,
      (biosLength ≠ env.BootRomSize →
        mesen_create romData romLength biosData biosLength forceDisableRtc rtcStartTime env
          = .null) ∧
      (∀ paddedRomLength paddedRom,
        padded_rom romData romLength = some (paddedRomLength, paddedRom) →
        env.LoadRom paddedRom = false →
        mesen_create romData romLength biosData biosLength forceDisableRtc rtcStartTime env
          = .null) ∧
      (∀ ctx,
        mesen_create romData romLength biosData biosLength forceDisableRtc rtcStartTime env
          = .handle ctx →
        biosLength = env.BootRomSize ∧
          ∃ paddedRomLength paddedRom, padded_rom romData romLength
            = some (paddedRomLength, paddedRom) ∧ env.LoadRom paddedRom = true)) := by
  constructor
  · intro env
    refine ⟨?_, ?_, ?_, ?_, ?_⟩
    · intro hb
      refine ⟨Mgba.mgba_create_none_of_not_some (fun h => hb h.1), ?_⟩
      unfold Mgba.mgba_create_calls
      by_cases hc : (!env.calloc_ok) = true
      · left
        rw [if_pos hc]
      · right
        rw [if_neg hc, if_pos hb]
    · intro h
      exact Mgba.mgba_create_none_of_not_some (fun hh => by simp [h] at hh)
    · intro h
      exact Mgba.mgba_create_none_of_not_some (fun hh => by simp [h] at hh)
    · intro h
      exact Mgba.mgba_create_none_of_not_some (fun hh => by simp [h] at hh)
    · intro ctx h
      exact Mgba.mgba_create_some h
  · intro env
    refine ⟨?_, ?_, ?_⟩
    · intro hb
      unfold mesen_create
      rw [if_pos hb]
    · intro paddedRomLength paddedRom hp hl
      unfold mesen_create
      by_cases hb : biosLength ≠ env.BootRomSize
      · rw [if_pos hb]
      · rw [if_neg hb, hp]
        dsimp only
        rw [hl]
        rfl
    · intro ctx h
      exact mesen_create_handle h

end Mesen

namespace Mesen

open GSE

/-- Witness for C12: with a five-byte BIOS both `mgba_create` and
`mesen_create` return null although every backend call would succeed. -/
theorem C12_create_failures_witness :
    (5 ≠ 0x4000 ∧ Mgba.mgba_create [] 0 [] 5 false 0 Mgba.exampleEnv = none) ∧
    (5 ≠ exampleEnv.BootRomSize ∧ mesen_create [] 0 [] 5 false 0 exampleEnv = .null) :=
  ⟨⟨by decide,
      (((C12_create_failures [] 0 [] 5 false 0).1 Mgba.exampleEnv).1 (by decide)).1⟩,
    ⟨by decide, ((C12_create_failures [] 0 [] 5 false 0).2 exampleEnv).1 (by decide)⟩⟩

end Mesen

namespace GSE

theorem memcpy_zero_take {α : Type} (dest src : List α) (n : Nat) (h : n ≤ src.length) :
    (memcpy dest 0 src n).take n = src.take n := by
  unfold memcpy
  rw [List.take_zero, List.nil_append, List.take_append_of_le_length (by simp; omega)]
  exact List.take_of_length_le (by simp)

theorem memcpy_zero_drop {α : Type} (dest src : List α) (n : Nat) (h : n ≤ src.length) :
    (memcpy dest 0 src n).drop n = dest.drop n := by
  unfold memcpy
  have hl : (List.take n src).length = n := by simp; omega
  rw [List.take_zero, List.nil_append, Nat.zero_add]
  conv => lhs; rw [← hl]
  rw [List.length_take, Nat.min_eq_left h, List.drop_append_of_le_length (by simp; omega)]
  simp [List.drop_eq_nil_of_le, hl]

theorem memcpy_zero_getElem? {α : Type} (dest src : List α) (n i : Nat) (h : n ≤ src.length)
    (hi : i < n) : (memcpy dest 0 src n)[i]? = src[i]? := by
  unfold memcpy
  rw [List.take_zero, List.nil_append, List.getElem?_append_left (by simp; omega),
    List.getElem?_take_of_lt hi]

end GSE

namespace Mgba

open GSE

/-! ## Audio ring of the mGBA adapter -/

theorem post_audio_frame_loop_eq (q : Nat) (audio : GSE_Audio) (left right : Int)
    (hn : audio.sample_index ≤ 0x2000) (hlen : audio.samples.length = 0x2000) :
    post_audio_frame_loop q audio left right =
      { audio with
        samples := audio.samples.take audio.sample_index ++
          List.replicate (min q (0x2000 - audio.sample_index)) ⟨left, right⟩ ++
          audio.samples.drop (audio.sample_index + min q (0x2000 - audio.sample_index))
        sample_index := audio.sample_index + min q (0x2000 - audio.sample_index) } := by
  induction q generalizing audio with
  | zero =>
    unfold post_audio_frame_loop
    simp
  | succ q ih =>
    unfold post_audio_frame_loop
    by_cases hfull : audio.sample_index = 0x2000
    · rw [if_pos hfull]
      have hm : min (q + 1) (0x2000 - audio.sample_index) = 0 := by omega
      rw [hm]
      simp
    · rw [if_neg hfull]
      have hlt : audio.sample_index < 0x2000 := by omega
      have hu : u32 (audio.sample_index + 1) = audio.sample_index + 1 :=
        u32_of_lt (by omega)
      rw [hu, ih _ (by dsimp only; omega) (by dsimp only; rw [List.length_set]; exact hlen)]
      dsimp only
      have hm : min (q + 1) (0x2000 - audio.sample_index)
          = min q (0x2000 - (audio.sample_index + 1)) + 1 := by omega
      rw [hm]
      have h1 : (audio.samples.set audio.sample_index ⟨left, right⟩).take
          (audio.sample_index + 1)
          = audio.samples.take audio.sample_index ++ [⟨left, right⟩] := by
        rw [List.set_eq_take_append_cons_drop, if_pos (by omega),
          List.take_append_eq_append_take]
        simp [List.take_take, List.length_take, Nat.min_eq_left (by omega : audio.sample_index ≤ audio.samples.length)]
      have h2 : (audio.samples.set audio.sample_index ⟨left, right⟩).drop
          (audio.sample_index + 1 + min q (0x2000 - (audio.sample_index + 1)))
          = audio.samples.drop
            (audio.sample_index + (min q (0x2000 - (audio.sample_index + 1)) + 1)) := by
        rw [List.drop_set, if_pos (by omega)]
        congr 1
        omega
      rw [h1, h2, List.replicate_succ, List.append_assoc, List.append_assoc, List.append_assoc]
      simp only [List.singleton_append, List.cons_append, List.nil_append]
      congr 1
      omega

end Mgba

namespace Mgba

open GSE

/-! ## Audio batch of `mgba_advance` -/

theorem mgba_interleave_take (l : List mStereoSample) (n : Nat) :
    (interleave l).take (2 * n) = interleave (l.take n) := by
  induction l generalizing n with
  | nil => simp [interleave]
  | cons a l ih =>
    cases n with
    | zero => simp [interleave]
    | succ n =>
      have h := ih n
      unfold interleave at h ⊢
      rw [Nat.mul_succ]
      simp only [List.flatMap_cons, List.take_succ_cons, List.cons_append, List.nil_append]
      rw [h]

theorem mgba_length_interleave (l : List mStereoSample) : (interleave l).length = 2 * l.length := by
  induction l with
  | nil => rfl
  | cons a l ih =>
    unfold interleave at ih ⊢
    simp only [List.flatMap_cons, List.length_append, List.length_cons, List.length_nil, ih]
    omega

theorem mgba_interleave_getElem? (l : List mStereoSample) (k : Nat) (s : mStereoSample)
    (h : l[k]? = some s) :
    (interleave l)[2 * k]? = some s.left ∧ (interleave l)[2 * k + 1]? = some s.right := by
  induction l generalizing k with
  | nil => simp at h
  | cons a l ih =>
    cases k with
    | zero =>
      have e : a = s := by simpa using h
      have e2 : interleave (a :: l) = a.left :: a.right :: interleave l := rfl
      rw [e2, e]
      exact ⟨rfl, by simp⟩
    | succ k =>
      have h2 : l[k]? = some s := by simpa using h
      have e : interleave (a :: l) = a.left :: a.right :: interleave l := rfl
      have e0 : 2 * (k + 1) = (2 * k + 1) + 1 := by omega
      have e1 : 2 * (k + 1) + 1 = ((2 * k + 1) + 1) + 1 := by omega
      refine ⟨?_, ?_⟩
      · rw [e, e0, List.getElem?_cons_succ, List.getElem?_cons_succ]
        exact (ih k h2).1
      · rw [e, e1, List.getElem?_cons_succ, List.getElem?_cons_succ]
        exact (ih k h2).2

/-- The ring after one `post_audio_frame_callback` on an empty ring with
quotient `q`: the index is `q` and the first `q` slots hold the sample. -/
theorem post_audio_frame_from_empty (audio : GSE_Audio) (left right : Int)
    (hidx : audio.sample_index = 0) (hq : audio.sample_rate_quotient ≤ 0x2000)
    (hlen : audio.samples.length = 0x2000) :
    (post_audio_frame_callback audio left right).sample_index = audio.sample_rate_quotient ∧
    (post_audio_frame_callback audio left right).samples.take audio.sample_rate_quotient
      = List.replicate audio.sample_rate_quotient ⟨left, right⟩ ∧
    (post_audio_frame_callback audio left right).samples.length = 0x2000 := by
  unfold post_audio_frame_callback
  rw [post_audio_frame_loop_eq _ _ _ _ (by omega) hlen]
  dsimp only
  have hm : min audio.sample_rate_quotient (0x2000 - audio.sample_index)
      = audio.sample_rate_quotient := by omega
  rw [hm, hidx, List.take_zero, List.nil_append, Nat.zero_add]
  refine ⟨rfl, ?_, ?_⟩
  · have hl : (List.replicate audio.sample_rate_quotient (⟨left, right⟩ : mStereoSample)).length
        = audio.sample_rate_quotient := List.length_replicate _ _
    conv => lhs; arg 1; rw [← hl]
    rw [List.take_left]
  · rw [List.length_append, List.length_replicate, List.length_drop, hlen]
    omega

end Mgba

namespace Mesen

open GSE

theorem mesen_interleave_take (l : List StereoSample) (n : Nat) :
    (interleave l).take (2 * n) = interleave (l.take n) := by
  induction l generalizing n with
  | nil => simp [interleave]
  | cons a l ih =>
    cases n with
    | zero => simp [interleave]
    | succ n =>
      have h := ih n
      unfold interleave at h ⊢
      rw [Nat.mul_succ]
      simp only [List.flatMap_cons, List.take_succ_cons, List.cons_append, List.nil_append]
      rw [h]

theorem mesen_length_interleave (l : List StereoSample) : (interleave l).length = 2 * l.length := by
  induction l with
  | nil => rfl
  | cons a l ih =>
    unfold interleave at ih ⊢
    simp only [List.flatMap_cons, List.length_append, List.length_cons, List.length_nil, ih]
    omega

theorem mesen_interleave_getElem? (l : List StereoSample) (k : Nat) (s : StereoSample)
    (h : l[k]? = some s) :
    (interleave l)[2 * k]? = some s.left ∧ (interleave l)[2 * k + 1]? = some s.right := by
  induction l generalizing k with
  | nil => simp at h
  | cons a l ih =>
    cases k with
    | zero =>
      have e : a = s := by simpa using h
      have e2 : interleave (a :: l) = a.left :: a.right :: interleave l := rfl
      rw [e2, e]
      exact ⟨rfl, by simp⟩
    | succ k =>
      have h2 : l[k]? = some s := by simpa using h
      have e : interleave (a :: l) = a.left :: a.right :: interleave l := rfl
      have e0 : 2 * (k + 1) = (2 * k + 1) + 1 := by omega
      have e1 : 2 * (k + 1) + 1 = ((2 * k + 1) + 1) + 1 := by omega
      refine ⟨?_, ?_⟩
      · rw [e, e0, List.getElem?_cons_succ, List.getElem?_cons_succ]
        exact (ih k h2).1
      · rw [e, e1, List.getElem?_cons_succ, List.getElem?_cons_succ]
        exact (ih k h2).2

/-- The ring after one `MixAudio` call of `n < 8192` pairs on an empty ring:
the index is `n` and the first `n` slots hold the first `n` pairs of `out`. -/
theorem MixAudio_from_empty (p : GSEAudioProvider) (out : List StereoSample)
    (n sampleRate : Nat) (hidx : p.sample_index = 0) (hn : n < 8192) (hout : n ≤ out.length)
    (hlen : p.samples.length = 8192) :
    (p.MixAudio out n sampleRate).sample_index = n ∧
    (p.MixAudio out n sampleRate).samples.take n = out.take n ∧
    (p.MixAudio out n sampleRate).samples.length = 8192 := by
  have hu : u32 n = n := u32_of_lt (by omega)
  unfold GSEAudioProvider.MixAudio
  dsimp only
  simp only [hidx, Nat.zero_add]
  rw [hu, if_neg (by omega)]
  refine ⟨hu, memcpy_zero_take _ _ _ hout, ?_⟩
  unfold memcpy
  simp only [List.length_append, List.length_take, List.length_drop, hlen]
  omega

end Mesen

namespace Mesen

open GSE

/-- C13: in both adapters the audio step of `advance` reports as `*samples` the
ring index `n` reached during the frame, copies the first `n` stereo pairs of
the ring to the start of `soundBuf` as interleaved left, right values (pair `k`
of the ring goes to `soundBuf[2k]`, `soundBuf[2k + 1]`) and leaves the rest of
`soundBuf` alone, and resets the ring index to 0, so that a directly following
`advance` whose frame posts no audio reports 0 samples. -/
theorem C13_audio_drained (mctx : Mgba.GSE_ctx) (mc mc2 : Mgba.AdvanceCall) (sctx : GSE_ctx)
    (sc sc2 : AdvanceCall)
    (hm : (mc.frame.apply mctx).audio_stream.sample_index
      ≤ (mc.frame.apply mctx).audio_stream.samples.length)
    (hs : (run_mixes sctx.audio_provider sc.frame.mixes).sample_index
      ≤ (run_mixes sctx.audio_provider sc.frame.mixes).samples.length)
    (hm2 : mc2.frame.events = []) (hs2 : sc2.frame.mixes = []) :
    ((Mgba.mgba_advance mctx mc).samples = (mc.frame.apply mctx).audio_stream.sample_index ∧
      (Mgba.mgba_advance mctx mc).soundBuf.take
          (2 * (mc.frame.apply mctx).audio_stream.sample_index)
        = Mgba.interleave ((mc.frame.apply mctx).audio_stream.samples.take
          (mc.frame.apply mctx).audio_stream.sample_index) ∧
      (∀ k s, k < (mc.frame.apply mctx).audio_stream.sample_index →
        (mc.frame.apply mctx).audio_stream.samples[k]? = some s →
        (Mgba.mgba_advance mctx mc).soundBuf[2 * k]? = some s.left ∧
        (Mgba.mgba_advance mctx mc).soundBuf[2 * k + 1]? = some s.right) ∧
      (Mgba.mgba_advance mctx mc).soundBuf.drop
          (2 * (mc.frame.apply mctx).audio_stream.sample_index)
        = mc.soundBuf.drop (2 * (mc.frame.apply mctx).audio_stream.sample_index) ∧
      (Mgba.mgba_advance mctx mc).ctx.audio_stream.sample_index = 0 ∧
      (Mgba.mgba_advance (Mgba.mgba_advance mctx mc).ctx mc2).samples = 0) ∧
    ((mesen_advance sctx sc).samples
        = (run_mixes sctx.audio_provider sc.frame.mixes).sample_index ∧
      (mesen_advance sctx sc).soundBuf.take
          (2 * (run_mixes sctx.audio_provider sc.frame.mixes).sample_index)
        = interleave ((run_mixes sctx.audio_provider sc.frame.mixes).samples.take
          (run_mixes sctx.audio_provider sc.frame.mixes).sample_index) ∧
      (∀ k s, k < (run_mixes sctx.audio_provider sc.frame.mixes).sample_index →
        (run_mixes sctx.audio_provider sc.frame.mixes).samples[k]? = some s →
        (mesen_advance sctx sc).soundBuf[2 * k]? = some s.left ∧
        (mesen_advance sctx sc).soundBuf[2 * k + 1]? = some s.right) ∧
      (mesen_advance sctx sc).soundBuf.drop
          (2 * (run_mixes sctx.audio_provider sc.frame.mixes).sample_index)
        = sc.soundBuf.drop (2 * (run_mixes sctx.audio_provider sc.frame.mixes).sample_index) ∧
      (mesen_advance sctx sc).ctx.audio_provider.sample_index = 0 ∧
      (mesen_advance (mesen_advance sctx sc).ctx sc2).samples = 0) := by
  constructor
  · have hlen : 2 * (mc.frame.apply mctx).audio_stream.sample_index
        ≤ (Mgba.interleave (mc.frame.apply mctx).audio_stream.samples).length := by
      rw [Mgba.mgba_length_interleave]; omega
    refine ⟨rfl, ?_, ?_, ?_, rfl, ?_⟩
    · show (memcpy mc.soundBuf 0 (Mgba.interleave (mc.frame.apply mctx).audio_stream.samples)
        (2 * (mc.frame.apply mctx).audio_stream.sample_index)).take _ = _
      rw [memcpy_zero_take _ _ _ hlen, Mgba.mgba_interleave_take]
    · intro k s hk hsome
      show (memcpy mc.soundBuf 0 (Mgba.interleave (mc.frame.apply mctx).audio_stream.samples)
          (2 * (mc.frame.apply mctx).audio_stream.sample_index))[2 * k]? = _ ∧
        (memcpy mc.soundBuf 0 (Mgba.interleave (mc.frame.apply mctx).audio_stream.samples)
          (2 * (mc.frame.apply mctx).audio_stream.sample_index))[2 * k + 1]? = _
      rw [memcpy_zero_getElem? _ _ _ _ hlen (by omega),
        memcpy_zero_getElem? _ _ _ _ hlen (by omega)]
      exact Mgba.mgba_interleave_getElem? _ k s hsome
    · show (memcpy mc.soundBuf 0 (Mgba.interleave (mc.frame.apply mctx).audio_stream.samples)
        (2 * (mc.frame.apply mctx).audio_stream.sample_index)).drop _ = _
      rw [memcpy_zero_drop _ _ _ hlen]
    · show (mc2.frame.apply (Mgba.mgba_advance mctx mc).ctx).audio_stream.sample_index = 0
      unfold Mgba.CoreEffect.apply
      rw [hm2]
      rfl
  · have hlen : 2 * (run_mixes sctx.audio_provider sc.frame.mixes).sample_index
        ≤ (interleave (run_mixes sctx.audio_provider sc.frame.mixes).samples).length := by
      rw [mesen_length_interleave]; omega
    refine ⟨rfl, ?_, ?_, ?_, rfl, ?_⟩
    · show (memcpy sc.soundBuf 0 (interleave (run_mixes sctx.audio_provider sc.frame.mixes).samples)
        (2 * (run_mixes sctx.audio_provider sc.frame.mixes).sample_index)).take _ = _
      rw [memcpy_zero_take _ _ _ hlen, mesen_interleave_take]
    · intro k s hk hsome
      show (memcpy sc.soundBuf 0
          (interleave (run_mixes sctx.audio_provider sc.frame.mixes).samples)
          (2 * (run_mixes sctx.audio_provider sc.frame.mixes).sample_index))[2 * k]? = _ ∧
        (memcpy sc.soundBuf 0
          (interleave (run_mixes sctx.audio_provider sc.frame.mixes).samples)
          (2 * (run_mixes sctx.audio_provider sc.frame.mixes).sample_index))[2 * k + 1]? = _
      rw [memcpy_zero_getElem? _ _ _ _ hlen (by omega),
        memcpy_zero_getElem? _ _ _ _ hlen (by omega)]
      exact mesen_interleave_getElem? _ k s hsome
    · show (memcpy sc.soundBuf 0 (interleave (run_mixes sctx.audio_provider sc.frame.mixes).samples)
        (2 * (run_mixes sctx.audio_provider sc.frame.mixes).sample_index)).drop _ = _
      rw [memcpy_zero_drop _ _ _ hlen]
    · show (run_mixes (mesen_advance sctx sc).ctx.audio_provider sc2.frame.mixes).sample_index = 0
      rw [hs2]
      rfl

/-- Witness for C13: in the mGBA adapter a frame that posts the audio frame
`(3, -4)` once (quotient 8) reports 8 samples and puts eight pairs `3, -4` at
the start of `soundBuf`; in the Mesen adapter a frame whose mixer delivers
`(1, 2)`, `(3, 4)` reports 2 samples and puts `1, 2, 3, 4` at the start of
`soundBuf`.  In both the rest of `soundBuf` keeps its values 99, the ring index
is 0 afterwards, and a following `advance` without audio reports 0 samples. -/
theorem C13_audio_drained_witness :
    ((Mgba.mgba_advance Mgba.exampleCtx Mgba.exampleAudioCall).samples = 8 ∧
      (Mgba.mgba_advance Mgba.exampleCtx Mgba.exampleAudioCall).soundBuf
        = [3, -4, 3, -4, 3, -4, 3, -4, 3, -4, 3, -4, 3, -4, 3, -4, 99, 99, 99, 99] ∧
      (Mgba.mgba_advance Mgba.exampleCtx Mgba.exampleAudioCall).soundBuf[15]? = some (-4) ∧
      (Mgba.mgba_advance Mgba.exampleCtx Mgba.exampleAudioCall).ctx.audio_stream.sample_index
        = 0 ∧
      (Mgba.mgba_advance (Mgba.mgba_advance Mgba.exampleCtx Mgba.exampleAudioCall).ctx
        (Mgba.exampleCall 280896 561792)).samples = 0) ∧
    ((mesen_advance (exampleCtx [] []) exampleAudioCall).samples = 2 ∧
      (mesen_advance (exampleCtx [] []) exampleAudioCall).soundBuf = [1, 2, 3, 4, 99, 99] ∧
      (mesen_advance (exampleCtx [] []) exampleAudioCall).soundBuf[2]? = some 3 ∧
      (mesen_advance (exampleCtx [] []) exampleAudioCall).ctx.audio_provider.sample_index = 0 ∧
      (mesen_advance (mesen_advance (exampleCtx [] []) exampleAudioCall).ctx
        (exampleCall [])).samples = 0) := by
  have hr := Mgba.post_audio_frame_from_empty Mgba.exampleCtx.audio_stream 3 (-4) rfl
    (by decide) (List.length_replicate _ _)
  have hi : (Mgba.exampleAudioCall.frame.apply Mgba.exampleCtx).audio_stream.sample_index = 8 :=
    hr.1
  have ht : (Mgba.exampleAudioCall.frame.apply Mgba.exampleCtx).audio_stream.samples.take 8
      = List.replicate 8 ⟨3, -4⟩ := hr.2.1
  have hl : (Mgba.exampleAudioCall.frame.apply Mgba.exampleCtx).audio_stream.samples.length
      = 0x2000 := hr.2.2
  have hq := MixAudio_from_empty (exampleCtx [] []).audio_provider [⟨1, 2⟩, ⟨3, 4⟩] 2 48000 rfl
    (by decide) (by decide) (List.length_replicate _ _)
  have hj : (run_mixes (exampleCtx [] []).audio_provider exampleAudioCall.frame.mixes).sample_index
      = 2 := hq.1
  have hu : (run_mixes (exampleCtx [] []).audio_provider exampleAudioCall.frame.mixes).samples.take 2
      = [⟨1, 2⟩, ⟨3, 4⟩] := hq.2.1
  have hk : (run_mixes (exampleCtx [] []).audio_provider exampleAudioCall.frame.mixes).samples.length
      = 8192 := hq.2.2
  obtain ⟨⟨m1, m2, m3, m4, m5, m6⟩, ⟨s1, s2, s3, s4, s5, s6⟩⟩ :=
    C13_audio_drained Mgba.exampleCtx Mgba.exampleAudioCall (Mgba.exampleCall 280896 561792)
      (exampleCtx [] []) exampleAudioCall (exampleCall [])
      (by rw [hi, hl]; decide) (by rw [hj, hk]; decide) rfl rfl
  rw [hi] at m1 m2 m4
  rw [ht] at m2
  rw [hj] at s1 s2 s4
  rw [hu] at s2
  have mt : (List.replicate 8 (⟨3, -4⟩ : Mgba.mStereoSample))[7]? = some ⟨3, -4⟩ := by decide
  have m7 := m3 7 ⟨3, -4⟩ (by rw [hi]; decide)
    ((List.getElem?_take_of_lt (by decide : 7 < 8)).symm.trans (ht ▸ mt))
  have st : ([⟨1, 2⟩, ⟨3, 4⟩] : List StereoSample)[1]? = some ⟨3, 4⟩ := by decide
  have s7 := s3 1 ⟨3, 4⟩ (by rw [hj]; decide)
    ((List.getElem?_take_of_lt (by decide : 1 < 2)).symm.trans (hu ▸ st))
  refine ⟨⟨m1, ?_, m7.2, m5, m6⟩, ⟨s1, ?_, s7.1, s5, s6⟩⟩
  · rw [← List.take_append_drop (2 * 8)
      (Mgba.mgba_advance Mgba.exampleCtx Mgba.exampleAudioCall).soundBuf, m2, m4]
    decide
  · rw [← List.take_append_drop (2 * 2) (mesen_advance (exampleCtx [] []) exampleAudioCall).soundBuf,
      s2, s4]
    decide

end Mesen

namespace GSE

theorem and_7FFF_lt (p : Nat) : p &&& 0x7FFF < 0x8000 :=
  Nat.and_lt_two_pow p (show 0x7FFF < 2 ^ 15 by norm_num)

theorem and_7FFF_eq_mod (p : Nat) : p &&& 0x7FFF = p % 2 ^ 15 :=
  Nat.and_pow_two_sub_one_eq_mod p 15

theorem lut_video_getElem? (lut table dest vbuf : List Nat) (N i p : Nat)
    (ht : table.length = 0x8000) (hi : i < N) (hp : vbuf[i]? = some p) :
    (memcpy dest 0
      ((List.range N).map fun i => (memcpy lut 0 table 0x8000).getD (vbuf.getD i 0 &&& 0x7FFF) 0)
      N)[i]? = table[p &&& 0x7FFF]? := by
  have hk : p &&& 0x7FFF < table.length := by rw [ht]; exact and_7FFF_lt p
  rw [memcpy_zero_getElem? _ _ _ _ (by simp) hi, List.getElem?_map, List.getElem?_range hi]
  simp only [Option.map_some', List.getD_eq_getElem?_getD, hp, Option.getD_some]
  rw [memcpy_zero_getElem? _ _ _ _ (by omega) (and_7FFF_lt p), List.getElem?_eq_getElem hk]
  rfl

end GSE

namespace Mesen

open GSE

/-- C14: after `mgba_setcolorlut` (resp. `mesen_setcolorlut`) with a table of
`0x8000` entries, `advance` writes for every pixel index `i` below the pixel
count `videoBuf[i] = table[pixel_i & 0x7FFF]`; the index is below `0x8000`, so
the entry exists; and two source pixels with the same low 15 bits (equal pixels,
or pixels differing only in bit 15 and above) give equal output values. -/
theorem C14_video_lookup (mctx : Mgba.GSE_ctx) (mc : Mgba.AdvanceCall) (sctx : GSE_ctx)
    (sc : AdvanceCall) (table : List Nat) (ht : table.length = 0x8000) :
    (∀ i p, i < Mgba.GBA_VIDEO_PIXELS → mc.frame.vbuf[i]? = some p →
      p &&& 0x7FFF < 0x8000 ∧
      (Mgba.mgba_advance (Mgba.mgba_setcolorlut mctx table) mc).videoBuf[i]?
        = table[p &&& 0x7FFF]? ∧
      (table[p &&& 0x7FFF]?).isSome = true) ∧
    (∀ i j p q, i < Mgba.GBA_VIDEO_PIXELS → j < Mgba.GBA_VIDEO_PIXELS →
      mc.frame.vbuf[i]? = some p → mc.frame.vbuf[j]? = some q → p % 2 ^ 15 = q % 2 ^ 15 →
      (Mgba.mgba_advance (Mgba.mgba_setcolorlut mctx table) mc).videoBuf[i]?
        = (Mgba.mgba_advance (Mgba.mgba_setcolorlut mctx table) mc).videoBuf[j]?) ∧
    (∀ i p, i < PixelCount → sc.frame.screenBuffer[i]? = some p →
      p &&& 0x7FFF < 0x8000 ∧
      (mesen_advance (mesen_setcolorlut sctx table) sc).videoBuf[i]? = table[p &&& 0x7FFF]? ∧
      (table[p &&& 0x7FFF]?).isSome = true) ∧
    (∀ i j p q, i < PixelCount → j < PixelCount →
      sc.frame.screenBuffer[i]? = some p → sc.frame.screenBuffer[j]? = some q →
      p % 2 ^ 15 = q % 2 ^ 15 →
      (mesen_advance (mesen_setcolorlut sctx table) sc).videoBuf[i]?
        = (mesen_advance (mesen_setcolorlut sctx table) sc).videoBuf[j]?) := by
  have hsome : ∀ p : Nat, (table[p &&& 0x7FFF]?).isSome = true := by
    intro p
    rw [List.getElem?_eq_getElem (by rw [ht]; exact and_7FFF_lt p)]
    rfl
  have hm : ∀ i p, i < Mgba.GBA_VIDEO_PIXELS → mc.frame.vbuf[i]? = some p →
      (Mgba.mgba_advance (Mgba.mgba_setcolorlut mctx table) mc).videoBuf[i]?
        = table[p &&& 0x7FFF]? := by
    intro i p hi hp
    exact lut_video_getElem? mctx.color_lut table mc.videoBuf mc.frame.vbuf _ i p ht hi hp
  have hsv : ∀ i p, i < PixelCount → sc.frame.screenBuffer[i]? = some p →
      (mesen_advance (mesen_setcolorlut sctx table) sc).videoBuf[i]?
        = table[p &&& 0x7FFF]? := by
    intro i p hi hp
    exact lut_video_getElem? sctx.color_lut table sc.videoBuf sc.frame.screenBuffer _ i p ht hi hp
  refine ⟨?_, ?_, ?_, ?_⟩
  · intro i p hi hp
    exact ⟨and_7FFF_lt p, hm i p hi hp, hsome p⟩
  · intro i j p q hi hj hp hq hpq
    rw [hm i p hi hp, hm j q hj hq, and_7FFF_eq_mod, and_7FFF_eq_mod, hpq]
  · intro i p hi hp
    exact ⟨and_7FFF_lt p, hsv i p hi hp, hsome p⟩
  · intro i j p q hi hj hp hq hpq
    rw [hsv i p hi hp, hsv j q hj hq, and_7FFF_eq_mod, and_7FFF_eq_mod, hpq]

end Mesen

namespace Mesen

open GSE

/-- Witness for C14: with a table of `0x8000` entries 7 and a black frame, pixel
0 of the output is the table entry of index `0 & 0x7FFF`, in both adapters. -/
theorem C14_video_lookup_witness :
    (List.replicate 0x8000 7).length = 0x8000 ∧
    (Mgba.mgba_advance (Mgba.mgba_setcolorlut Mgba.exampleCtx (List.replicate 0x8000 7))
      (Mgba.exampleCall 0 280896)).videoBuf[0]? = (List.replicate 0x8000 7)[0 &&& 0x7FFF]? ∧
    (mesen_advance (mesen_setcolorlut (exampleCtx [] []) (List.replicate 0x8000 7))
      (exampleCall [])).videoBuf[0]? = (List.replicate 0x8000 7)[0 &&& 0x7FFF]? :=
  have h := C14_video_lookup Mgba.exampleCtx (Mgba.exampleCall 0 280896) (exampleCtx [] [])
    (exampleCall []) (List.replicate 0x8000 7) (List.length_replicate _ _)
  ⟨List.length_replicate _ _,
    (h.1 0 0 (by decide) (List.getElem?_replicate_of_lt (by decide))).2.1,
    (h.2.2.1 0 0 (by decide) (List.getElem?_replicate_of_lt (by decide))).2.1⟩

end Mesen

namespace ExportHelper

/-! ## Memory export table -/

/-- C15: for each of the six selectors `export_helper_set_mem_export` sets that
region's exported pointer and length to `(ptr, len)` and leaves the other five
pairs as they were; for a selector value outside the enumeration no pair
changes; initially all six pairs are `(NULL, 0)`. -/
theorem C15_set_mem_export (s : Exports) (which : Int) (ptr len : Nat) :
    export_helper_set_mem_export s MemExportType.GB_WRAM ptr len =
      ⟨⟨ptr, len⟩, s.GB_SRAM, s.GB_HRAM, s.GBA_IWRAM, s.GBA_EWRAM, s.GBA_SRAM⟩ ∧
    export_helper_set_mem_export s MemExportType.GB_SRAM ptr len =
      ⟨s.GB_WRAM, ⟨ptr, len⟩, s.GB_HRAM, s.GBA_IWRAM, s.GBA_EWRAM, s.GBA_SRAM⟩ ∧
    export_helper_set_mem_export s MemExportType.GB_HRAM ptr len =
      ⟨s.GB_WRAM, s.GB_SRAM, ⟨ptr, len⟩, s.GBA_IWRAM, s.GBA_EWRAM, s.GBA_SRAM⟩ ∧
    export_helper_set_mem_export s MemExportType.GBA_IWRAM ptr len =
      ⟨s.GB_WRAM, s.GB_SRAM, s.GB_HRAM, ⟨ptr, len⟩, s.GBA_EWRAM, s.GBA_SRAM⟩ ∧
    export_helper_set_mem_export s MemExportType.GBA_EWRAM ptr len =
      ⟨s.GB_WRAM, s.GB_SRAM, s.GB_HRAM, s.GBA_IWRAM, ⟨ptr, len⟩, s.GBA_SRAM⟩ ∧
    export_helper_set_mem_export s MemExportType.GBA_SRAM ptr len =
      ⟨s.GB_WRAM, s.GB_SRAM, s.GB_HRAM, s.GBA_IWRAM, s.GBA_EWRAM, ⟨ptr, len⟩⟩ ∧
    ((which < 0 ∨ 5 < which) → export_helper_set_mem_export s which ptr len = s) ∧
    Exports.initial = ⟨⟨0, 0⟩, ⟨0, 0⟩, ⟨0, 0⟩, ⟨0, 0⟩, ⟨0, 0⟩, ⟨0, 0⟩⟩ := by
  refine ⟨rfl, rfl, rfl, rfl, rfl, rfl, ?_, rfl⟩
  intro h
  unfold export_helper_set_mem_export MemExportType.GB_WRAM MemExportType.GB_SRAM
    MemExportType.GB_HRAM MemExportType.GBA_IWRAM MemExportType.GBA_EWRAM MemExportType.GBA_SRAM
  rw [if_neg (by omega), if_neg (by omega), if_neg (by omega), if_neg (by omega),
    if_neg (by omega), if_neg (by omega)]

/-- Witness for C15: from the initial table, exporting `(4096, 32768)` for
`GBA_IWRAM` (selector 3) changes that pair only, and selector 6 changes
nothing. -/
theorem C15_set_mem_export_witness :
    export_helper_set_mem_export Exports.initial MemExportType.GBA_IWRAM 4096 32768 =
      ⟨⟨0, 0⟩, ⟨0, 0⟩, ⟨0, 0⟩, ⟨4096, 32768⟩, ⟨0, 0⟩, ⟨0, 0⟩⟩ ∧
    export_helper_set_mem_export Exports.initial 6 4096 32768 = Exports.initial :=
  ⟨(C15_set_mem_export Exports.initial 3 4096 32768).2.2.2.1,
    (C15_set_mem_export Exports.initial 6 4096 32768).2.2.2.2.2.2.1 (Or.inr (by decide))⟩

end ExportHelper

namespace Mgba

open GSE

/-! ## The RTC update against the carry loop of the specification -/

theorem spec_carry_loop_lt (fuel accumulator : Nat) (unixTime : Int) (frequency : Nat)
    (h : accumulator < frequency) :
    spec_carry_loop (fuel + 1) accumulator unixTime frequency = some (accumulator, unixTime) := by
  unfold spec_carry_loop
  rw [if_neg (by omega)]

theorem spec_carry_loop_ge (fuel accumulator : Nat) (unixTime : Int) (frequency : Nat)
    (h : accumulator ≥ frequency) :
    spec_carry_loop (fuel + 1) accumulator unixTime frequency =
      spec_carry_loop fuel (accumulator - frequency) (wrapI64 (unixTime + 1)) frequency := by
  conv => lhs; unfold spec_carry_loop
  rw [if_pos h]

set_option maxRecDepth 100000 in
/-- C16 counterexample: with frequency 16777216, accumulator 0 and an elapsed
count of 50331648 cycles (three periods), the carry loop of the specification
ends with accumulator 0 and `unix_time` 1003, while the update of
`mgba_advance` carries once and ends with accumulator 33554432, which is not
`(a + d) mod f = 0`, and `unix_time` 1001. -/
theorem C16_rtc_refines_carry_loop_counterexample :
    exampleCtx.rtc_source.cycles < exampleCtx.rtc_source.frequency ∧
    (exampleCall 0 50331648).cpuCycles = 50331648 ∧
    spec_rtc_notify 4 exampleCtx.rtc_source 50331648
      = some ⟨1003, 0, 16777216, false⟩ ∧
    (mgba_advance exampleCtx (exampleCall 0 50331648)).ctx.rtc_source
      = ⟨1001, 33554432, 16777216, false⟩ ∧
    (mgba_advance exampleCtx (exampleCall 0 50331648)).ctx.rtc_source.cycles
      ≠ (exampleCtx.rtc_source.cycles + 50331648) % exampleCtx.rtc_source.frequency ∧
    (mgba_advance exampleCtx (exampleCall 0 50331648)).ctx.rtc_source.unix_time
      ≠ exampleCtx.rtc_source.unix_time
        + ((exampleCtx.rtc_source.cycles + 50331648) / exampleCtx.rtc_source.frequency : Nat) :=
  ⟨by decide, by decide, by decide, by decide, by decide, by decide⟩

/-- C16 (amended): for an RTC state with frequency `f > 0` and accumulator
`a < f`, and an elapsed count `d` with `a + d < 2 ^ 32` and `a + d < 2 * f` (in
particular every `d ≤ f` when `f ≤ 2 ^ 31`), the state after the update of
`mgba_advance` is the result of `accumulator += d; while accumulator >= f:
accumulator -= f; unixTime += 1`: the new accumulator is `(a + d) mod f` and
`unix_time` has been incremented `(a + d) div f` times (0 or 1). -/
theorem C16_rtc_refines_carry_loop (rtc : GSE_Rtc) (d : Nat) (hwf : rtc.WF)
    (hf : 0 < rtc.frequency) (ha : rtc.cycles < rtc.frequency)
    (h32 : rtc.cycles + d < 2 ^ 32) (h2f : rtc.cycles + d < 2 * rtc.frequency) :
    (∀ fuel, 2 ≤ fuel → spec_rtc_notify fuel rtc d = some (rtc_add_cycles rtc d)) ∧
    (∀ (ctx : GSE_ctx) (c : AdvanceCall), ctx.rtc_source = rtc → c.cpuCycles = d →
      (mgba_advance ctx c).ctx.rtc_source = rtc_add_cycles rtc d) ∧
    (rtc_add_cycles rtc d).cycles = (rtc.cycles + d) % rtc.frequency ∧
    (rtc_add_cycles rtc d).unix_time
      = (if (rtc.cycles + d) / rtc.frequency = 0 then rtc.unix_time
        else wrapI64 (rtc.unix_time + 1)) ∧
    (rtc.unix_time + 1 < 2 ^ 63 →
      (rtc_add_cycles rtc d).unix_time
        = rtc.unix_time + ((rtc.cycles + d) / rtc.frequency : Nat)) ∧
    (rtc_add_cycles rtc d).frequency = rtc.frequency ∧
    (rtc_add_cycles rtc d).deserialization_success = rtc.deserialization_success := by
  obtain ⟨hu, -, hfb⟩ := hwf
  by_cases hc : rtc.cycles + d < rtc.frequency
  · have e : rtc_add_cycles rtc d = { rtc with cycles := rtc.cycles + d } :=
      rtc_add_cycles_lt hfb hc
    have hdiv : (rtc.cycles + d) / rtc.frequency = 0 := Nat.div_eq_of_lt hc
    have hmod : (rtc.cycles + d) % rtc.frequency = rtc.cycles + d := Nat.mod_eq_of_lt hc
    rw [e, hdiv, hmod]
    refine ⟨?_, ?_, rfl, ?_, ?_, rfl, rfl⟩
    · intro fuel hfuel
      obtain ⟨k, rfl⟩ : ∃ k, fuel = k + 1 := ⟨fuel - 1, by omega⟩
      unfold spec_rtc_notify
      rw [spec_carry_loop_lt _ _ _ _ hc]
    · intro ctx c h1 h2
      rw [mgba_advance_rtc, h1, h2, e]
    · rfl
    · intro _
      simp
  · have hsum : u32 (rtc.cycles + d) = rtc.cycles + d := u32_of_lt h32
    have hsub : u32 (rtc.cycles + d - rtc.frequency) = rtc.cycles + d - rtc.frequency :=
      u32_of_lt (by omega)
    have e : rtc_add_cycles rtc d =
        { rtc with unix_time := wrapI64 (rtc.unix_time + 1),
                   cycles := rtc.cycles + d - rtc.frequency } := by
      unfold rtc_add_cycles
      dsimp only
      rw [hsum, if_pos (by omega), hsub]
    have hdiv : (rtc.cycles + d) / rtc.frequency = 1 := by
      apply Nat.div_eq_of_lt_le <;> omega
    have hmod : (rtc.cycles + d) % rtc.frequency = rtc.cycles + d - rtc.frequency := by
      rw [Nat.mod_eq_sub_mod (by omega), Nat.mod_eq_of_lt (by omega)]
    rw [e, hdiv, hmod]
    refine ⟨?_, ?_, rfl, ?_, ?_, rfl, rfl⟩
    · intro fuel hfuel
      obtain ⟨k, rfl⟩ : ∃ k, fuel = k + 2 := ⟨fuel - 2, by omega⟩
      unfold spec_rtc_notify
      rw [spec_carry_loop_ge _ _ _ _ (by omega), spec_carry_loop_lt _ _ _ _ (by omega)]
    · intro ctx c h1 h2
      rw [mgba_advance_rtc, h1, h2, e]
    · rfl
    · intro hlt
      dsimp only
      rw [wrapI64_of_isI64 ⟨by unfold IsI64 at hu; omega, hlt⟩]
      rfl

/-- Witness for C16: in `exampleCtx` a frame of 280896 cycles keeps the
accumulator below the frequency, and the update agrees with the carry loop. -/
theorem C16_rtc_refines_carry_loop_witness :
    spec_rtc_notify 2 exampleCtx.rtc_source 280896
      = some (rtc_add_cycles exampleCtx.rtc_source 280896) ∧
    (rtc_add_cycles exampleCtx.rtc_source 280896).cycles = 280896 :=
  have h := C16_rtc_refines_carry_loop exampleCtx.rtc_source 280896 (by decide) (by decide)
    (by decide) (by decide) (by decide)
  ⟨h.1 2 (by decide), h.2.2.1.trans (by decide)⟩

end Mgba

namespace Mgba

open GSE

/-- C17: for a ring with `sample_index = n ≤ 0x2000`, `post_audio_frame_callback`
writes the sample into the `min(q, 0x2000 - n)` consecutive slots starting at
`n`, leaves every other slot (below `n` and from `n + min(q, 0x2000 - n)` on)
unchanged, keeps the ring at `0x2000` entries, and sets `sample_index` to
`n + min(q, 0x2000 - n)`, which does not exceed `0x2000`;
`audio_rate_changed_callback` with a rate `r > 0` sets the quotient to
`sample_rate / r`. -/
theorem C17_audio_ring (audio : GSE_Audio) (left right : Int) (rate : Nat)
    (hn : audio.sample_index ≤ 0x2000) (hlen : audio.samples.length = 0x2000)
    (hr : 0 < rate) :
    (post_audio_frame_callback audio left right).samples =
      audio.samples.take audio.sample_index ++
        List.replicate (min audio.sample_rate_quotient (0x2000 - audio.sample_index))
          ⟨left, right⟩ ++
        audio.samples.drop
          (audio.sample_index + min audio.sample_rate_quotient (0x2000 - audio.sample_index)) ∧
    (∀ i, i < audio.sample_index →
      (post_audio_frame_callback audio left right).samples[i]? = audio.samples[i]?) ∧
    (∀ i, audio.sample_index ≤ i →
      i < audio.sample_index + min audio.sample_rate_quotient (0x2000 - audio.sample_index) →
      (post_audio_frame_callback audio left right).samples[i]? = some ⟨left, right⟩) ∧
    (∀ i, audio.sample_index + min audio.sample_rate_quotient (0x2000 - audio.sample_index) ≤ i →
      (post_audio_frame_callback audio left right).samples[i]? = audio.samples[i]?) ∧
    (post_audio_frame_callback audio left right).samples.length = 0x2000 ∧
    (post_audio_frame_callback audio left right).sample_index =
      audio.sample_index + min audio.sample_rate_quotient (0x2000 - audio.sample_index) ∧
    (post_audio_frame_callback audio left right).sample_index ≤ 0x2000 ∧
    (post_audio_frame_callback audio left right).sample_rate = audio.sample_rate ∧
    (post_audio_frame_callback audio left right).sample_rate_quotient
      = audio.sample_rate_quotient ∧
    audio_rate_changed_callback audio rate =
      { audio with sample_rate_quotient := audio.sample_rate / rate } := by
  unfold post_audio_frame_callback
  rw [post_audio_frame_loop_eq _ _ _ _ hn hlen]
  dsimp only
  generalize hm : min audio.sample_rate_quotient (0x2000 - audio.sample_index) = m
  have hmle : audio.sample_index + m ≤ 0x2000 := by omega
  have htl : (audio.samples.take audio.sample_index).length = audio.sample_index := by
    rw [List.length_take]; omega
  refine ⟨rfl, ?_, ?_, ?_, ?_, rfl, hmle, rfl, rfl, rfl⟩
  · intro i hi
    rw [List.append_assoc, List.getElem?_append_left (by omega), List.getElem?_take_of_lt hi]
  · intro i h1 h2
    rw [List.append_assoc, List.getElem?_append_right (by omega),
      List.getElem?_append_left (by rw [List.length_replicate]; omega),
      List.getElem?_replicate_of_lt (by omega)]
  · intro i h1
    rw [List.getElem?_append_right (by rw [List.length_append, List.length_replicate]; omega),
      List.getElem?_drop]
    congr 1
    rw [List.length_append, List.length_replicate]
    omega
  · simp only [List.length_append, List.length_take, List.length_replicate, List.length_drop]
    omega

/-- Witness for C17: in the ring of `exampleCtx` (quotient 8, index 0) one
posted sample fills slots 0 to 7 and moves the index to 8. -/
theorem C17_audio_ring_witness :
    (post_audio_frame_callback exampleCtx.audio_stream 5 (-5)).sample_index = 8 ∧
    (post_audio_frame_callback exampleCtx.audio_stream 5 (-5)).samples[7]? = some ⟨5, -5⟩ ∧
    (post_audio_frame_callback exampleCtx.audio_stream 5 (-5)).samples[8]? = some ⟨0, 0⟩ :=
  have h := C17_audio_ring exampleCtx.audio_stream 5 (-5) 32768 (by decide)
    (List.length_replicate _ _) (by decide)
  ⟨h.2.2.2.2.2.1.trans (by decide), h.2.2.1 7 (by decide) (by decide),
    (h.2.2.2.1 8 (by decide)).trans (List.getElem?_replicate_of_lt (by decide))⟩

end Mgba

namespace Libmgba

open GSE

/-! ## Generated colour table of the libmgba adapter -/

theorem curve_lt (k : Nat) : sameboy_agb_color_curve.getD k 0 < 256 := by
  have hall : ∀ x ∈ sameboy_agb_color_curve, x < 256 := by decide
  rw [List.getD_eq_getElem?_getD]
  by_cases hk : k < sameboy_agb_color_curve.length
  · rw [List.getElem?_eq_getElem hk]
    exact hall _ (List.getElem_mem _)
  · rw [List.getElem?_eq_none (by omega)]
    decide

theorem pack_eq (r g b : Nat) (hr : r < 256) (hg : g < 256) (hb : b < 256) :
    (0xFF <<< 24) ||| (b <<< 16) ||| (g <<< 8) ||| r
      = 2 ^ 24 * 255 + (2 ^ 16 * b + (2 ^ 8 * g + r)) := by
  rw [Nat.shiftLeft_eq, Nat.shiftLeft_eq, Nat.shiftLeft_eq, Nat.mul_comm 0xFF, Nat.mul_comm b,
    Nat.mul_comm g, Nat.or_assoc, Nat.or_assoc,
    ← Nat.mul_add_lt_is_or (show r < 2 ^ 8 by omega),
    ← Nat.mul_add_lt_is_or (show 2 ^ 8 * g + r < 2 ^ 16 by omega),
    ← Nat.mul_add_lt_is_or (show 2 ^ 16 * b + (2 ^ 8 * g + r) < 2 ^ 24 by omega)]

end Libmgba

namespace Libmgba

open GSE

theorem and_1F_mod (x : Nat) : (x &&& 0x1F) % 256 = x &&& 0x1F :=
  Nat.mod_eq_of_lt (Nat.lt_trans (Nat.and_lt_two_pow x (show 0x1F < 2 ^ 5 by norm_num))
    (by norm_num))

theorem unpack (x r g b : Nat) (hr : r < 256) (hg : g < 256) (hb : b < 256)
    (hx : x = u32 ((0xFF <<< 24) ||| (b <<< 16) ||| (g <<< 8) ||| r)) :
    x >>> 24 = 0xFF ∧ x &&& 0xFF = r ∧ (x >>> 16) &&& 0xFF = b ∧ (x >>> 8) &&& 0xFF = g := by
  rw [pack_eq r g b hr hg hb] at hx
  unfold u32 at hx
  rw [Nat.shiftRight_eq_div_pow, Nat.shiftRight_eq_div_pow, Nat.shiftRight_eq_div_pow,
    and_low_mask, and_low_mask, and_low_mask]
  omega

theorem color_entry_bytes (gamma_mix : Nat → Nat → Nat) (i : Nat) :
    color_entry gamma_mix i >>> 24 = 0xFF ∧
    color_entry gamma_mix i &&& 0xFF = sameboy_agb_color_curve.getD (i &&& 0x1F) 0 ∧
    (color_entry gamma_mix i >>> 16) &&& 0xFF
      = sameboy_agb_color_curve.getD ((i >>> 10) &&& 0x1F) 0 ∧
    (sameboy_agb_color_curve.getD ((i >>> 5) &&& 0x1F) 0
        = sameboy_agb_color_curve.getD ((i >>> 10) &&& 0x1F) 0 →
      (color_entry gamma_mix i >>> 8) &&& 0xFF
        = sameboy_agb_color_curve.getD ((i >>> 5) &&& 0x1F) 0) := by
  have key := fun g hg => unpack (color_entry gamma_mix i)
    (sameboy_agb_color_curve.getD (i &&& 0x1F) 0) g
    (sameboy_agb_color_curve.getD ((i >>> 10) &&& 0x1F) 0) (curve_lt _) hg (curve_lt _)
  by_cases hgb : sameboy_agb_color_curve.getD ((i >>> 5) &&& 0x1F) 0
      = sameboy_agb_color_curve.getD ((i >>> 10) &&& 0x1F) 0
  · have h := key (sameboy_agb_color_curve.getD ((i >>> 5) &&& 0x1F) 0) (curve_lt _) (by
      unfold color_entry
      simp only [and_1F_mod]
      rw [if_neg (not_not.2 hgb)])
    exact ⟨h.1, h.2.1, h.2.2.1, fun _ => h.2.2.2⟩
  · have h := key (gamma_mix (sameboy_agb_color_curve.getD ((i >>> 5) &&& 0x1F) 0)
        (sameboy_agb_color_curve.getD ((i >>> 10) &&& 0x1F) 0) % 256)
      (Nat.mod_lt _ (by norm_num)) (by
        unfold color_entry
        simp only [and_1F_mod]
        rw [if_pos hgb])
    exact ⟨h.1, h.2.1, h.2.2.1, fun hh => absurd hh hgb⟩

end Libmgba

namespace Libmgba

open GSE

theorem color_lut_loop_spec (gamma_mix : Nat → Nat → Nat) (n : Nat) :
    ∀ (i : Nat) (lut : List Nat), lut.length = 0x10000 → i + n ≤ 0x8000 →
      (color_lut_loop gamma_mix n i lut).length = 0x10000 ∧
      ∀ p, p < 0x10000 → (color_lut_loop gamma_mix n i lut)[p]? =
        if i ≤ p % 0x8000 ∧ p % 0x8000 < i + n then some (color_entry gamma_mix (p % 0x8000))
        else lut[p]? := by
  induction n with
  | zero =>
    intro i lut hlen _
    unfold color_lut_loop
    refine ⟨hlen, ?_⟩
    intro p _
    rw [if_neg (by omega)]
  | succ n ih =>
    intro i lut hlen hin
    unfold color_lut_loop
    dsimp only
    have h1 : (lut.set i (color_entry gamma_mix i)).getD i 0 = color_entry gamma_mix i := by
      rw [List.getD_eq_getElem?_getD, List.getElem?_set, if_pos rfl, if_pos (by omega)]
      rfl
    rw [h1]
    obtain ⟨hl, hp⟩ := ih (i + 1)
      ((lut.set i (color_entry gamma_mix i)).set (0x8000 + i) (color_entry gamma_mix i))
      (by rw [List.length_set, List.length_set]; exact hlen) (by omega)
    refine ⟨hl, ?_⟩
    intro p hplt
    rw [hp p hplt]
    by_cases hc : i + 1 ≤ p % 0x8000 ∧ p % 0x8000 < i + 1 + n
    · rw [if_pos hc, if_pos (by omega)]
    · rw [if_neg hc]
      by_cases hi : p % 0x8000 = i
      · rw [if_pos (by omega), hi]
        by_cases hhi : 0x8000 + i = p
        · rw [List.getElem?_set, if_pos hhi, if_pos (by rw [List.length_set]; omega)]
        · have hpi : i = p := by omega
          rw [List.getElem?_set, if_neg hhi, List.getElem?_set, if_pos hpi, if_pos (by omega)]
      · rw [if_neg (by omega), List.getElem?_set, if_neg (by omega), List.getElem?_set,
          if_neg (by omega)]

theorem color_lut_generated (gamma_mix : Nat → Nat → Nat) (p : Nat) (hp : p < 0x10000) :
    (color_lut_loop gamma_mix 0x8000 0 (List.replicate 0x10000 0))[p]?
      = some (color_entry gamma_mix (p % 0x8000)) := by
  have h := (color_lut_loop_spec gamma_mix 0x8000 0 (List.replicate 0x10000 0)
    (List.length_replicate _ _) (by omega)).2 p hp
  rw [h, if_pos (by omega)]

theorem mgba_create_color_lut {romData : List Nat} {romLength : Nat} {biosData : List Nat}
    {biosLength : Nat} {env : CreateEnv} {ctx : GSR_ctx}
    (h : mgba_create romData romLength biosData biosLength env = some ctx) :
    ctx.color_lut = color_lut_loop env.gamma_mix 0x8000 0 (List.replicate 0x10000 0) := by
  unfold mgba_create at h
  obtain ⟨-, h⟩ := ite_none_eq_some h
  obtain ⟨-, h⟩ := ite_none_eq_some h
  obtain ⟨-, h⟩ := ite_none_eq_some h
  obtain ⟨-, h⟩ := ite_none_eq_some h
  obtain ⟨-, h⟩ := ite_none_eq_some h
  obtain ⟨-, h⟩ := ite_none_eq_some h
  obtain ⟨-, h⟩ := ite_none_eq_some h
  obtain ⟨-, h⟩ := ite_none_eq_some h
  obtain ⟨-, h⟩ := ite_none_eq_some h
  obtain ⟨-, h⟩ := ite_none_eq_some h
  rw [← Option.some.inj h]

end Libmgba

namespace Libmgba

open GSE

theorem and_1F_eq_mod (x : Nat) : x &&& 0x1F = x % 32 :=
  Nat.and_pow_two_sub_one_eq_mod x 5

theorem curve_getElem? (k : Nat) :
    sameboy_agb_color_curve[k &&& 0x1F]? = some (sameboy_agb_color_curve.getD (k &&& 0x1F) 0) := by
  have hk : k &&& 0x1F < sameboy_agb_color_curve.length :=
    Nat.and_lt_two_pow k (show 0x1F < 2 ^ 5 by norm_num)
  rw [List.getD_eq_getElem?_getD, List.getElem?_eq_getElem hk]
  rfl

/-- C18: in the context returned by `mgba_create` of the libmgba adapter, for
every 16-bit pixel value `p` the entry `color_lut[p]` exists and equals
`color_lut[p & 0x7FFF]`; its top byte is `0xFF`, its low byte is
`sameboy_agb_color_curve[p & 0x1F]`, its bits 16..23 are
`sameboy_agb_color_curve[(p >> 10) & 0x1F]`, and when the curve values of the
green and blue components are equal its bits 8..15 are that curve value. -/
theorem C18_generated_color_lut (romData : List Nat) (romLength : Nat) (biosData : List Nat)
    (biosLength : Nat) (env : CreateEnv) (ctx : GSR_ctx) (p : Nat)
    (h : mgba_create romData romLength biosData biosLength env = some ctx)
    (hp : p < 0x10000) :
    ctx.color_lut[p]? = ctx.color_lut[p &&& 0x7FFF]? ∧
    ∃ e, ctx.color_lut[p]? = some e ∧
      e >>> 24 = 0xFF ∧
      sameboy_agb_color_curve[p &&& 0x1F]? = some (e &&& 0xFF) ∧
      sameboy_agb_color_curve[(p >>> 10) &&& 0x1F]? = some ((e >>> 16) &&& 0xFF) ∧
      (sameboy_agb_color_curve[(p >>> 5) &&& 0x1F]?
          = sameboy_agb_color_curve[(p >>> 10) &&& 0x1F]? →
        sameboy_agb_color_curve[(p >>> 5) &&& 0x1F]? = some ((e >>> 8) &&& 0xFF)) := by
  have hmask : p &&& 0x7FFF = p % 0x8000 := and_7FFF_eq_mod p
  have hr : (p % 0x8000) &&& 0x1F = p &&& 0x1F := by
    rw [and_1F_eq_mod, and_1F_eq_mod]; omega
  have hg : ((p % 0x8000) >>> 5) &&& 0x1F = (p >>> 5) &&& 0x1F := by
    rw [and_1F_eq_mod, and_1F_eq_mod, Nat.shiftRight_eq_div_pow, Nat.shiftRight_eq_div_pow]
    omega
  have hb : ((p % 0x8000) >>> 10) &&& 0x1F = (p >>> 10) &&& 0x1F := by
    rw [and_1F_eq_mod, and_1F_eq_mod, Nat.shiftRight_eq_div_pow, Nat.shiftRight_eq_div_pow]
    omega
  obtain ⟨b1, b2, b3, b4⟩ := color_entry_bytes env.gamma_mix (p % 0x8000)
  rw [hr] at b2
  rw [hb] at b3 b4
  rw [hg] at b4
  rw [mgba_create_color_lut h, color_lut_generated _ p hp,
    color_lut_generated _ (p &&& 0x7FFF) (by rw [hmask]; omega), hmask, Nat.mod_mod]
  refine ⟨rfl, _, rfl, b1, ?_, ?_, ?_⟩
  · rw [curve_getElem?, b2]
  · rw [curve_getElem?, b3]
  · intro heq
    rw [curve_getElem?, curve_getElem?] at heq
    rw [curve_getElem?, b4 (Option.some.inj heq)]

/-- Witness for C18: in a context created in `exampleEnv`, the entry for pixel
`0xFFFF` (white with bit 15 set) equals the entry for `0x7FFF` and has low byte
255. -/
theorem C18_generated_color_lut_witness :
    ∃ ctx, mgba_create [] 0 [] 0x4000 exampleEnv = some ctx ∧
      ctx.color_lut[0xFFFF]? = ctx.color_lut[0x7FFF]? ∧
      ∃ e, ctx.color_lut[0xFFFF]? = some e ∧ e >>> 24 = 0xFF ∧ e &&& 0xFF = 255 := by
  have h := C18_generated_color_lut [] 0 [] 0x4000 exampleEnv
    ⟨[], color_lut_loop exampleEnv.gamma_mix 0x8000 0 (List.replicate 0x10000 0), none⟩ 0xFFFF
    rfl (by decide)
  obtain ⟨e, he1, he2, he3, -⟩ := h.2
  refine ⟨_, rfl, h.1, e, he1, he2, ?_⟩
  have hc : sameboy_agb_color_curve[0xFFFF &&& 0x1F]? = some 255 := by decide
  rw [hc] at he3
  exact (Option.some.inj he3).symm

end Libmgba

namespace Mesen

open GSE

/-! ## ROM padding of `mesen_create` -/

theorem pad_loop_succ_lt (fuel paddedRomLength romLength : Nat)
    (h : paddedRomLength < romLength) :
    pad_loop (fuel + 1) paddedRomLength romLength
      = pad_loop fuel (u32 (paddedRomLength <<< 1)) romLength := by
  conv => lhs; unfold pad_loop
  rw [if_pos h]

theorem pad_loop_succ_ge (fuel paddedRomLength romLength : Nat)
    (h : ¬paddedRomLength < romLength) :
    pad_loop (fuel + 1) paddedRomLength romLength = some paddedRomLength := by
  unfold pad_loop
  rw [if_neg h]

theorem u32_shl_pow (k : Nat) (hk : k < 31) : u32 (2 ^ k <<< 1) = 2 ^ (k + 1) := by
  have h : 2 ^ (k + 1) ≤ 2 ^ 31 := Nat.pow_le_pow_right (by norm_num) (by omega)
  rw [Nat.shiftLeft_eq, Nat.pow_one, ← Nat.pow_succ]
  exact u32_of_lt (by omega)

theorem pad_loop_mono (fuel extra paddedRomLength romLength result : Nat)
    (h : pad_loop fuel paddedRomLength romLength = some result) :
    pad_loop (fuel + extra) paddedRomLength romLength = some result := by
  induction fuel generalizing paddedRomLength with
  | zero => unfold pad_loop at h; cases h
  | succ fuel ih =>
    rw [Nat.add_right_comm]
    by_cases hlt : paddedRomLength < romLength
    · rw [pad_loop_succ_lt _ _ _ hlt] at h ⊢
      exact ih _ h
    · rw [pad_loop_succ_ge _ _ _ hlt] at h ⊢
      exact h

theorem pad_loop_terminates (romLength : Nat) (hn : romLength ≤ 2 ^ 31) (fuel : Nat) :
    ∀ k, k ≤ 31 → 32 ≤ k + fuel → (k = 0 ∨ 2 ^ (k - 1) < romLength) →
      ∃ j, j ≤ 31 ∧ pad_loop fuel (2 ^ k) romLength = some (2 ^ j) ∧ romLength ≤ 2 ^ j ∧
        (j = 0 ∨ 2 ^ (j - 1) < romLength) := by
  induction fuel with
  | zero => intro k hk hf _; omega
  | succ fuel ih =>
    intro k hk hf hinv
    by_cases hlt : 2 ^ k < romLength
    · have hk30 : k < 31 := by
        by_contra hc
        have : k = 31 := by omega
        rw [this] at hlt
        omega
      rw [pad_loop_succ_lt _ _ _ hlt, u32_shl_pow k hk30]
      exact ih (k + 1) (by omega) (by omega) (Or.inr (by simpa using hlt))
    · rw [pad_loop_succ_ge _ _ _ hlt]
      exact ⟨k, hk, rfl, by omega, hinv⟩

theorem pad_loop_diverges (romLength : Nat) (hn : 2 ^ 31 < romLength) (fuel : Nat) :
    ∀ paddedRomLength, (paddedRomLength = 0 ∨ ∃ k, k ≤ 31 ∧ paddedRomLength = 2 ^ k) →
      pad_loop fuel paddedRomLength romLength = none := by
  induction fuel with
  | zero => intro _ _; rfl
  | succ fuel ih =>
    intro paddedRomLength hp
    have hlt : paddedRomLength < romLength := by
      rcases hp with h | ⟨k, hk, h⟩
      · omega
      · have : 2 ^ k ≤ 2 ^ 31 := Nat.pow_le_pow_right (by norm_num) hk
        omega
    rw [pad_loop_succ_lt _ _ _ hlt]
    apply ih
    rcases hp with h | ⟨k, hk, h⟩
    · left
      rw [h]
      rfl
    · by_cases hk31 : k = 31
      · left
        rw [h, hk31]
        decide
      · right
        exact ⟨k + 1, by omega, by rw [h, u32_shl_pow k (by omega)]⟩

theorem pad_loop_fuel (romLength fuel : Nat) (hf : 33 ≤ fuel) :
    pad_loop fuel 1 romLength = pad_loop 33 1 romLength := by
  by_cases hn : romLength ≤ 2 ^ 31
  · obtain ⟨j, -, hj, -, -⟩ := pad_loop_terminates romLength hn 33 0 (by omega) (by omega)
      (Or.inl rfl)
    rw [Nat.pow_zero] at hj
    have := pad_loop_mono 33 (fuel - 33) 1 romLength _ hj
    rw [show 33 + (fuel - 33) = fuel by omega] at this
    rw [this, hj]
  · rw [pad_loop_diverges romLength (by omega) fuel 1 (Or.inr ⟨0, by omega, rfl⟩),
      pad_loop_diverges romLength (by omega) 33 1 (Or.inr ⟨0, by omega, rfl⟩)]

end Mesen

namespace Mesen

open GSE

theorem padded_rom_image (romData : List Nat) (romLength paddedRomLength : Nat)
    (hlen : romData.length = romLength) (hle : romLength ≤ paddedRomLength)
    (hp : pad_loop 33 1 romLength = some paddedRomLength) :
    padded_rom romData romLength =
      some (paddedRomLength,
        romData ++ List.replicate (paddedRomLength - romLength) 0xFF) := by
  unfold padded_rom
  rw [hp]
  dsimp only
  have h1 : memcpy (List.replicate paddedRomLength 0) 0 romData romLength
      = romData ++ List.replicate (paddedRomLength - romLength) 0 := by
    rw [← hlen, memcpy_zero, List.drop_replicate]
  rw [h1]
  by_cases heq : romLength = paddedRomLength
  · rw [if_neg (not_not.2 heq), heq, Nat.sub_self]
    rfl
  · rw [if_pos heq]
    unfold memset
    have h2 := memcpy_after romData (List.replicate (paddedRomLength - romLength) 0)
      (List.replicate (paddedRomLength - romLength) 0xFF)
    rw [List.length_replicate, hlen] at h2
    rw [h2, List.drop_replicate, Nat.sub_self]
    simp

/-- C19 counterexample: for `romLength = 0x80000001` the padding loop never
finishes, whatever the number of iterations allowed: `paddedRomLength` runs
through the powers of two up to `2 ^ 31`, the next shift gives 0 in `uint32_t`,
and 0 stays below `romLength` for ever; `mesen_create` then does not return. -/
theorem C19_rom_padding_counterexample :
    (0x80000001 < 2 ^ 32) ∧
    (¬∃ fuel paddedRomLength, pad_loop fuel 1 0x80000001 = some paddedRomLength) ∧
    pad_loop 32 1 0x80000001 = pad_loop 1 (2 ^ 31) 0x80000001 ∧
    pad_loop 33 1 0x80000001 = pad_loop 1 0 0x80000001 ∧
    (∀ romData : List Nat,
      mesen_create romData 0x80000001 [] 0x4000 false 0 exampleEnv = .diverges) := by
  have hdiv : ∀ fuel, pad_loop fuel 1 0x80000001 = none := fun fuel =>
    pad_loop_diverges 0x80000001 (by norm_num) fuel 1 (Or.inr ⟨0, by omega, rfl⟩)
  refine ⟨by norm_num, ?_, by decide, by decide, ?_⟩
  · rintro ⟨fuel, p, h⟩
    rw [hdiv fuel] at h
    cases h
  · intro romData
    unfold mesen_create padded_rom
    rw [hdiv 33]
    rfl

/-- C19 (amended): for every `romLength` up to `2 ^ 31` the padding loop of
`mesen_create` terminates (within 33 iterations, and with the same result for
any larger number), `paddedRomLength` is the smallest power of two that is
`>= max(romLength, 1)`, and the padded image consists of the `romLength` ROM
bytes followed by `paddedRomLength - romLength` bytes `0xFF`. -/
theorem C19_rom_padding (romData : List Nat) (romLength : Nat)
    (hlen : romData.length = romLength) (hn : romLength ≤ 2 ^ 31) :
    ∃ j paddedRom, padded_rom romData romLength = some (2 ^ j, paddedRom) ∧
      (∀ fuel, 33 ≤ fuel → pad_loop fuel 1 romLength = some (2 ^ j)) ∧
      max romLength 1 ≤ 2 ^ j ∧
      (∀ m, max romLength 1 ≤ 2 ^ m → 2 ^ j ≤ 2 ^ m) ∧
      paddedRom.length = 2 ^ j ∧
      paddedRom.take romLength = romData ∧
      paddedRom.drop romLength = List.replicate (2 ^ j - romLength) 0xFF := by
  obtain ⟨j, -, hj, hle, hmin⟩ := pad_loop_terminates romLength hn 33 0 (by omega) (by omega)
    (Or.inl rfl)
  rw [Nat.pow_zero] at hj
  refine ⟨j, romData ++ List.replicate (2 ^ j - romLength) 0xFF,
    padded_rom_image romData romLength (2 ^ j) hlen hle hj, ?_, ?_, ?_, ?_, ?_, ?_⟩
  · intro fuel hf
    rw [pad_loop_fuel romLength fuel hf, hj]
  · have : 1 ≤ 2 ^ j := Nat.one_le_two_pow
    omega
  · intro m hm
    rcases hmin with h0 | hlt
    · rw [h0, Nat.pow_zero]
      exact Nat.one_le_two_pow
    · apply Nat.pow_le_pow_right (by norm_num)
      by_contra hc
      have : 2 ^ m ≤ 2 ^ (j - 1) := Nat.pow_le_pow_right (by norm_num) (by omega)
      omega
  · rw [List.length_append, List.length_replicate, hlen]
    omega
  · rw [← hlen, List.take_left]
  · rw [← hlen, List.drop_left]

/-- Witness for C19: a five-byte ROM is padded to eight bytes with three bytes
`0xFF`. -/
theorem C19_rom_padding_witness :
    padded_rom [1, 2, 3, 4, 5] 5 = some (8, [1, 2, 3, 4, 5, 255, 255, 255]) ∧
    ∃ j paddedRom, padded_rom [1, 2, 3, 4, 5] 5 = some (2 ^ j, paddedRom) ∧
      paddedRom.drop 5 = List.replicate (2 ^ j - 5) 0xFF := by
  obtain ⟨j, paddedRom, h1, -, -, -, -, -, h2⟩ :=
    C19_rom_padding [1, 2, 3, 4, 5] 5 rfl (by norm_num)
  exact ⟨by decide, j, paddedRom, h1, h2⟩

end Mesen

namespace Mesen

open GSE

/-! ## `GSEAudioProvider::MixAudio` and the bounds of the ring -/

/-- As long as `sample_index + sampleCount` does not wrap in `uint32_t`, the
clamp of `MixAudio` works: `min(sampleCount, 8192 - n)` pairs are copied to slot
`n` onwards and the index ends at `n` plus that number, at most 8192. -/
theorem MixAudio_no_wrap (p : GSEAudioProvider) (out : List StereoSample)
    (sampleCount sampleRate : Nat) (hn : p.sample_index ≤ 8192)
    (hsum : p.sample_index + sampleCount < 2 ^ 32) :
    (p.MixAudio out sampleCount sampleRate).samples
        = memcpy p.samples p.sample_index out (min sampleCount (8192 - p.sample_index)) ∧
    (p.MixAudio out sampleCount sampleRate).sample_index
        = p.sample_index + min sampleCount (8192 - p.sample_index) ∧
    (p.MixAudio out sampleCount sampleRate).sample_index ≤ 8192 := by
  have hu : u32 (p.sample_index + sampleCount) = p.sample_index + sampleCount :=
    Nat.mod_eq_of_lt hsum
  have hc : intToU32 (8192 - (p.sample_index : Int)) = 8192 - p.sample_index := by
    unfold intToU32; omega
  unfold GSEAudioProvider.MixAudio
  dsimp only
  rw [hu, hc]
  by_cases h : p.sample_index + sampleCount ≥ 8192
  · rw [if_pos h]
    have hm : min sampleCount (8192 - p.sample_index) = 8192 - p.sample_index := by omega
    have hu2 : u32 (p.sample_index + (8192 - p.sample_index)) = 8192 := by
      have : p.sample_index + (8192 - p.sample_index) = 8192 := by omega
      rw [this]; rfl
    rw [hm, hu2]
    exact ⟨rfl, by omega, le_refl _⟩
  · rw [if_neg h]
    have hm : min sampleCount (8192 - p.sample_index) = sampleCount := by omega
    rw [hm, hu]
    exact ⟨rfl, rfl, by omega⟩

/-- When `sample_index + sampleCount` wraps in `uint32_t` to a value below
8192, `MixAudio` skips the clamp: it copies with the unclamped count and the
index ends at the wrapped sum. -/
theorem MixAudio_wrap (p : GSEAudioProvider) (out : List StereoSample)
    (sampleCount sampleRate : Nat) (hw : u32 (p.sample_index + sampleCount) < 8192) :
    (p.MixAudio out sampleCount sampleRate).samples
        = memcpy p.samples p.sample_index out sampleCount ∧
    (p.MixAudio out sampleCount sampleRate).sample_index
        = u32 (p.sample_index + sampleCount) := by
  unfold GSEAudioProvider.MixAudio
  dsimp only
  rw [if_neg (by omega)]
  exact ⟨rfl, rfl⟩

/-- For a 32-bit `sampleCount` and an index within the ring, the index after
`MixAudio` is `n + min(sampleCount, 8192 - n)` exactly when
`sample_index + sampleCount` does not wrap in `uint32_t`. -/
theorem MixAudio_index_iff (p : GSEAudioProvider) (out : List StereoSample)
    (sampleCount sampleRate : Nat) (hn : p.sample_index ≤ 8192) (hsc : sampleCount < 2 ^ 32) :
    (p.MixAudio out sampleCount sampleRate).sample_index
      = p.sample_index + min sampleCount (8192 - p.sample_index)
    ↔ p.sample_index + sampleCount < 2 ^ 32 := by
  constructor
  · intro h
    by_contra hw
    have hu : u32 (p.sample_index + sampleCount) = p.sample_index + sampleCount - 2 ^ 32 := by
      unfold u32
      omega
    have h2 := (MixAudio_wrap p out sampleCount sampleRate (by rw [hu]; omega)).2
    rw [h2, hu] at h
    omega
  · intro h
    exact (MixAudio_no_wrap p out sampleCount sampleRate hn h).2.1

/-- C20 counterexample: with `sample_index = 1` and `sampleCount = 0xFFFFFFFF`
the sum `sample_index + sampleCount` is 0 in `uint32_t`, so the clamp of
`MixAudio` is not taken: whatever the buffer `out` holds, `memcpy` is called
with the count `0xFFFFFFFF` instead of `min(0xFFFFFFFF, 8192 - 1) = 8191`, and
`sample_index` ends at 0 instead of `1 + 8191 = 8192`. -/
theorem C20_mix_audio_bounds_counterexample :
    (1 ≤ 8192 ∧ 0xFFFFFFFF < 2 ^ 32) ∧
    u32 (1 + 0xFFFFFFFF) = 0 ∧
    1 + min 0xFFFFFFFF (8192 - 1) = 8192 ∧
    (∀ out : List StereoSample,
      (GSEAudioProvider.MixAudio ⟨List.replicate 8192 ⟨0, 0⟩, 1⟩ out 0xFFFFFFFF
        48000).sample_index = 0 ∧
      (GSEAudioProvider.MixAudio ⟨List.replicate 8192 ⟨0, 0⟩, 1⟩ out 0xFFFFFFFF 48000).samples
        = memcpy (List.replicate 8192 ⟨0, 0⟩) 1 out 0xFFFFFFFF) ∧
    ¬ (∀ (p : GSEAudioProvider) (out : List StereoSample) (sampleCount sampleRate : Nat),
        p.sample_index ≤ 8192 → sampleCount < 2 ^ 32 →
        (p.MixAudio out sampleCount sampleRate).sample_index
          = p.sample_index + min sampleCount (8192 - p.sample_index)) := by
  have hu : u32 (1 + 0xFFFFFFFF) = 0 := by decide
  have hw : ∀ out : List StereoSample,
      (GSEAudioProvider.MixAudio ⟨List.replicate 8192 ⟨0, 0⟩, 1⟩ out 0xFFFFFFFF
        48000).sample_index = 0 ∧
      (GSEAudioProvider.MixAudio ⟨List.replicate 8192 ⟨0, 0⟩, 1⟩ out 0xFFFFFFFF 48000).samples
        = memcpy (List.replicate 8192 ⟨0, 0⟩) 1 out 0xFFFFFFFF := by
    intro out
    obtain ⟨h1, h2⟩ := MixAudio_wrap ⟨List.replicate 8192 ⟨0, 0⟩, 1⟩ out 0xFFFFFFFF 48000
      (by decide)
    exact ⟨h2.trans hu, h1⟩
  refine ⟨⟨by decide, by decide⟩, hu, by decide, hw, ?_⟩
  intro h
  have h3 := h ⟨List.replicate 8192 ⟨0, 0⟩, 1⟩ [] 0xFFFFFFFF 48000 (by decide) (by decide)
  rw [(hw []).1] at h3
  exact absurd h3 (by decide)

/-- C20 (amended): for a ring of 8192 pairs with `sample_index = n ≤ 8192`, a
buffer `out` holding `sampleCount` pairs, and `n + sampleCount < 2 ^ 32`,
`MixAudio` copies the first `min(sampleCount, 8192 - n)` pairs of `out`, in
order, to the slots starting at `n`, leaves every other slot unchanged, keeps
the ring at 8192 entries, and sets `sample_index` to
`n + min(sampleCount, 8192 - n)`, which does not exceed 8192. -/
theorem C20_mix_audio_bounds (p : GSEAudioProvider) (out : List StereoSample)
    (sampleCount sampleRate : Nat) (hn : p.sample_index ≤ 8192)
    (hlen : p.samples.length = 8192) (hout : sampleCount ≤ out.length)
    (hsum : p.sample_index + sampleCount < 2 ^ 32) :
    (p.MixAudio out sampleCount sampleRate).samples =
      p.samples.take p.sample_index ++
        out.take (min sampleCount (8192 - p.sample_index)) ++
        p.samples.drop (p.sample_index + min sampleCount (8192 - p.sample_index)) ∧
    (∀ i, i < p.sample_index →
      (p.MixAudio out sampleCount sampleRate).samples[i]? = p.samples[i]?) ∧
    (∀ k, k < min sampleCount (8192 - p.sample_index) →
      (p.MixAudio out sampleCount sampleRate).samples[p.sample_index + k]? = out[k]?) ∧
    (∀ i, p.sample_index + min sampleCount (8192 - p.sample_index) ≤ i →
      (p.MixAudio out sampleCount sampleRate).samples[i]? = p.samples[i]?) ∧
    (p.MixAudio out sampleCount sampleRate).samples.length = 8192 ∧
    (p.MixAudio out sampleCount sampleRate).sample_index
      = p.sample_index + min sampleCount (8192 - p.sample_index) ∧
    (p.MixAudio out sampleCount sampleRate).sample_index ≤ 8192 := by
  obtain ⟨h1, h2, h3⟩ := MixAudio_no_wrap p out sampleCount sampleRate hn hsum
  rw [h1]
  unfold memcpy
  generalize hm : min sampleCount (8192 - p.sample_index) = m at h2 h3 ⊢
  have hmle : p.sample_index + m ≤ 8192 := by omega
  have htl : (p.samples.take p.sample_index).length = p.sample_index := by
    rw [List.length_take]; omega
  have hol : (out.take m).length = m := by
    rw [List.length_take]; omega
  refine ⟨rfl, ?_, ?_, ?_, ?_, h2, h3⟩
  · intro i hi
    rw [List.append_assoc, List.getElem?_append_left (by omega), List.getElem?_take_of_lt hi]
  · intro k hk
    rw [List.append_assoc, List.getElem?_append_right (by omega),
      List.getElem?_append_left (by omega)]
    have e : p.sample_index + k - (p.samples.take p.sample_index).length = k := by omega
    rw [e, List.getElem?_take_of_lt hk]
  · intro i h1
    rw [List.getElem?_append_right (by rw [List.length_append]; omega), List.getElem?_drop]
    congr 1
    rw [List.length_append]
    omega
  · simp only [List.length_append, List.length_drop]
    omega

/-- Witness for C20: with the index at 8190 and five pairs offered, the first
two are copied to slots 8190 and 8191 and the index ends at 8192. -/
theorem C20_mix_audio_bounds_witness :
    (GSEAudioProvider.MixAudio ⟨List.replicate 8192 ⟨0, 0⟩, 8190⟩
      [⟨1, 1⟩, ⟨2, 2⟩, ⟨3, 3⟩, ⟨4, 4⟩, ⟨5, 5⟩] 5 48000).sample_index = 8192 ∧
    (GSEAudioProvider.MixAudio ⟨List.replicate 8192 ⟨0, 0⟩, 8190⟩
      [⟨1, 1⟩, ⟨2, 2⟩, ⟨3, 3⟩, ⟨4, 4⟩, ⟨5, 5⟩] 5 48000).samples[8190]? = some ⟨1, 1⟩ ∧
    (GSEAudioProvider.MixAudio ⟨List.replicate 8192 ⟨0, 0⟩, 8190⟩
      [⟨1, 1⟩, ⟨2, 2⟩, ⟨3, 3⟩, ⟨4, 4⟩, ⟨5, 5⟩] 5 48000).samples[8191]? = some ⟨2, 2⟩ ∧
    (GSEAudioProvider.MixAudio ⟨List.replicate 8192 ⟨0, 0⟩, 8190⟩
      [⟨1, 1⟩, ⟨2, 2⟩, ⟨3, 3⟩, ⟨4, 4⟩, ⟨5, 5⟩] 5 48000).samples[8189]? = some ⟨0, 0⟩ ∧
    (GSEAudioProvider.MixAudio ⟨List.replicate 8192 ⟨0, 0⟩, 8190⟩
      [⟨1, 1⟩, ⟨2, 2⟩, ⟨3, 3⟩, ⟨4, 4⟩, ⟨5, 5⟩] 5 48000).samples.length = 8192 :=
  have h := C20_mix_audio_bounds ⟨List.replicate 8192 ⟨0, 0⟩, 8190⟩
    [⟨1, 1⟩, ⟨2, 2⟩, ⟨3, 3⟩, ⟨4, 4⟩, ⟨5, 5⟩] 5 48000 (by decide)
    (List.length_replicate _ _) (by decide) (by decide)
  ⟨h.2.2.2.2.2.1.trans (by decide), (h.2.2.1 0 (by decide)).trans (by decide),
    (h.2.2.1 1 (by decide)).trans (by decide),
    (h.2.1 8189 (by decide)).trans (List.getElem?_replicate_of_lt (by decide)),
    h.2.2.2.2.1⟩

end Mesen
